import Mathlib

/-! # LinuxNetworkMonitor: delta tracking and history persistence

A shallow embedding of `src/main.cpp`.

* `std::string` is a list of characters (`Str`), one `Char` standing for one byte.
* `unsigned long long` and `size_t` are natural numbers; every operation that can
  leave the 64-bit range is written with an explicit `% 2 ^ 64`.
* `std::map<std::string, V>` is an association list kept in strictly ascending
  key order (`StrMap V`); iteration order is list order.
* A file read by `LoadHistoryFromDisk` is its content, or `none` when it does not
  exist; the files written are a log of the calls made to `SaveDailyStatsToDisk`,
  each with the text it writes.
* A C++ exception caught by the `catch (...)` of the loader is the value `none`.
* A `std::stringstream` is the text not yet consumed together with its `failbit`.
-/

namespace NetMon

/-! ## Strings -/

/-- A `std::string`: the sequence of its characters. -/
abbrev Str := List Char

/-- The value `std::string::npos`, the largest `size_t`. -/
def npos : Nat := 2 ^ 64 - 1

/-- The comparison `operator<` of `std::string`: lexicographic on character codes,
a proper prefix being smaller. -/
def strLt : Str → Str → Bool
  | [], [] => false
  | [], _ :: _ => true
  | _ :: _, [] => false
  | a :: as, b :: bs =>
    if a.toNat < b.toNat then true
    else if b.toNat < a.toNat then false
    else strLt as bs

/-! ## Ordered maps keyed by strings -/

/-- A `std::map<std::string, V>`: its entries in iteration order. -/
abbrev StrMap (V : Type) := List (Str × V)

namespace StrMap

variable {V : Type}

/-- The keys of a map are strictly ascending, as in every `std::map`. -/
def Sorted (m : StrMap V) : Prop :=
  List.Pairwise (fun a b => strLt a.1 b.1 = true) m

instance (m : StrMap V) : Decidable (Sorted m) := by
  unfold Sorted; infer_instance

/-- The lookup `m.find(k)`, walking the entries in key order. -/
def find? : StrMap V → Str → Option V
  | [], _ => none
  | (k', v) :: rest, k =>
    if strLt k' k then find? rest k
    else if strLt k k' then none
    else some v

/-- The assignment `m[k] = v`: replaces the entry of `k`, or inserts one at its
place in the key order. -/
def set : StrMap V → Str → V → StrMap V
  | [], k, v => [(k, v)]
  | (k', v') :: rest, k, v =>
    if strLt k' k then (k', v') :: set rest k v
    else if strLt k k' then (k, v) :: (k', v') :: rest
    else (k, v) :: rest

/-- The value read through `m[k]`: the stored value, or the value-initialised
default that `operator[]` creates when the key is absent. -/
def getD (m : StrMap V) (k : Str) (dflt : V) : V :=
  (m.find? k).getD dflt

end StrMap

/-! ## Data structures -/

/-- The struct `NetworkStatsSnapshot`. -/
structure NetworkStatsSnapshot where
  ReceivedBytes : Nat := 0
  TransmittedBytes : Nat := 0
  deriving DecidableEq, Repr

/-- A `std::map<std::string, NetworkStatsSnapshot>`. -/
abbrev History := StrMap NetworkStatsSnapshot

/-- The struct `InterfaceStateTracker`. -/
structure InterfaceStateTracker where
  IsFirstMeasurement : Bool := true
  LastMeasuredReceivedBytes : Nat := 0
  LastMeasuredTransmittedBytes : Nat := 0
  DailyUsageHistory : History := []
  deriving DecidableEq, Repr

/-- A snapshot whose two counters fit in an `unsigned long long`. -/
def NetworkStatsSnapshot.InRange (s : NetworkStatsSnapshot) : Prop :=
  s.ReceivedBytes < 2 ^ 64 ∧ s.TransmittedBytes < 2 ^ 64

instance (s : NetworkStatsSnapshot) : Decidable s.InRange := by
  unfold NetworkStatsSnapshot.InRange; infer_instance

/-- Every value of a history fits in an `unsigned long long`. -/
def History.InRange (h : History) : Prop :=
  ∀ e ∈ h, e.2.InRange

instance (h : History) : Decidable (History.InRange h) := by
  unfold History.InRange; infer_instance

/-- The read `history[date]`, an absent entry reading as zero. -/
def History.get (h : History) (date : Str) : NetworkStatsSnapshot :=
  StrMap.getD h date {}

/-- The statement `history[date].ReceivedBytes += change` on 64-bit values. -/
def History.addReceived (h : History) (date : Str) (change : Nat) : History :=
  let cur := History.get h date
  StrMap.set h date { cur with ReceivedBytes := (cur.ReceivedBytes + change) % 2 ^ 64 }

/-- The statement `history[date].TransmittedBytes += change` on 64-bit values. -/
def History.addTransmitted (h : History) (date : Str) (change : Nat) : History :=
  let cur := History.get h date
  StrMap.set h date { cur with TransmittedBytes := (cur.TransmittedBytes + change) % 2 ^ 64 }

/-! ## String operations of the standard library -/

/-- The search loop of `std::string::find`: `i` is the index of the first
character of the remaining text. -/
def findAux (needle : Str) : Str → Nat → Nat
  | [], i => if needle = [] then i else npos
  | c :: cs, i => if needle.isPrefixOf (c :: cs) then i else findAux needle cs (i + 1)

/-- The call `s.find(needle, pos)`: index of the first occurrence starting at or
after `pos`, or `npos`. -/
def find (s needle : Str) (pos : Nat) : Nat :=
  if s.length < pos then npos else findAux needle (s.drop pos) pos

/-- The call `s.substr(pos, count)`; `none` stands for `std::out_of_range`. -/
def substr (s : Str) (pos count : Nat) : Option Str :=
  if s.length < pos then none else some ((s.drop pos).take count)

/-- The characters `isspace` accepts in the C locale. -/
def isSpace (c : Char) : Bool :=
  c = ' ' || c = '\t' || c = '\n' || c = '\x0b' || c = '\x0c' || c = '\r'

/-- The number denoted by a string of decimal digits. -/
def digitsValue (ds : Str) : Nat :=
  ds.foldl (fun acc c => acc * 10 + (c.toNat - 48)) 0

/-- The call `std::stoull(s)` (base 10): leading white space is skipped, one sign
is accepted, the longest run of digits is converted and what follows is ignored;
a minus sign negates in 64-bit arithmetic. `none` stands for
`std::invalid_argument` (no digit) and `std::out_of_range` (value above
`2 ^ 64 - 1`). -/
def stoull (s : Str) : Option Nat :=
  let body := s.dropWhile isSpace
  let signed : Bool × Str :=
    match body with
    | '-' :: r => (true, r)
    | '+' :: r => (false, r)
    | _ => (false, body)
  let digits := signed.2.takeWhile Char.isDigit
  if digits = [] then none
  else if 2 ^ 64 ≤ digitsValue digits then none
  else if signed.1 then some ((2 ^ 64 - digitsValue digits) % 2 ^ 64)
  else some (digitsValue digits)

/-- The text `operator<<` prints for an `unsigned long long`: decimal, no leading
zero. -/
def toDecimal (n : Nat) : Str := Nat.toDigits 10 n

/-- The loop of `std::getline`: `cur` holds the characters of the line being
read, last one first. A final line without a newline is delivered when it is
not empty. -/
def getLinesAux : Str → Str → List Str
  | [], cur => if cur = [] then [] else [cur.reverse]
  | c :: cs, cur =>
    if c = '\n' then cur.reverse :: getLinesAux cs [] else getLinesAux cs (c :: cur)

/-- The lines `while (std::getline(inputFile, line))` delivers for a file content. -/
def getLines (content : Str) : List Str := getLinesAux content []

/-! ## File management -/

/-- The function `ConvertBytesToMegabytes`. -/
def ConvertBytesToMegabytes (totalBytes : Nat) : Nat := totalBytes / 1048576

/-- The text one iteration of the loop of `SaveDailyStatsToDisk` writes. -/
def saveLine (date : Str) (stats : NetworkStatsSnapshot) : Str :=
  let receivedMB := ConvertBytesToMegabytes stats.ReceivedBytes
  let transmittedMB := ConvertBytesToMegabytes stats.TransmittedBytes
  let totalMB := (receivedMB + transmittedMB) % 2 ^ 64
  date ++ ": Transmitted: ".toList ++ toDecimal transmittedMB ++ "MB , ".toList
    ++ "Received: ".toList ++ toDecimal receivedMB ++ "MB, ".toList
    ++ "Total: ".toList ++ toDecimal totalMB ++ "MB\n".toList

/-- The function `SaveDailyStatsToDisk`: the content the file has after the call
(the file is truncated, then one line is written per entry, in map order). -/
def SaveDailyStatsToDisk : History → Str
  | [] => []
  | (date, stats) :: rest => saveLine date stats ++ SaveDailyStatsToDisk rest

/-- The constant `transmittedMarker`. -/
def transmittedMarker : Str := "Transmitted: ".toList

/-- The constant `receivedMarker`. -/
def receivedMarker : Str := "Received: ".toList

/-- The `try` block of `LoadHistoryFromDisk` up to the two conversions: the date
key and the two megabyte numbers of a line. `none` means the line is left
without any assignment: no colon, the `if` not taken, or an exception thrown by
`substr` or `stoull`. -/
def parseHistoryLine (currentLineFromFile : Str) : Option (Str × Nat × Nat) :=
  let colonPosition := find currentLineFromFile [':'] 0
  if colonPosition = npos then none
  else
    match substr currentLineFromFile 0 colonPosition with
    | none => none
    | some dateKey =>
      let transmittedStart :=
        (find currentLineFromFile transmittedMarker 0 + transmittedMarker.length) % 2 ^ 64
      let transmittedEnd := find currentLineFromFile "MB".toList transmittedStart
      let receivedStart :=
        (find currentLineFromFile receivedMarker 0 + receivedMarker.length) % 2 ^ 64
      let receivedEnd := find currentLineFromFile "MB".toList receivedStart
      if transmittedStart ≠ npos ∧ receivedStart ≠ npos then
        match substr currentLineFromFile transmittedStart
            ((transmittedEnd + 2 ^ 64 - transmittedStart) % 2 ^ 64) with
        | none => none
        | some transmittedText =>
          match substr currentLineFromFile receivedStart
              ((receivedEnd + 2 ^ 64 - receivedStart) % 2 ^ 64) with
          | none => none
          | some receivedText =>
            match stoull transmittedText with
            | none => none
            | some transmittedMegabytes =>
              match stoull receivedText with
              | none => none
              | some receivedMegabytes =>
                some (dateKey, transmittedMegabytes, receivedMegabytes)
      else none

/-- One iteration of the `while` loop of `LoadHistoryFromDisk`. -/
def loadLine (usageHistory : History) (currentLineFromFile : Str) : History :=
  match parseHistoryLine currentLineFromFile with
  | none => usageHistory
  | some (dateKey, transmittedMegabytes, receivedMegabytes) =>
    let h1 := StrMap.set usageHistory dateKey
      { History.get usageHistory dateKey with
        TransmittedBytes := (transmittedMegabytes * 1048576) % 2 ^ 64 }
    StrMap.set h1 dateKey
      { History.get h1 dateKey with ReceivedBytes := (receivedMegabytes * 1048576) % 2 ^ 64 }

/-- The function `LoadHistoryFromDisk`; `file` is the content of the file at
`filePath`, `none` when the file does not exist. -/
def LoadHistoryFromDisk (file : Option Str) (usageHistory : History) : History :=
  match file with
  | none => usageHistory
  | some content => (getLines content).foldl loadLine usageHistory

/-! ## Main engine -/

/-- What `RunNetworkMonitoringLoop` fixes before its loop. -/
structure Startup where
  physicalInterfacesFolder : Str
  virtualInterfacesFolder : Str
  physicalNames : List Str
  virtualNames : List Str

/-- One call of `SaveDailyStatsToDisk(folder / name, history)`: the file it
addresses and the content the file has once the call has written it. -/
structure FileWrite where
  folder : Str
  name : Str
  content : Str
  deriving DecidableEq, Repr

/-- The variables of `RunNetworkMonitoringLoop` that change while it runs, and
the calls to `SaveDailyStatsToDisk` made so far (oldest first). -/
structure MonitorState where
  internalStateCollection : StrMap InterfaceStateTracker := []
  physicalAggregateTracker : InterfaceStateTracker := {}
  virtualAggregateTracker : InterfaceStateTracker := {}
  totalPhysicalChangeReceived : Nat := 0
  totalPhysicalChangeTransmitted : Nat := 0
  totalVirtualChangeReceived : Nat := 0
  totalVirtualChangeTransmitted : Nat := 0
  writes : List FileWrite := []

/-- The reset check of the polling loop for one counter: the whole current value
after a reset, the 64-bit difference otherwise. -/
def counterChange (live lastMeasured : Nat) : Nat :=
  if live < lastMeasured then live else (live + 2 ^ 64 - lastMeasured) % 2 ^ 64

/-- The local `changeInReceived` of the polling loop. -/
def changeInReceived (liveStats : NetworkStatsSnapshot) (tracker : InterfaceStateTracker) : Nat :=
  counterChange liveStats.ReceivedBytes tracker.LastMeasuredReceivedBytes

/-- The local `changeInTransmitted` of the polling loop. -/
def changeInTransmitted (liveStats : NetworkStatsSnapshot) (tracker : InterfaceStateTracker) :
    Nat :=
  counterChange liveStats.TransmittedBytes tracker.LastMeasuredTransmittedBytes

/-- The tracker `internalStateCollection[interfaceName]`, a fresh one when the
name is not yet tracked. -/
def MonitorState.tracker (st : MonitorState) (interfaceName : Str) : InterfaceStateTracker :=
  StrMap.getD st.internalStateCollection interfaceName {}

/-- The body of `for (auto& [interfaceName, liveStats] : currentKernelStats)`. -/
def pollInterface (env : Startup) (todayDateString : Str) (st : MonitorState)
    (entry : Str × NetworkStatsSnapshot) : MonitorState :=
  let interfaceName := entry.1
  let liveStats := entry.2
  let tracker := st.tracker interfaceName
  if tracker.IsFirstMeasurement = true then
    { st with
      internalStateCollection := StrMap.set st.internalStateCollection interfaceName
        { tracker with
          LastMeasuredReceivedBytes := liveStats.ReceivedBytes
          LastMeasuredTransmittedBytes := liveStats.TransmittedBytes
          IsFirstMeasurement := false } }
  else
    let dR := changeInReceived liveStats tracker
    let dT := changeInTransmitted liveStats tracker
    if 0 < dR ∨ 0 < dT then
      let history :=
        History.addTransmitted (History.addReceived tracker.DailyUsageHistory todayDateString dR)
          todayDateString dT
      let isPhysicalInterface := env.physicalNames.contains interfaceName
      let targetSubFolder :=
        if isPhysicalInterface then env.physicalInterfacesFolder else env.virtualInterfacesFolder
      let written : FileWrite :=
        { folder := targetSubFolder, name := interfaceName,
          content := SaveDailyStatsToDisk history }
      let updated : InterfaceStateTracker :=
        { tracker with
          DailyUsageHistory := history
          LastMeasuredReceivedBytes := liveStats.ReceivedBytes
          LastMeasuredTransmittedBytes := liveStats.TransmittedBytes }
      if isPhysicalInterface then
        { st with
          internalStateCollection := StrMap.set st.internalStateCollection interfaceName updated
          writes := st.writes ++ [written]
          totalPhysicalChangeReceived := (st.totalPhysicalChangeReceived + dR) % 2 ^ 64
          totalPhysicalChangeTransmitted := (st.totalPhysicalChangeTransmitted + dT) % 2 ^ 64 }
      else
        { st with
          internalStateCollection := StrMap.set st.internalStateCollection interfaceName updated
          writes := st.writes ++ [written]
          totalVirtualChangeReceived := (st.totalVirtualChangeReceived + dR) % 2 ^ 64
          totalVirtualChangeTransmitted := (st.totalVirtualChangeTransmitted + dT) % 2 ^ 64 }
    else
      { st with
        internalStateCollection := StrMap.set st.internalStateCollection interfaceName
          { tracker with
            LastMeasuredReceivedBytes := liveStats.ReceivedBytes
            LastMeasuredTransmittedBytes := liveStats.TransmittedBytes } }

/-- The update of one aggregate tracker at the end of a polling cycle, with the
call to `SaveDailyStatsToDisk` it makes. -/
def updateAggregate (folder fileName todayDateString : Str) (changeReceived changeTransmitted : Nat)
    (aggregate : InterfaceStateTracker) (writes : List FileWrite) :
    InterfaceStateTracker × List FileWrite :=
  if 0 < changeReceived ∨ 0 < changeTransmitted then
    let history :=
      History.addTransmitted
        (History.addReceived aggregate.DailyUsageHistory todayDateString changeReceived)
        todayDateString changeTransmitted
    ({ aggregate with DailyUsageHistory := history },
      writes ++ [{ folder := folder, name := fileName, content := SaveDailyStatsToDisk history }])
  else (aggregate, writes)

/-- One iteration of `while (true)` without its sleep, for the date and the
counter snapshot the iteration obtains. -/
def pollingCycle (env : Startup) (todayDateString : Str)
    (currentKernelStats : StrMap NetworkStatsSnapshot) (st : MonitorState) : MonitorState :=
  let st0 : MonitorState :=
    { st with
      totalPhysicalChangeReceived := 0
      totalPhysicalChangeTransmitted := 0
      totalVirtualChangeReceived := 0
      totalVirtualChangeTransmitted := 0 }
  let st1 := currentKernelStats.foldl (pollInterface env todayDateString) st0
  let p := updateAggregate env.physicalInterfacesFolder "TotalPhysicalUsage".toList todayDateString
    st1.totalPhysicalChangeReceived st1.totalPhysicalChangeTransmitted
    st1.physicalAggregateTracker st1.writes
  let v := updateAggregate env.virtualInterfacesFolder "TotalVirtualUsage".toList todayDateString
    st1.totalVirtualChangeReceived st1.totalVirtualChangeTransmitted
    st1.virtualAggregateTracker p.2
  { st1 with physicalAggregateTracker := p.1, virtualAggregateTracker := v.1, writes := v.2 }

/-- The readings of one interface on successive polls, each with the date of its
poll, fed to the polling step in order. -/
def observeAll (env : Startup) (interfaceName : Str) (st : MonitorState)
    (readings : List (Str × NetworkStatsSnapshot)) : MonitorState :=
  readings.foldl (fun s r => pollInterface env r.1 s (interfaceName, r.2)) st

/-! ## Reading the system counter table -/

/-- A `std::stringstream` being read: the characters not yet consumed and whether
`failbit` is set. -/
structure LineScanner where
  rest : Str
  failed : Bool := false
  deriving DecidableEq, Repr

/-- The extraction `lineScanner >> word` into a `std::string` that holds `old`:
white space is skipped and the characters up to the next white space are taken.
At the end of the input the extraction fails and the string keeps its value; on a
failed stream nothing happens. -/
def extractWord (s : LineScanner) (old : Str) : LineScanner × Str :=
  if s.failed = true then (s, old)
  else
    let body := s.rest.dropWhile isSpace
    let word := body.takeWhile (fun c => !isSpace c)
    if word = [] then ({ rest := body, failed := true }, old)
    else ({ rest := body.drop word.length, failed := false }, word)

/-- The extraction `lineScanner >> value` into an `unsigned long long` that holds
`old`: white space is skipped, one sign is accepted and the digits that follow are
converted. At the end of the input the extraction fails and the value is kept;
without a digit it fails and stores 0; above `2 ^ 64 - 1` it fails and stores
`2 ^ 64 - 1`; a minus sign negates in 64-bit arithmetic. On a failed stream
nothing happens. -/
def extractUnsigned (s : LineScanner) (old : Nat) : LineScanner × Nat :=
  if s.failed = true then (s, old)
  else
    let body := s.rest.dropWhile isSpace
    if body = [] then ({ rest := [], failed := true }, old)
    else
      let signed : Bool × Str :=
        match body with
        | '-' :: r => (true, r)
        | '+' :: r => (false, r)
        | _ => (false, body)
      let digits := signed.2.takeWhile Char.isDigit
      let after := signed.2.drop digits.length
      if digits = [] then ({ rest := after, failed := true }, 0)
      else if 2 ^ 64 ≤ digitsValue digits then ({ rest := after, failed := true }, 2 ^ 64 - 1)
      else if signed.1 = true then
        ({ rest := after, failed := false }, (2 ^ 64 - digitsValue digits) % 2 ^ 64)
      else ({ rest := after, failed := false }, digitsValue digits)

/-- The loop `for (int i = 0; i < 7; i++) { std::string dummy; lineScanner >> dummy; }`
run `n` times. -/
def skipWords : Nat → LineScanner → LineScanner
  | 0, s => s
  | n + 1, s => skipWords n (extractWord s []).1

/-- The body of the `while` loop of `FetchCurrentKernelNetworkStats` up to its
assignment: the name and the counters read from one line. -/
def parseNetDevLine (line : Str) : Str × NetworkStatsSnapshot :=
  let replaced := line.map (fun c => if c = ':' then ' ' else c)
  let lineScanner : LineScanner := { rest := replaced }
  let afterName := extractWord lineScanner []
  let afterReceived := extractUnsigned afterName.1 0
  let afterDummies := skipWords 7 afterReceived.1
  let afterTransmitted := extractUnsigned afterDummies 0
  (afterName.2, { ReceivedBytes := afterReceived.2, TransmittedBytes := afterTransmitted.2 })

/-- The function `FetchCurrentKernelNetworkStats`; `netDevFile` is the content of
`/proc/net/dev`, `none` when it cannot be opened. The first two lines are the
headers. -/
def FetchCurrentKernelNetworkStats (netDevFile : Option Str) : StrMap NetworkStatsSnapshot :=
  match netDevFile with
  | none => []
  | some content =>
    ((getLines content).drop 2).foldl
      (fun currentStats line =>
        StrMap.set currentStats (parseNetDevLine line).1 (parseNetDevLine line).2) []

/-! ## Notions used to state the properties -/

/-- No counter reset: starting from the reading `prev`, each reading is at least
the one before it, for received and for transmitted. -/
def NoReset : NetworkStatsSnapshot → List (Str × NetworkStatsSnapshot) → Prop
  | _, [] => True
  | prev, (_, c) :: rest =>
    prev.ReceivedBytes ≤ c.ReceivedBytes ∧ prev.TransmittedBytes ≤ c.TransmittedBytes ∧
      NoReset c rest

/-- Whether a sequence of readings is free of resets can be computed. -/
def NoReset.decidable :
    (prev : NetworkStatsSnapshot) → (rest : List (Str × NetworkStatsSnapshot)) →
      Decidable (NoReset prev rest)
  | _, [] => isTrue trivial
  | prev, (_, c) :: rest =>
    have : Decidable (NoReset c rest) := NoReset.decidable c rest
    (inferInstance : Decidable (prev.ReceivedBytes ≤ c.ReceivedBytes ∧
      prev.TransmittedBytes ≤ c.TransmittedBytes ∧ NoReset c rest))

instance (prev : NetworkStatsSnapshot) (rest : List (Str × NetworkStatsSnapshot)) :
    Decidable (NoReset prev rest) := NoReset.decidable prev rest

/-- The sum, over the readings observed on `date`, of the received bytes gained
since the reading before (`prev` is the reading before the first of the list). -/
def receivedOn (date : Str) : NetworkStatsSnapshot → List (Str × NetworkStatsSnapshot) → Nat
  | _, [] => 0
  | prev, (d, c) :: rest =>
    (if d = date then c.ReceivedBytes - prev.ReceivedBytes else 0) + receivedOn date c rest

/-- The sum, over the readings observed on `date`, of the transmitted bytes gained
since the reading before. -/
def transmittedOn (date : Str) : NetworkStatsSnapshot → List (Str × NetworkStatsSnapshot) → Nat
  | _, [] => 0
  | prev, (d, c) :: rest =>
    (if d = date then c.TransmittedBytes - prev.TransmittedBytes else 0)
      + transmittedOn date c rest

/-- The last reading of a sequence that starts with `first`. -/
def finalReading : NetworkStatsSnapshot → List (Str × NetworkStatsSnapshot) → NetworkStatsSnapshot
  | first, [] => first
  | _, (_, c) :: rest => finalReading c rest

/-- The history of a tracker after a polling step that computed the changes `dR`
and `dT`: untouched when both are zero, otherwise the entry of `today` grows by
them in 64-bit arithmetic. -/
def historyAfter (h : History) (today : Str) (dR dT : Nat) : History :=
  if 0 < dR ∨ 0 < dT then
    StrMap.set h today
      { ReceivedBytes := ((History.get h today).ReceivedBytes + dR) % 2 ^ 64
        TransmittedBytes := ((History.get h today).TransmittedBytes + dT) % 2 ^ 64 }
  else h

/-- The tracker of an interface after its polling step. -/
def trackerAfter (tracker : InterfaceStateTracker) (today : Str)
    (liveStats : NetworkStatsSnapshot) : InterfaceStateTracker :=
  { IsFirstMeasurement := false
    LastMeasuredReceivedBytes := liveStats.ReceivedBytes
    LastMeasuredTransmittedBytes := liveStats.TransmittedBytes
    DailyUsageHistory :=
      if tracker.IsFirstMeasurement = true then tracker.DailyUsageHistory
      else historyAfter tracker.DailyUsageHistory today (changeInReceived liveStats tracker)
        (changeInTransmitted liveStats tracker) }

/-- The text `d: Transmitted: aMB , Received: bMB` followed by `tail`: a line of a
history file up to the end of its received field. -/
def historyLine (d a b tail : Str) : Str :=
  d ++ (": ".toList ++ (transmittedMarker ++ (a ++ ("MB , ".toList ++
    (receivedMarker ++ (b ++ ("MB".toList ++ tail)))))))

/-- The line `d: Transmitted: aMB , Received: bMB, Total: cMB` of the file format. -/
def formatLine (d a b c : Str) : Str :=
  d ++ ": Transmitted: ".toList ++ a ++ "MB , Received: ".toList ++ b ++ "MB, Total: ".toList
    ++ c ++ "MB".toList

/-- The text `s` ends with the text `ending`. -/
def endsWith (s ending : Str) : Bool := ending.isSuffixOf s

/-- A string of decimal digits: not empty, digits only. -/
def IsDigits (s : Str) : Prop := s ≠ [] ∧ ∀ c ∈ s, c.isDigit = true

instance (s : Str) : Decidable (IsDigits s) := by
  unfold IsDigits; infer_instance

/-- The text of a line before its first colon; `none` when the line has no colon. -/
def textBeforeFirstColon (line : Str) : Option Str :=
  if ':' ∈ line then some (line.takeWhile (fun c => c != ':')) else none

/-- What a saved and reloaded entry holds: both byte counts cut down to whole
megabytes. -/
def wholeMegabytes (s : NetworkStatsSnapshot) : NetworkStatsSnapshot :=
  { ReceivedBytes := s.ReceivedBytes / 1048576 * 1048576
    TransmittedBytes := s.TransmittedBytes / 1048576 * 1048576 }

/-- A date key that survives a save and a reload: it holds no colon and no
newline, it does not end in the word of a marker, and it has the length of a
`std::string`. -/
def ReloadableKey (k : Str) : Prop :=
  ':' ∉ k ∧ '\n' ∉ k ∧ endsWith k "Transmitted".toList = false ∧
    endsWith k "Received".toList = false ∧ k.length < 2 ^ 62

instance (k : Str) : Decidable (ReloadableKey k) := by
  unfold ReloadableKey; infer_instance

/-- The line of the file format for one entry, without its newline: the two byte
counts in whole megabytes and, as total, the sum of these two numbers. -/
def entryLine (date : Str) (stats : NetworkStatsSnapshot) : Str :=
  formatLine date (toDecimal (stats.TransmittedBytes / 1048576))
    (toDecimal (stats.ReceivedBytes / 1048576))
    (toDecimal (stats.TransmittedBytes / 1048576 + stats.ReceivedBytes / 1048576))

/-- Every byte count of a history is an exact multiple of 1,048,576. -/
def History.Aligned (h : History) : Prop :=
  ∀ e ∈ h, e.2.ReceivedBytes % 1048576 = 0 ∧ e.2.TransmittedBytes % 1048576 = 0

instance (h : History) : Decidable (History.Aligned h) := by
  unfold History.Aligned; infer_instance

/-- The text `needle` occurs in `s` at index `j`. -/
def occursAt (needle s : Str) (j : Nat) : Bool := needle.isPrefixOf (s.drop j)

/-- One of the two counters of a snapshot: the received one or the transmitted
one. -/
def counterOf (received : Bool) (s : NetworkStatsSnapshot) : Nat :=
  if received = true then s.ReceivedBytes else s.TransmittedBytes

/-- The sum, over the tracked interfaces that are (`physical = true`) or are not
(`physical = false`) in the physical-name list taken at start-up, of one counter
of their `DailyUsageHistory[date]`, an absent entry counting as zero. -/
def categorySum (env : Startup) (physical received : Bool) (date : Str) :
    StrMap InterfaceStateTracker → Nat
  | [] => 0
  | (name, tracker) :: rest =>
    (if env.physicalNames.contains name = physical then
        counterOf received (History.get tracker.DailyUsageHistory date)
      else 0)
      + categorySum env physical received date rest

/-- The aggregate tracker of a category. -/
def aggregateOf (st : MonitorState) (physical : Bool) : InterfaceStateTracker :=
  if physical = true then st.physicalAggregateTracker else st.virtualAggregateTracker

/-- The running total of a category and a counter. -/
def runningTotal (st : MonitorState) (physical received : Bool) : Nat :=
  if physical = true then
    if received = true then st.totalPhysicalChangeReceived else st.totalPhysicalChangeTransmitted
  else
    if received = true then st.totalVirtualChangeReceived else st.totalVirtualChangeTransmitted

/-- The change of one counter that the polling step computes. -/
def changeOf (received : Bool) (liveStats : NetworkStatsSnapshot)
    (tracker : InterfaceStateTracker) : Nat :=
  if received = true then changeInReceived liveStats tracker
  else changeInTransmitted liveStats tracker

/-- For every date, each aggregate tracker holds, for received and for transmitted,
the 64-bit sum of the entries of the tracked interfaces of its category. -/
def AggregatesMatch (env : Startup) (st : MonitorState) : Prop :=
  ∀ date,
    (History.get st.physicalAggregateTracker.DailyUsageHistory date).ReceivedBytes
        = categorySum env true true date st.internalStateCollection % 2 ^ 64 ∧
      (History.get st.physicalAggregateTracker.DailyUsageHistory date).TransmittedBytes
        = categorySum env true false date st.internalStateCollection % 2 ^ 64 ∧
      (History.get st.virtualAggregateTracker.DailyUsageHistory date).ReceivedBytes
        = categorySum env false true date st.internalStateCollection % 2 ^ 64 ∧
      (History.get st.virtualAggregateTracker.DailyUsageHistory date).TransmittedBytes
        = categorySum env false false date st.internalStateCollection % 2 ^ 64

/-- Every history of the state is empty: those of the tracked interfaces and those
of the two aggregate trackers. -/
def AllHistoriesEmpty (st : MonitorState) : Prop :=
  (∀ e ∈ st.internalStateCollection, e.2.DailyUsageHistory = []) ∧
    st.physicalAggregateTracker.DailyUsageHistory = [] ∧
    st.virtualAggregateTracker.DailyUsageHistory = []

/-- Polling cycles run one after the other, each with its date and its counter
snapshot. -/
def runCycles (env : Startup) (st : MonitorState)
    (cycles : List (Str × StrMap NetworkStatsSnapshot)) : MonitorState :=
  cycles.foldl (fun s c => pollingCycle env c.1 c.2 s) st

/-- The change of one counter that the polling step applies to the history:
nothing at the first measurement, the computed change afterwards. -/
def appliedChange (received : Bool) (liveStats : NetworkStatsSnapshot)
    (tracker : InterfaceStateTracker) : Nat :=
  if tracker.IsFirstMeasurement = true then 0 else changeOf received liveStats tracker

/-- The state at the end of the loop over the snapshot in a polling cycle, before
the aggregate trackers are updated. -/
def cycleLoop (env : Startup) (todayDateString : Str)
    (currentKernelStats : StrMap NetworkStatsSnapshot) (st : MonitorState) : MonitorState :=
  currentKernelStats.foldl (pollInterface env todayDateString)
    { st with
      totalPhysicalChangeReceived := 0
      totalPhysicalChangeTransmitted := 0
      totalVirtualChangeReceived := 0
      totalVirtualChangeTransmitted := 0 }

/-- The path `folder / name` of `std::filesystem`: a name that starts at the root
replaces the folder; otherwise the name is appended, after a separator unless the
folder is empty or ends in one. -/
def joinPath (folder name : Str) : Str :=
  if name.head? = some '/' then name
  else if folder = [] ∨ folder.getLast? = some '/' then folder ++ name
  else folder ++ '/' :: name

/-- The path as `open` receives it, a C string: it ends before the first NUL
character. -/
def cString (path : Str) : Str := path.takeWhile (fun c => c != Char.ofNat 0)

/-- The loop that cuts a path at its separators: `cur` holds the characters of the
component being read, last one first. -/
def pathComponentsAux : Str → Str → List Str
  | [], cur => [cur.reverse]
  | c :: cs, cur =>
    if c = '/' then cur.reverse :: pathComponentsAux cs [] else pathComponentsAux cs (c :: cur)

/-- The components of a path: the texts between its separators. -/
def pathComponents (path : Str) : List Str := pathComponentsAux path []

/-- One step of the resolution of a path, on the components resolved so far (last
one first): an empty component and `.` change nothing, `..` leaves the last
directory (at the root it stays, in front of a relative path it is kept), any
other component is entered. -/
def resolveStep (absolute : Bool) (resolved : List Str) (component : Str) : List Str :=
  if component = [] ∨ component = ".".toList then resolved
  else if component = "..".toList then
    match resolved with
    | [] => if absolute = true then [] else [component]
    | top :: rest => if top = "..".toList then component :: resolved else rest
  else component :: resolved

/-- The file that `SaveDailyStatsToDisk(folder / name, ...)` opens: whether its
path starts at the root, and the components of the path once resolved, last one
first. Two paths with the same value name the same file; the storage is taken to
hold no links. -/
def fileOf (folder name : Str) : Bool × List Str :=
  ((cString (joinPath folder name)).head? = some '/',
    (pathComponents (cString (joinPath folder name))).foldl
      (resolveStep ((cString (joinPath folder name)).head? = some '/')) [])

/-- The replay of the log on the disk for one file: `i` is the number of the next
call and `current` the content of the file so far. A call that cannot open its
file returns without touching the disk; a call that opens the file truncates it
and writes its text. -/
def fileContentAux (opened : Nat → Bool) (file : Bool × List Str) :
    Nat → List FileWrite → Option Str → Option Str
  | _, [], current => current
  | i, w :: rest, current =>
    fileContentAux opened file (i + 1) rest
      (if opened i = true ∧ fileOf w.folder w.name = file then some w.content else current)

/-- The content of the file `folder / name` after the calls of the log, the storage
being empty at the start; `opened i` tells whether call number `i` could open its
file. `none` when the file does not exist. -/
def fileContent (opened : Nat → Bool) (writes : List FileWrite) (folder name : Str) :
    Option Str :=
  fileContentAux opened (fileOf folder name) 0 writes none

/-- The megabyte values a history file shows for a date, read with the loader of
the program: zero when the file is missing or has no line for the date. -/
def megabytesInFile (file : Option Str) (date : Str) : NetworkStatsSnapshot :=
  { ReceivedBytes :=
      ConvertBytesToMegabytes (History.get (LoadHistoryFromDisk file []) date).ReceivedBytes
    TransmittedBytes :=
      ConvertBytesToMegabytes (History.get (LoadHistoryFromDisk file []) date).TransmittedBytes }

/-- The folder the polling step saves the history of an interface under. -/
def interfaceFolder (env : Startup) (name : Str) : Str :=
  if env.physicalNames.contains name = true then env.physicalInterfacesFolder
  else env.virtualInterfacesFolder

/-- The folder of the aggregate file of a category. -/
def aggregateFolder (env : Startup) (physical : Bool) : Str :=
  if physical = true then env.physicalInterfacesFolder else env.virtualInterfacesFolder

/-- The name of the aggregate file of a category. -/
def aggregateFileName (physical : Bool) : Str :=
  if physical = true then "TotalPhysicalUsage".toList else "TotalVirtualUsage".toList

/-- The sum, over the tracked interfaces of one category, of one megabyte value
shown for a date by the file of the interface. -/
def categoryFileSum (env : Startup) (opened : Nat → Bool) (writes : List FileWrite)
    (physical received : Bool) (date : Str) : StrMap InterfaceStateTracker → Nat
  | [] => 0
  | (name, _) :: rest =>
    (if env.physicalNames.contains name = physical then
        counterOf received
          (megabytesInFile (fileContent opened writes (interfaceFolder env name) name) date)
      else 0)
      + categoryFileSum env opened writes physical received date rest

/-- A file holds what save writes for a history, or is missing while the history is
empty. -/
def InSync (file : Option Str) (h : History) : Prop :=
  file = some (SaveDailyStatsToDisk h) ∨ (file = none ∧ h = [])

/-- A history as the monitoring loop keeps it: keys ascending, 64-bit values, and
every key a date that survives a save and a reload. -/
def GoodHistory (h : History) : Prop :=
  StrMap.Sorted h ∧ History.InRange h ∧ ∀ e ∈ h, ReloadableKey e.1

/-- A plain file name: one path component that `open` receives whole - not empty,
without separator and without NUL character, and neither `.` nor `..`. -/
def PlainName (name : Str) : Prop :=
  name ≠ [] ∧ '/' ∉ name ∧ Char.ofNat 0 ∉ name ∧ name ≠ ".".toList ∧ name ≠ "..".toList

instance (name : Str) : Decidable (PlainName name) := by
  unfold PlainName; infer_instance

/-- The name of an interface that gets a file of its own: a plain file name that is
not the name of an aggregate file. -/
def InterfaceName (name : Str) : Prop :=
  PlainName name ∧ name ≠ "TotalPhysicalUsage".toList ∧ name ≠ "TotalVirtualUsage".toList

instance (name : Str) : Decidable (InterfaceName name) := by
  unfold InterfaceName; infer_instance

/-- The two storage folders are C strings: their paths hold no NUL character. -/
def PlainFolders (env : Startup) : Prop :=
  Char.ofNat 0 ∉ env.physicalInterfacesFolder ∧ Char.ofNat 0 ∉ env.virtualInterfacesFolder

instance (env : Startup) : Decidable (PlainFolders env) := by
  unfold PlainFolders; infer_instance

/-- The files agree with the state: the tracked names are ascending and are
interface names, the file of every interface and of each aggregate holds the saved
history of its tracker, and every history is a good one. -/
def FilesInSync (env : Startup) (opened : Nat → Bool) (st : MonitorState) : Prop :=
  StrMap.Sorted st.internalStateCollection ∧
    (∀ e ∈ st.internalStateCollection, InterfaceName e.1) ∧
    (∀ name, InterfaceName name →
      InSync (fileContent opened st.writes (interfaceFolder env name) name)
          (st.tracker name).DailyUsageHistory ∧
        GoodHistory (st.tracker name).DailyUsageHistory) ∧
    (∀ physical,
      InSync
          (fileContent opened st.writes (aggregateFolder env physical)
            (aggregateFileName physical))
          (aggregateOf st physical).DailyUsageHistory ∧
        GoodHistory (aggregateOf st physical).DailyUsageHistory)

/-- The sum, over the tracked interfaces of one category, of what one counter of
their `DailyUsageHistory[date]` holds beyond its whole megabytes. -/
def categoryRemainders (env : Startup) (physical received : Bool) (date : Str) :
    StrMap InterfaceStateTracker → Nat
  | [] => 0
  | (name, tracker) :: rest =>
    (if env.physicalNames.contains name = physical then
        counterOf received (History.get tracker.DailyUsageHistory date) % 1048576
      else 0)
      + categoryRemainders env physical received date rest

/-- The sum, over the tracked interfaces of one category, of the whole megabytes
of one counter of their `DailyUsageHistory[date]`. -/
def categoryWholeMegabytes (env : Startup) (physical received : Bool) (date : Str) :
    StrMap InterfaceStateTracker → Nat
  | [] => 0
  | (name, tracker) :: rest =>
    (if env.physicalNames.contains name = physical then
        counterOf received (History.get tracker.DailyUsageHistory date) / 1048576
      else 0)
      + categoryWholeMegabytes env physical received date rest

/-- The local `transmittedStart` of `LoadHistoryFromDisk` for a line. -/
def transmittedStartOf (line : Str) : Nat :=
  (find line transmittedMarker 0 + transmittedMarker.length) % 2 ^ 64

/-- The local `receivedStart` of `LoadHistoryFromDisk` for a line. -/
def receivedStartOf (line : Str) : Nat :=
  (find line receivedMarker 0 + receivedMarker.length) % 2 ^ 64

/-- The local `transmittedText` of `LoadHistoryFromDisk` for a line; `none` when
`substr` throws. -/
def transmittedTextOf (line : Str) : Option Str :=
  substr line (transmittedStartOf line)
    ((find line "MB".toList (transmittedStartOf line) + 2 ^ 64 - transmittedStartOf line) % 2 ^ 64)

/-- The local `receivedText` of `LoadHistoryFromDisk` for a line; `none` when
`substr` throws. -/
def receivedTextOf (line : Str) : Option Str :=
  substr line (receivedStartOf line)
    ((find line "MB".toList (receivedStartOf line) + 2 ^ 64 - receivedStartOf line) % 2 ^ 64)

instance (st : MonitorState) : Decidable (AllHistoriesEmpty st) := by
  unfold AllHistoriesEmpty; infer_instance

/-! ## Concrete inputs used by the examples -/

/-- A start-up with one physical interface `eth0` and one virtual interface `lo`. -/
def exampleStartup : Startup :=
  { physicalInterfacesFolder := "/home/u/NetworkUsage/PhysicalInterfaces".toList
    virtualInterfacesFolder := "/home/u/NetworkUsage/VirtualInterfaces".toList
    physicalNames := ["eth0".toList]
    virtualNames := ["lo".toList] }

/-- A state in which `eth0` has its baseline: received 5000, transmitted 100. -/
def exampleBaselineState : MonitorState :=
  { internalStateCollection :=
      [("eth0".toList,
        { IsFirstMeasurement := false
          LastMeasuredReceivedBytes := 5000
          LastMeasuredTransmittedBytes := 100
          DailyUsageHistory := [] })] }

/-- A history file whose received value is the largest megabyte count that still
fits 64 bits once converted to bytes. -/
def exampleLargeFile : Str :=
  "2024-01-01: Transmitted: 0MB , Received: 17592186044415MB, Total: 17592186044415MB\n".toList

/-- A state in which `eth0` was loaded from `exampleLargeFile` and has taken its
first measurement with both counters at zero. -/
def exampleLargeState : MonitorState :=
  { internalStateCollection :=
      [("eth0".toList,
        { IsFirstMeasurement := false
          LastMeasuredReceivedBytes := 0
          LastMeasuredTransmittedBytes := 0
          DailyUsageHistory := LoadHistoryFromDisk (some exampleLargeFile) [] })] }

/-- A history with one entry, under the key `Transmitted`. -/
def exampleMarkerKeyHistory : History :=
  [("Transmitted".toList, { ReceivedBytes := 2097152, TransmittedBytes := 1048576 })]

/-- A history with one entry, under the key `Received`. -/
def exampleReceivedKeyHistory : History :=
  [("Received".toList, { ReceivedBytes := 1048576, TransmittedBytes := 0 })]

/-- A history with two dated entries, one of them not megabyte-aligned. -/
def exampleHistory : History :=
  [("2024-01-01".toList, { ReceivedBytes := 2097152, TransmittedBytes := 1048576 }),
    ("2024-01-02".toList, { ReceivedBytes := 5000000, TransmittedBytes := 123 })]

/-- A history with two dated, megabyte-aligned entries. -/
def exampleAlignedHistory : History :=
  [("2024-01-01".toList, { ReceivedBytes := 2097152, TransmittedBytes := 1048576 }),
    ("2024-01-02".toList, { ReceivedBytes := 5242880, TransmittedBytes := 0 })]

/-- A file with a well-formed line whose date is `Transmitted`. -/
def exampleMarkerDateFile : Str :=
  "Transmitted: Transmitted: 1MB , Received: 2MB, Total: 3MB\n".toList

/-- A file with one malformed line between two well-formed ones; the total of the
last line is not the sum of its two numbers. -/
def exampleMixedFile : Str :=
  ("2024-01-01: Transmitted: 1MB , Received: 2MB, Total: 3MB\n"
    ++ "this line is corrupted\n"
    ++ "2024-01-02: Transmitted: 007MB , Received: 5MB, Total: 99MB\n").toList

/-- A file whose only line has letters after the digits of its transmitted
number. -/
def exampleTrailingLettersFile : Str :=
  "2024-01-01: Transmitted: 12abcMB , Received: 2MB, Total: 14MB\n".toList

/-- A file whose second line has no digit in its received field. -/
def exampleNoDigitFile : Str :=
  ("2024-01-01: Transmitted: 1MB , Received: 2MB, Total: 3MB\n"
    ++ "2024-01-02: Transmitted: 4MB , Received: abcMB, Total: 4MB\n").toList

/-- The file `exampleNoDigitFile` without its second line. -/
def exampleNoDigitFileShort : Str :=
  "2024-01-01: Transmitted: 1MB , Received: 2MB, Total: 3MB\n".toList

/-- A state in which the virtual interface `tun0` has its baseline (received 700,
transmitted 40) and one physical running total is already non-zero. -/
def exampleVirtualState : MonitorState :=
  { internalStateCollection :=
      [("eth0".toList,
        { IsFirstMeasurement := false
          LastMeasuredReceivedBytes := 5000
          LastMeasuredTransmittedBytes := 100
          DailyUsageHistory := [] }),
       ("tun0".toList,
        { IsFirstMeasurement := false
          LastMeasuredReceivedBytes := 700
          LastMeasuredTransmittedBytes := 40
          DailyUsageHistory :=
            [("2024-01-01".toList, { ReceivedBytes := 10, TransmittedBytes := 20 })] })]
    totalPhysicalChangeReceived := 55 }

/-- A history with an entry for 3 January 2024. -/
def exampleThirdOfJanuary : History :=
  [("2024-01-03".toList, { ReceivedBytes := 3145728, TransmittedBytes := 1048576 })]

/-- A file whose only line has no space after the colon of its date
`Transmitted`. -/
def exampleMarkerLikeDateFile : Str := "Transmitted:5MB Received: 3MB\n".toList

/-- A file with leading zeros, a total that is not the sum, and a corrupted line. -/
def exampleOddFile : Str :=
  "2024-01-02: Transmitted: 007MB , Received: 5MB, Total: 99MB\nbad line\n".toList

/-- The two header lines of `/proc/net/dev`, shortened. -/
def exampleHeaders : String := "Inter-| Receive | Transmit\n face |bytes packets|bytes packets\n"

/-- A counter table with a good record of `lo`, a record of `eth0` whose received
field is not a number, and an empty line. -/
def exampleBrokenTable : Str :=
  (exampleHeaders ++ "    lo: 1234 10 0 0 0 0 0 0 5678 10 0 0 0 0 0 0\n" ++ "eth0: garbage\n"
    ++ "\n").toList

/-- The table `exampleBrokenTable` without its record of `eth0`. -/
def exampleBrokenTableShort : Str :=
  (exampleHeaders ++ "    lo: 1234 10 0 0 0 0 0 0 5678 10 0 0 0 0 0 0\n" ++ "\n").toList

/-- A counter table with a good record of `eth0` followed by a record of `eth0`
whose received field is not a number. -/
def exampleOverwritingTable : Str :=
  (exampleHeaders ++ "eth0: 5 1 2 3 4 5 6 7 888\n" ++ "eth0: garbage\n").toList

/-- A start-up with two physical interfaces, `eth0` and `eth1`, and one virtual
interface `lo`. -/
def exampleTwoPhysical : Startup :=
  { physicalInterfacesFolder := "/home/u/NetworkUsage/PhysicalInterfaces".toList
    virtualInterfacesFolder := "/home/u/NetworkUsage/VirtualInterfaces".toList
    physicalNames := ["eth0".toList, "eth1".toList]
    virtualNames := ["lo".toList] }

/-- Two polling cycles on one day: the first takes the baselines, in the second
`eth0` and `eth1` have each received 600,000 bytes more and `lo` has moved 10
bytes each way. -/
def exampleTwoCycles : List (Str × StrMap NetworkStatsSnapshot) :=
  [("2024-01-01".toList,
      [("eth0".toList, { ReceivedBytes := 1000, TransmittedBytes := 10 }),
        ("eth1".toList, { ReceivedBytes := 0, TransmittedBytes := 0 }),
        ("lo".toList, { ReceivedBytes := 50, TransmittedBytes := 50 })]),
    ("2024-01-01".toList,
      [("eth0".toList, { ReceivedBytes := 601000, TransmittedBytes := 10 }),
        ("eth1".toList, { ReceivedBytes := 600000, TransmittedBytes := 0 }),
        ("lo".toList, { ReceivedBytes := 60, TransmittedBytes := 60 })])]

end NetMon

/-! # Properties -/

namespace NetMon

theorem char_eq_of_toNat_eq {a b : Char} (h : a.toNat = b.toNat) : a = b := by
  apply Char.ext
  apply UInt32.ext
  exact h

theorem strLt_irrefl (a : Str) : strLt a a = false := by
  induction a with
  | nil => rfl
  | cons c cs ih => simp [strLt, ih]

theorem strLt_asymm : ∀ {a b : Str}, strLt a b = true → strLt b a = false
  | [], [], h => by simp [strLt] at h
  | [], _ :: _, _ => by simp [strLt]
  | _ :: _, [], h => by simp [strLt] at h
  | a :: as, b :: bs, h => by
    simp only [strLt] at h ⊢
    by_cases h1 : a.toNat < b.toNat
    · have h2 : ¬ b.toNat < a.toNat := by omega
      simp [h1, h2]
    · by_cases h2 : b.toNat < a.toNat
      · simp [h1, h2] at h
      · simp only [h1, h2, if_false] at h ⊢
        exact strLt_asymm h

theorem strLt_trans : ∀ {a b c : Str}, strLt a b = true → strLt b c = true → strLt a c = true
  | [], [], _, h, _ => by simp [strLt] at h
  | [], _ :: _, [], _, h => by simp [strLt] at h
  | [], _ :: _, _ :: _, _, _ => by simp [strLt]
  | _ :: _, [], _, h, _ => by simp [strLt] at h
  | _ :: _, _ :: _, [], _, h => by simp [strLt] at h
  | a :: as, b :: bs, c :: cs, hab, hbc => by
    simp only [strLt] at hab hbc ⊢
    by_cases h1 : a.toNat < b.toNat
    · by_cases h2 : b.toNat < c.toNat
      · have : a.toNat < c.toNat := by omega
        simp [this]
      · by_cases h3 : c.toNat < b.toNat
        · simp [h2, h3] at hbc
        · have : a.toNat < c.toNat := by omega
          simp [this]
    · by_cases h2 : b.toNat < a.toNat
      · simp [h1, h2] at hab
      · simp only [h1, h2, if_false] at hab
        by_cases h3 : b.toNat < c.toNat
        · have : a.toNat < c.toNat := by omega
          simp [this]
        · by_cases h4 : c.toNat < b.toNat
          · simp [h3, h4] at hbc
          · simp only [h3, h4, if_false] at hbc
            have h5 : ¬ a.toNat < c.toNat := by omega
            have h6 : ¬ c.toNat < a.toNat := by omega
            simp only [h5, h6, if_false]
            exact strLt_trans hab hbc

theorem strLt_total : ∀ {a b : Str}, strLt a b = false → strLt b a = false → a = b
  | [], [], _, _ => rfl
  | [], _ :: _, h, _ => by simp [strLt] at h
  | _ :: _, [], _, h => by simp [strLt] at h
  | a :: as, b :: bs, hab, hba => by
    simp only [strLt] at hab hba
    by_cases h1 : a.toNat < b.toNat
    · simp [h1] at hab
    · by_cases h2 : b.toNat < a.toNat
      · simp [h2] at hba
      · simp only [h1, h2, if_false] at hab hba
        have hc : a = b := char_eq_of_toNat_eq (by omega)
        rw [hc, strLt_total hab hba]

namespace StrMap
variable {V : Type}

theorem find?_set_self (m : StrMap V) (k : Str) (v : V) : find? (set m k v) k = some v := by
  induction m with
  | nil => simp [set, find?, strLt_irrefl]
  | cons e rest ih =>
    obtain ⟨k', v'⟩ := e
    simp only [set]
    by_cases h1 : strLt k' k = true
    · simp [h1, find?, ih]
    · by_cases h2 : strLt k k' = true
      · simp [h1, h2, find?, strLt_irrefl]
      · simp [h1, h2, find?, strLt_irrefl]

theorem find?_set_other (m : StrMap V) {k k2 : Str} (v : V) (hne : k ≠ k2) :
    find? (set m k2 v) k = find? m k := by
  induction m with
  | nil =>
    simp only [set, find?]
    by_cases h1 : strLt k2 k = true
    · simp [h1]
    · by_cases h2 : strLt k k2 = true
      · simp [h1, h2]
      · exact absurd (strLt_total (by simpa using h2) (by simpa using h1)) hne
  | cons e rest ih =>
    obtain ⟨k', v'⟩ := e
    simp only [set]
    by_cases h1 : strLt k' k2 = true
    · simp only [h1, if_true, find?, ih]
    · by_cases h2 : strLt k2 k' = true
      · simp only [h1, h2, if_true, if_false, find?]
        by_cases h3 : strLt k2 k = true
        · simp [h3]
        · by_cases h4 : strLt k k2 = true
          · have h5 : strLt k k' = true := strLt_trans h4 h2
            have h6 : strLt k' k = false := strLt_asymm h5
            simp [h3, h4, h5, h6]
          · exact absurd (strLt_total (by simpa using h4) (by simpa using h3)) hne
      · have hk : k2 = k' := strLt_total (by simpa using h2) (by simpa using h1)
        subst hk
        simp only [h1, if_false, find?]
        by_cases h3 : strLt k2 k = true
        · simp [h3]
        · by_cases h4 : strLt k k2 = true
          · simp [h3, h4]
          · exact absurd (strLt_total (by simpa using h4) (by simpa using h3)) hne

theorem set_set (m : StrMap V) (k : Str) (v w : V) : set (set m k v) k w = set m k w := by
  induction m with
  | nil => simp [set, strLt_irrefl]
  | cons e rest ih =>
    obtain ⟨k', v'⟩ := e
    simp only [set]
    by_cases h1 : strLt k' k = true
    · simp [h1, set, ih]
    · by_cases h2 : strLt k k' = true
      · simp [h1, h2, set, strLt_irrefl]
      · simp [h1, h2, set, strLt_irrefl]

theorem getD_set_self (m : StrMap V) (k : Str) (v d : V) : getD (set m k v) k d = v := by
  simp [getD, find?_set_self]

theorem getD_set_other (m : StrMap V) {k k2 : Str} (v d : V) (hne : k ≠ k2) :
    getD (set m k2 v) k d = getD m k d := by
  simp [getD, find?_set_other m v hne]

end StrMap

/-! ## The polling step -/

theorem History.addTransmitted_addReceived (h : History) (date : Str) (dR dT : Nat) :
    History.addTransmitted (History.addReceived h date dR) date dT =
      StrMap.set h date
        { ReceivedBytes := ((History.get h date).ReceivedBytes + dR) % 2 ^ 64
          TransmittedBytes := ((History.get h date).TransmittedBytes + dT) % 2 ^ 64 } := by
  simp [History.addTransmitted, History.addReceived, History.get, StrMap.getD_set_self,
    StrMap.set_set]

theorem History.get_set_self (h : History) (date : Str) (v : NetworkStatsSnapshot) :
    History.get (StrMap.set h date v) date = v := by
  simp [History.get, StrMap.getD_set_self]

theorem History.get_set_other (h : History) {date d2 : Str} (v : NetworkStatsSnapshot)
    (hne : date ≠ d2) : History.get (StrMap.set h d2 v) date = History.get h date := by
  simp [History.get, StrMap.getD_set_other h v _ hne]

theorem counterChange_reset {live lastMeasured : Nat} (h : live < lastMeasured) :
    counterChange live lastMeasured = live := by
  simp [counterChange, h]

theorem counterChange_noReset {live lastMeasured : Nat} (h : lastMeasured ≤ live)
    (hlive : live < 2 ^ 64) : counterChange live lastMeasured = live - lastMeasured := by
  have h1 : ¬ live < lastMeasured := by omega
  simp only [counterChange, h1, if_false]
  omega

theorem counterChange_le {live lastMeasured : Nat} (hlive : live < 2 ^ 64) :
    counterChange live lastMeasured ≤ live := by
  by_cases h : live < lastMeasured
  · rw [counterChange_reset h]
  · rw [counterChange_noReset (by omega) hlive]; omega

theorem pollInterface_collection (env : Startup) (today name : Str) (st : MonitorState)
    (liveStats : NetworkStatsSnapshot) :
    (pollInterface env today st (name, liveStats)).internalStateCollection =
      StrMap.set st.internalStateCollection name
        (trackerAfter (st.tracker name) today liveStats) := by
  simp only [pollInterface, trackerAfter, historyAfter, History.addTransmitted_addReceived]
  generalize st.tracker name = t
  obtain ⟨f, lr, lt, h⟩ := t
  cases f
  · by_cases hc : 0 < changeInReceived liveStats ⟨false, lr, lt, h⟩ ∨
        0 < changeInTransmitted liveStats ⟨false, lr, lt, h⟩
    · by_cases hp : env.physicalNames.contains name = true
      · simp only [hc, hp, ↓reduceIte, Bool.false_eq_true]
      · simp only [hc, hp, ↓reduceIte, Bool.false_eq_true]
    · simp only [hc, ↓reduceIte, Bool.false_eq_true]
  · simp only [↓reduceIte]

theorem pollInterface_tracker (env : Startup) (today name : Str) (st : MonitorState)
    (liveStats : NetworkStatsSnapshot) :
    (pollInterface env today st (name, liveStats)).tracker name =
      trackerAfter (st.tracker name) today liveStats := by
  rw [MonitorState.tracker, pollInterface_collection, StrMap.getD_set_self]


theorem History.get_historyAfter (h : History) (today date : Str) (dR dT : Nat)
    (hr : (History.get h today).InRange) :
    History.get (historyAfter h today dR dT) date =
      if date = today then
        { ReceivedBytes := ((History.get h today).ReceivedBytes + dR) % 2 ^ 64
          TransmittedBytes := ((History.get h today).TransmittedBytes + dT) % 2 ^ 64 }
      else History.get h date := by
  unfold historyAfter
  by_cases hc : 0 < dR ∨ 0 < dT
  · simp only [hc, ↓reduceIte]
    by_cases hd : date = today
    · subst hd
      simp [History.get_set_self]
    · simp [hd, History.get_set_other _ _ hd]
  · have h0 : dR = 0 ∧ dT = 0 := by omega
    obtain ⟨hr1, hr2⟩ := hr
    obtain ⟨rfl, rfl⟩ := h0
    have hz : ¬ (0 < 0 ∨ 0 < 0) := by omega
    simp only [hz, ↓reduceIte, Nat.add_zero]
    by_cases hd : date = today
    · subst hd
      simp only [↓reduceIte]
      rw [Nat.mod_eq_of_lt hr1, Nat.mod_eq_of_lt hr2]
    · simp [hd]

theorem observeAll_cons (env : Startup) (name : Str) (st : MonitorState)
    (r : Str × NetworkStatsSnapshot) (rest : List (Str × NetworkStatsSnapshot)) :
    observeAll env name st (r :: rest) =
      observeAll env name (pollInterface env r.1 st (name, r.2)) rest := by
  simp [observeAll]

theorem observeAll_later (env : Startup) (name : Str) :
    ∀ (rest : List (Str × NetworkStatsSnapshot)) (st : MonitorState) (prev : NetworkStatsSnapshot),
      (st.tracker name).IsFirstMeasurement = false →
      (st.tracker name).LastMeasuredReceivedBytes = prev.ReceivedBytes →
      (st.tracker name).LastMeasuredTransmittedBytes = prev.TransmittedBytes →
      prev.InRange → (∀ r ∈ rest, r.2.InRange) → NoReset prev rest →
      (∀ date, (History.get (st.tracker name).DailyUsageHistory date).ReceivedBytes
            ≤ prev.ReceivedBytes ∧
          (History.get (st.tracker name).DailyUsageHistory date).TransmittedBytes
            ≤ prev.TransmittedBytes) →
      ∀ date, History.get ((observeAll env name st rest).tracker name).DailyUsageHistory date =
        { ReceivedBytes :=
            (History.get (st.tracker name).DailyUsageHistory date).ReceivedBytes
              + receivedOn date prev rest
          TransmittedBytes :=
            (History.get (st.tracker name).DailyUsageHistory date).TransmittedBytes
              + transmittedOn date prev rest } := by
  intro rest
  induction rest with
  | nil =>
    intro st prev _ _ _ _ _ _ _ date
    simp [observeAll, receivedOn, transmittedOn]
  | cons r rest ih =>
    intro st prev hf hlr hlt hprev hall hmono hinv date
    obtain ⟨d, c⟩ := r
    obtain ⟨hm1, hm2, hm3⟩ := hmono
    have hc : c.InRange := hall (d, c) (by simp)
    obtain ⟨hc1, hc2⟩ := hc
    obtain ⟨hp1, hp2⟩ := hprev
    have hdR : changeInReceived c (st.tracker name) = c.ReceivedBytes - prev.ReceivedBytes := by
      rw [changeInReceived, hlr, counterChange_noReset hm1 hc1]
    have hdT : changeInTransmitted c (st.tracker name)
        = c.TransmittedBytes - prev.TransmittedBytes := by
      rw [changeInTransmitted, hlt, counterChange_noReset hm2 hc2]
    have hin : (History.get (st.tracker name).DailyUsageHistory d).InRange := by
      have := hinv d
      exact ⟨by omega, by omega⟩
    have hget : ∀ date,
        History.get ((pollInterface env d st (name, c)).tracker name).DailyUsageHistory date =
          if date = d then
            { ReceivedBytes := (History.get (st.tracker name).DailyUsageHistory d).ReceivedBytes
                + (c.ReceivedBytes - prev.ReceivedBytes)
              TransmittedBytes :=
                (History.get (st.tracker name).DailyUsageHistory d).TransmittedBytes
                  + (c.TransmittedBytes - prev.TransmittedBytes) }
          else History.get (st.tracker name).DailyUsageHistory date := by
      intro date
      have h1 := hinv d
      rw [pollInterface_tracker]
      simp only [trackerAfter, hf, Bool.false_eq_true, ↓reduceIte]
      rw [History.get_historyAfter _ _ _ _ _ hin, hdR, hdT]
      rw [Nat.mod_eq_of_lt (by omega), Nat.mod_eq_of_lt (by omega)]
    rw [observeAll_cons]
    have hnew := ih (pollInterface env d st (name, c)) c
      (by rw [pollInterface_tracker]; rfl) (by rw [pollInterface_tracker]; rfl)
      (by rw [pollInterface_tracker]; rfl) ⟨hc1, hc2⟩
      (fun r hr => hall r (by simp [hr])) hm3
      (by
        intro date
        have h1 := hinv d
        have h2 := hinv date
        rw [hget date]
        by_cases hd : date = d
        · simp only [hd, ↓reduceIte]; omega
        · simp only [hd, ↓reduceIte]; omega)
      date
    rw [hnew, hget date]
    by_cases hd : date = d
    · subst hd
      simp only [↓reduceIte, receivedOn, transmittedOn]
      congr 1 <;> omega
    · have hd' : ¬ d = date := fun h => hd h.symm
      simp only [hd, hd', ↓reduceIte, receivedOn, transmittedOn]
      congr 1 <;> omega

theorem receivedOn_single_date (date : Str) :
    ∀ (rest : List (Str × NetworkStatsSnapshot)) (prev : NetworkStatsSnapshot),
      NoReset prev rest → (∀ r ∈ rest, r.1 = date) →
      receivedOn date prev rest = (finalReading prev rest).ReceivedBytes - prev.ReceivedBytes ∧
      transmittedOn date prev rest
        = (finalReading prev rest).TransmittedBytes - prev.TransmittedBytes ∧
      prev.ReceivedBytes ≤ (finalReading prev rest).ReceivedBytes ∧
      prev.TransmittedBytes ≤ (finalReading prev rest).TransmittedBytes := by
  intro rest
  induction rest with
  | nil => intro prev _ _; simp [receivedOn, transmittedOn, finalReading]
  | cons r rest ih =>
    intro prev hmono hdate
    obtain ⟨d, c⟩ := r
    obtain ⟨hm1, hm2, hm3⟩ := hmono
    have hd : d = date := hdate (d, c) (by simp)
    obtain ⟨i1, i2, i3, i4⟩ := ih c hm3 (fun r hr => hdate r (by simp [hr]))
    simp only [receivedOn, transmittedOn, finalReading, hd, ↓reduceIte, i1, i2]
    omega


/-! ## Claims about the polling step -/

/-- C1: for a tracker past its first measurement and a reading within the 64-bit
range, the change the polling step computes for received, and independently for
transmitted, is the whole current value when the current value is below the last
measured one and the exact difference otherwise; it never exceeds the current
value, and these are the changes the step adds to the entry of today. -/
theorem C1_change_is_reset_value_or_difference (env : Startup) (today name : Str)
    (st : MonitorState) (liveStats : NetworkStatsSnapshot)
    (hfirst : (st.tracker name).IsFirstMeasurement = false) (hlive : liveStats.InRange) :
    (changeInReceived liveStats (st.tracker name) =
        if liveStats.ReceivedBytes < (st.tracker name).LastMeasuredReceivedBytes
        then liveStats.ReceivedBytes
        else liveStats.ReceivedBytes - (st.tracker name).LastMeasuredReceivedBytes) ∧
      changeInReceived liveStats (st.tracker name) ≤ liveStats.ReceivedBytes ∧
      (changeInTransmitted liveStats (st.tracker name) =
        if liveStats.TransmittedBytes < (st.tracker name).LastMeasuredTransmittedBytes
        then liveStats.TransmittedBytes
        else liveStats.TransmittedBytes - (st.tracker name).LastMeasuredTransmittedBytes) ∧
      changeInTransmitted liveStats (st.tracker name) ≤ liveStats.TransmittedBytes ∧
      ((pollInterface env today st (name, liveStats)).tracker name).DailyUsageHistory =
        if 0 < changeInReceived liveStats (st.tracker name) ∨
            0 < changeInTransmitted liveStats (st.tracker name) then
          StrMap.set (st.tracker name).DailyUsageHistory today
            { ReceivedBytes :=
                ((History.get (st.tracker name).DailyUsageHistory today).ReceivedBytes
                  + changeInReceived liveStats (st.tracker name)) % 2 ^ 64
              TransmittedBytes :=
                ((History.get (st.tracker name).DailyUsageHistory today).TransmittedBytes
                  + changeInTransmitted liveStats (st.tracker name)) % 2 ^ 64 }
        else (st.tracker name).DailyUsageHistory := by
  obtain ⟨h1, h2⟩ := hlive
  refine ⟨?_, counterChange_le h1, ?_, counterChange_le h2, ?_⟩
  · unfold changeInReceived
    by_cases h : liveStats.ReceivedBytes < (st.tracker name).LastMeasuredReceivedBytes
    · simp only [h, ↓reduceIte, counterChange_reset h]
    · simp only [h, ↓reduceIte, counterChange_noReset (Nat.le_of_not_lt h) h1]
  · unfold changeInTransmitted
    by_cases h : liveStats.TransmittedBytes < (st.tracker name).LastMeasuredTransmittedBytes
    · simp only [h, ↓reduceIte, counterChange_reset h]
    · simp only [h, ↓reduceIte, counterChange_noReset (Nat.le_of_not_lt h) h2]
  · rw [pollInterface_tracker]
    simp only [trackerAfter, hfirst, Bool.false_eq_true, ↓reduceIte, historyAfter]

/-- C1, at the example of the specification: baseline received 5000, next
reading received 4000 gives the change 4000. -/
theorem C1_change_is_reset_value_or_difference_witness :
    (exampleBaselineState.tracker "eth0".toList).IsFirstMeasurement = false ∧
      NetworkStatsSnapshot.InRange { ReceivedBytes := 4000, TransmittedBytes := 250 } ∧
      changeInReceived { ReceivedBytes := 4000, TransmittedBytes := 250 }
        (exampleBaselineState.tracker "eth0".toList) = 4000 ∧
      changeInTransmitted { ReceivedBytes := 4000, TransmittedBytes := 250 }
        (exampleBaselineState.tracker "eth0".toList) = 150 := by
  have h := C1_change_is_reset_value_or_difference exampleStartup "2024-01-01".toList
    "eth0".toList exampleBaselineState { ReceivedBytes := 4000, TransmittedBytes := 250 }
    (by decide) (by decide)
  refine ⟨by decide, by decide, ?_, ?_⟩
  · rw [h.1]; decide
  · rw [h.2.2.1]; decide

/-- C2: when the tracker of an interface has `IsFirstMeasurement = true`, whatever
its history, the polling step records the reading as the baseline, clears the
flag, keeps the history of the interface, leaves the four running totals as they
were and makes no call to `SaveDailyStatsToDisk`. -/
theorem C2_first_measurement_only_sets_baseline (env : Startup) (today name : Str)
    (st : MonitorState) (liveStats : NetworkStatsSnapshot)
    (hfirst : (st.tracker name).IsFirstMeasurement = true) :
    (pollInterface env today st (name, liveStats)).tracker name =
        { IsFirstMeasurement := false
          LastMeasuredReceivedBytes := liveStats.ReceivedBytes
          LastMeasuredTransmittedBytes := liveStats.TransmittedBytes
          DailyUsageHistory := (st.tracker name).DailyUsageHistory } ∧
      (pollInterface env today st (name, liveStats)).totalPhysicalChangeReceived
        = st.totalPhysicalChangeReceived ∧
      (pollInterface env today st (name, liveStats)).totalPhysicalChangeTransmitted
        = st.totalPhysicalChangeTransmitted ∧
      (pollInterface env today st (name, liveStats)).totalVirtualChangeReceived
        = st.totalVirtualChangeReceived ∧
      (pollInterface env today st (name, liveStats)).totalVirtualChangeTransmitted
        = st.totalVirtualChangeTransmitted ∧
      (pollInterface env today st (name, liveStats)).writes = st.writes := by
  refine ⟨?_, ?_, ?_, ?_, ?_, ?_⟩
  · rw [pollInterface_tracker]
    simp only [trackerAfter, hfirst, ↓reduceIte]
  all_goals simp only [pollInterface, hfirst, ↓reduceIte]

/-- C2, for an interface never seen before and a reading of a long-running
interface. -/
theorem C2_first_measurement_only_sets_baseline_witness :
    (exampleBaselineState.tracker "wlo1".toList).IsFirstMeasurement = true ∧
      (pollInterface exampleStartup "2024-01-01".toList exampleBaselineState
          ("wlo1".toList, { ReceivedBytes := 987654321, TransmittedBytes := 12345 })).tracker
            "wlo1".toList =
        { IsFirstMeasurement := false
          LastMeasuredReceivedBytes := 987654321
          LastMeasuredTransmittedBytes := 12345
          DailyUsageHistory := [] } ∧
      (pollInterface exampleStartup "2024-01-01".toList exampleBaselineState
          ("wlo1".toList, { ReceivedBytes := 987654321, TransmittedBytes := 12345 })).writes
        = [] :=
  have h := C2_first_measurement_only_sets_baseline exampleStartup "2024-01-01".toList
    "wlo1".toList exampleBaselineState { ReceivedBytes := 987654321, TransmittedBytes := 12345 }
    (by decide)
  ⟨by decide, h.1, h.2.2.2.2.2⟩

/-- C3: readings of one interface without a reset, fed in order to a fresh tracker,
each on its date: for every date the accumulated history entry (zero when absent)
is the sum of the differences between successive readings observed on that date,
for received and for transmitted; when all readings after the first fall on that
date it is the last reading minus the first. -/
theorem C3_history_is_sum_of_differences (env : Startup) (name : Str) (st : MonitorState)
    (d0 : Str) (c0 : NetworkStatsSnapshot) (rest : List (Str × NetworkStatsSnapshot))
    (hfresh : st.tracker name = {}) (h0 : c0.InRange) (hall : ∀ r ∈ rest, r.2.InRange)
    (hmono : NoReset c0 rest) (date : Str) :
    History.get ((observeAll env name st ((d0, c0) :: rest)).tracker name).DailyUsageHistory date
        = { ReceivedBytes := receivedOn date c0 rest
            TransmittedBytes := transmittedOn date c0 rest } ∧
      ((∀ r ∈ rest, r.1 = date) →
        History.get ((observeAll env name st ((d0, c0) :: rest)).tracker name).DailyUsageHistory
            date
          = { ReceivedBytes := (finalReading c0 rest).ReceivedBytes - c0.ReceivedBytes
              TransmittedBytes :=
                (finalReading c0 rest).TransmittedBytes - c0.TransmittedBytes }) := by
  have hmain :
      History.get ((observeAll env name st ((d0, c0) :: rest)).tracker name).DailyUsageHistory
          date
        = { ReceivedBytes := receivedOn date c0 rest
            TransmittedBytes := transmittedOn date c0 rest } := by
    rw [observeAll_cons]
    have hst : (pollInterface env d0 st (name, c0)).tracker name =
        { IsFirstMeasurement := false
          LastMeasuredReceivedBytes := c0.ReceivedBytes
          LastMeasuredTransmittedBytes := c0.TransmittedBytes
          DailyUsageHistory := [] } := by
      rw [pollInterface_tracker, hfresh]; rfl
    have h := observeAll_later env name rest (pollInterface env d0 st (name, c0)) c0
      (by rw [hst]) (by rw [hst]) (by rw [hst]) h0 hall hmono
      (by intro d; rw [hst]; simp [History.get, StrMap.getD, StrMap.find?]) date
    rw [h, hst]
    simp [History.get, StrMap.getD, StrMap.find?]
  refine ⟨hmain, fun hdate => ?_⟩
  obtain ⟨i1, i2, _, _⟩ := receivedOn_single_date date rest c0 hmono hdate
  rw [hmain, i1, i2]

/-- C3, for three readings of `wlo1`, the first two on one day and the last on the
next. -/
theorem C3_history_is_sum_of_differences_witness :
    (exampleBaselineState.tracker "wlo1".toList = {}) ∧
      NetworkStatsSnapshot.InRange { ReceivedBytes := 100, TransmittedBytes := 20 } ∧
      (∀ r ∈ [("2024-01-01".toList, ({ ReceivedBytes := 150, TransmittedBytes := 20 } :
            NetworkStatsSnapshot)),
          ("2024-01-02".toList, { ReceivedBytes := 400, TransmittedBytes := 90 })],
        r.2.InRange) ∧
      NoReset { ReceivedBytes := 100, TransmittedBytes := 20 }
        [("2024-01-01".toList, { ReceivedBytes := 150, TransmittedBytes := 20 }),
          ("2024-01-02".toList, { ReceivedBytes := 400, TransmittedBytes := 90 })] ∧
      History.get ((observeAll exampleStartup "wlo1".toList exampleBaselineState
          (("2024-01-01".toList, { ReceivedBytes := 100, TransmittedBytes := 20 }) ::
            [("2024-01-01".toList, { ReceivedBytes := 150, TransmittedBytes := 20 }),
              ("2024-01-02".toList, { ReceivedBytes := 400, TransmittedBytes := 90 })])).tracker
            "wlo1".toList).DailyUsageHistory "2024-01-02".toList
        = { ReceivedBytes := 250, TransmittedBytes := 70 } := by
  have h := C3_history_is_sum_of_differences exampleStartup "wlo1".toList exampleBaselineState
    "2024-01-01".toList { ReceivedBytes := 100, TransmittedBytes := 20 }
    [("2024-01-01".toList, { ReceivedBytes := 150, TransmittedBytes := 20 }),
      ("2024-01-02".toList, { ReceivedBytes := 400, TransmittedBytes := 90 })]
    (by decide) (by decide) (by decide) (by decide) "2024-01-02".toList
  refine ⟨by decide, by decide, by decide, by decide, ?_⟩
  rw [h.1]; decide

/-- C10 (counterexample): a history entry loaded from a file can hold
`2 ^ 64 - 1048576` received bytes; a polling step that adds 1048576 wraps it to
zero, below its value before the step. -/
theorem C10_counterexample_total_wraps :
    History.InRange (exampleLargeState.tracker "eth0".toList).DailyUsageHistory ∧
      (History.get (exampleLargeState.tracker "eth0".toList).DailyUsageHistory
          "2024-01-01".toList).ReceivedBytes = 2 ^ 64 - 1048576 ∧
      (History.get ((pollInterface exampleStartup "2024-01-01".toList exampleLargeState
          ("eth0".toList, { ReceivedBytes := 1048576, TransmittedBytes := 0 })).tracker
            "eth0".toList).DailyUsageHistory "2024-01-01".toList).ReceivedBytes = 0 := by
  decide

/-- C10 (amended): whenever adding the changes of the step to the entry of today
stays within 64 bits, every entry of the history of the interface, for every date
and for received and transmitted alike (zero when absent), is after the polling
step at least what it was before. -/
theorem C10_history_never_decreases_within_range (env : Startup) (today name : Str)
    (st : MonitorState) (liveStats : NetworkStatsSnapshot) (date : Str)
    (hR : (History.get (st.tracker name).DailyUsageHistory today).ReceivedBytes
        + changeInReceived liveStats (st.tracker name) < 2 ^ 64)
    (hT : (History.get (st.tracker name).DailyUsageHistory today).TransmittedBytes
        + changeInTransmitted liveStats (st.tracker name) < 2 ^ 64) :
    (History.get (st.tracker name).DailyUsageHistory date).ReceivedBytes ≤
        (History.get ((pollInterface env today st (name, liveStats)).tracker name).DailyUsageHistory
          date).ReceivedBytes ∧
      (History.get (st.tracker name).DailyUsageHistory date).TransmittedBytes ≤
        (History.get ((pollInterface env today st (name, liveStats)).tracker name).DailyUsageHistory
          date).TransmittedBytes := by
  rw [pollInterface_tracker]
  simp only [trackerAfter]
  by_cases hf : (st.tracker name).IsFirstMeasurement = true
  · simp only [hf, ↓reduceIte, le_refl, and_self]
  · simp only [hf, ↓reduceIte, Bool.false_eq_true]
    have hin : (History.get (st.tracker name).DailyUsageHistory today).InRange :=
      ⟨by omega, by omega⟩
    rw [History.get_historyAfter _ _ _ _ _ hin]
    by_cases hd : date = today
    · subst hd
      simp only [↓reduceIte]
      rw [Nat.mod_eq_of_lt hR, Nat.mod_eq_of_lt hT]
      omega
    · simp only [hd, ↓reduceIte, le_refl, and_self]

/-- C10 (amended), for a step that adds 1000 received bytes to the entry of today. -/
theorem C10_history_never_decreases_within_range_witness :
    ((History.get (exampleBaselineState.tracker "eth0".toList).DailyUsageHistory
          "2024-01-01".toList).ReceivedBytes
        + changeInReceived { ReceivedBytes := 6000, TransmittedBytes := 100 }
          (exampleBaselineState.tracker "eth0".toList) < 2 ^ 64) ∧
      ((History.get (exampleBaselineState.tracker "eth0".toList).DailyUsageHistory
          "2024-01-01".toList).TransmittedBytes
        + changeInTransmitted { ReceivedBytes := 6000, TransmittedBytes := 100 }
          (exampleBaselineState.tracker "eth0".toList) < 2 ^ 64) ∧
      (History.get (exampleBaselineState.tracker "eth0".toList).DailyUsageHistory
          "2024-01-01".toList).ReceivedBytes ≤
        (History.get ((pollInterface exampleStartup "2024-01-01".toList exampleBaselineState
          ("eth0".toList, { ReceivedBytes := 6000, TransmittedBytes := 100 })).tracker
            "eth0".toList).DailyUsageHistory "2024-01-01".toList).ReceivedBytes :=
  ⟨by decide, by decide,
    (C10_history_never_decreases_within_range exampleStartup "2024-01-01".toList "eth0".toList
      exampleBaselineState { ReceivedBytes := 6000, TransmittedBytes := 100 }
      "2024-01-01".toList (by decide) (by decide)).1⟩

/-! ## Searching in strings -/

theorem findAux_hit (needle s : Str) (i : Nat) (h : needle.isPrefixOf s = true) :
    findAux needle s i = i := by
  cases s with
  | nil =>
    cases needle with
    | nil => simp [findAux]
    | cons a as => simp [List.isPrefixOf] at h
  | cons c cs => simp [findAux, h]

theorem findAux_skip (needle : Str) :
    ∀ (pre s : Str) (i : Nat),
      (∀ j, j < pre.length → needle.isPrefixOf (pre.drop j ++ s) = false) →
      findAux needle (pre ++ s) i = findAux needle s (i + pre.length) := by
  intro pre
  induction pre with
  | nil => intro s i _; simp
  | cons p ps ih =>
    intro s i h
    have h0 := h 0 (by simp)
    simp only [List.drop_zero, List.cons_append] at h0
    rw [List.cons_append, findAux]
    simp only [h0, Bool.false_eq_true, ↓reduceIte]
    rw [ih s (i + 1) (fun j hj => by
      have := h (j + 1) (by simpa using hj)
      simpa using this)]
    simp only [List.length_cons]
    congr 1
    omega

theorem isPrefixOf_false_of_head {c : Char} {needle t s : Str} (hc : c ∉ t) (ht : t ≠ []) :
    (c :: needle).isPrefixOf (t ++ s) = false := by
  cases t with
  | nil => exact absurd rfl ht
  | cons d ds =>
    have hne : c ≠ d := fun h => hc (by simp [h])
    simp [List.isPrefixOf, hne]

/-- A needle whose first character does not occur in `pre` is not found inside
`pre`. -/
theorem findAux_skip_head (c : Char) (needle pre s : Str) (i : Nat) (hc : c ∉ pre) :
    findAux (c :: needle) (pre ++ s) i = findAux (c :: needle) s (i + pre.length) := by
  apply findAux_skip
  intro j hj
  apply isPrefixOf_false_of_head
  · intro hmem
    exact hc (List.mem_of_mem_drop hmem)
  · intro h
    have := congrArg List.length h
    simp at this
    omega

/-- The position of the first colon decides where a text that contains a colon
can start inside a colon-free text that is followed by a colon. -/
theorem eq_of_isPrefixOf_colon :
    ∀ (u v d y : Str), ':' ∉ u → ':' ∉ d →
      (u ++ ':' :: v).isPrefixOf (d ++ ':' :: y) = true → d = u := by
  intro u
  induction u with
  | nil =>
    intro v d y _ hd h
    cases d with
    | nil => rfl
    | cons e es =>
      simp only [List.nil_append, List.cons_append, List.isPrefixOf, Bool.and_eq_true,
        beq_iff_eq] at h
      exact absurd (by simp [← h.1]) hd
  | cons a as ih =>
    intro v d y hu hd h
    cases d with
    | nil =>
      simp only [List.nil_append, List.cons_append, List.isPrefixOf, Bool.and_eq_true,
        beq_iff_eq] at h
      exact absurd (by simp [h.1]) hu
    | cons e es =>
      simp only [List.cons_append, List.isPrefixOf, Bool.and_eq_true, beq_iff_eq] at h
      have := ih v es y (fun hm => hu (by simp [hm])) (fun hm => hd (by simp [hm])) h.2
      rw [h.1, this]

/-- The text `s` ends with `suffix`. -/
theorem drop_eq_imp_isSuffixOf (d u : Str) (j : Nat) (h : d.drop j = u) :
    u.isSuffixOf d = true := by
  rw [ List.isSuffixOf_iff_suffix, ← h]
  exact List.drop_suffix j d

/-- Inside a colon-free key followed by a colon, a marker `u ++ ":" ++ v` can only
start where the key ends with `u`. -/
theorem findAux_skip_key (u v d y : Str) (i : Nat) (hu : ':' ∉ u) (hd : ':' ∉ d)
    (hend : u.isSuffixOf d = false) :
    findAux (u ++ ':' :: v) (d ++ ':' :: y) i = findAux (u ++ ':' :: v) (':' :: y) (i + d.length) := by
  apply findAux_skip
  intro j _
  by_contra hcon
  have hp : (u ++ ':' :: v).isPrefixOf (d.drop j ++ ':' :: y) = true := by
    simpa using hcon
  have := eq_of_isPrefixOf_colon u v (d.drop j) y hu
    (fun hm => hd (List.mem_of_mem_drop hm)) hp
  have := drop_eq_imp_isSuffixOf d u j this
  simp [hend] at this

theorem find_at (pre s needle : Str) :
    find (pre ++ s) needle pre.length = findAux needle s pre.length := by
  simp [find]

theorem find_zero (s needle : Str) : find s needle 0 = findAux needle s 0 := by
  simp [find]

theorem substr_at (pre s : Str) (n : Nat) :
    substr (pre ++ s) pre.length n = some (s.take n) := by
  simp [substr]


/-! ## Printing and reading decimal numbers -/

theorem digitChar_spec :
    ∀ d, d < 10 → (Nat.digitChar d).isDigit = true ∧ (Nat.digitChar d).toNat - 48 = d := by
  decide

theorem toDigitsCore_acc (f : Nat) :
    ∀ (n : Nat) (ds : List Char),
      Nat.toDigitsCore 10 f n ds = Nat.toDigitsCore 10 f n [] ++ ds := by
  induction f with
  | zero => intro n ds; simp [Nat.toDigitsCore]
  | succ f ih =>
    intro n ds
    simp only [Nat.toDigitsCore]
    by_cases h : n / 10 = 0
    · simp [h]
    · simp only [h, ↓reduceIte]
      rw [ih (n / 10) (Nat.digitChar (n % 10) :: ds), ih (n / 10) [Nat.digitChar (n % 10)]]
      simp

theorem digitsValue_append_single (ds : Str) (c : Char) :
    digitsValue (ds ++ [c]) = digitsValue ds * 10 + (c.toNat - 48) := by
  simp [digitsValue, List.foldl_append]

theorem toDigitsCore_spec (f : Nat) :
    ∀ n, n < f →
      (∀ c ∈ Nat.toDigitsCore 10 f n [], c.isDigit = true) ∧
      Nat.toDigitsCore 10 f n [] ≠ [] ∧
      digitsValue (Nat.toDigitsCore 10 f n []) = n := by
  induction f with
  | zero => intro n h; omega
  | succ f ih =>
    intro n hn
    have hd := digitChar_spec (n % 10) (Nat.mod_lt _ (by decide))
    simp only [Nat.toDigitsCore]
    by_cases h : n / 10 = 0
    · simp only [h, ↓reduceIte]
      refine ⟨by simpa using hd.1, by simp, ?_⟩
      have : digitsValue [Nat.digitChar (n % 10)] = (Nat.digitChar (n % 10)).toNat - 48 := by
        simp [digitsValue]
      rw [this, hd.2]
      omega
    · simp only [h, ↓reduceIte]
      rw [toDigitsCore_acc]
      obtain ⟨i1, i2, i3⟩ := ih (n / 10) (by omega)
      refine ⟨?_, by simp, ?_⟩
      · intro c hc
        rcases List.mem_append.1 hc with hc | hc
        · exact i1 c hc
        · simp only [List.mem_singleton] at hc
          rw [hc]; exact hd.1
      · rw [digitsValue_append_single, i3, hd.2]
        omega

theorem toDecimal_isDigit (n : Nat) : ∀ c ∈ toDecimal n, c.isDigit = true :=
  (toDigitsCore_spec (n + 1) n (by omega)).1

theorem toDecimal_ne_nil (n : Nat) : toDecimal n ≠ [] :=
  (toDigitsCore_spec (n + 1) n (by omega)).2.1

theorem digitsValue_toDecimal (n : Nat) : digitsValue (toDecimal n) = n :=
  (toDigitsCore_spec (n + 1) n (by omega)).2.2

theorem toDecimal_length (n : Nat) (h : n < 2 ^ 64) : (toDecimal n).length ≤ 20 := by
  unfold toDecimal Nat.toDigits
  exact Nat.toDigitsCore_length 10 (by decide) (n + 1) n 20 (by omega) (by decide)

/-- A character that is a decimal digit is none of the characters the file format
uses around numbers. -/
theorem ne_of_isDigit {c d : Char} (hc : c.isDigit = true) (hd : d.isDigit = false) : c ≠ d := by
  intro h; rw [h, hd] at hc; exact absurd hc (by decide)

theorem not_mem_of_all_isDigit {ds : Str} (h : ∀ c ∈ ds, c.isDigit = true) {d : Char}
    (hd : d.isDigit = false) : d ∉ ds :=
  fun hm => ne_of_isDigit (h d hm) hd rfl

theorem takeWhile_isDigit_append (ds rest : Str) (h : ∀ c ∈ ds, c.isDigit = true) :
    (ds ++ rest).takeWhile Char.isDigit = ds ++ rest.takeWhile Char.isDigit := by
  induction ds with
  | nil => simp
  | cons c cs ih =>
    have hc : c.isDigit = true := h c (by simp)
    simp only [List.cons_append, List.takeWhile_cons, hc, ↓reduceIte]
    rw [ih (fun x hx => h x (by simp [hx]))]

/-- The call `std::stoull` on a non-empty string of digits returns its value. -/
theorem stoull_digits (ds : Str) (h : ∀ c ∈ ds, c.isDigit = true) (hne : ds ≠ [])
    (hv : digitsValue ds < 2 ^ 64) : stoull ds = some (digitsValue ds) := by
  cases ds with
  | nil => exact absurd rfl hne
  | cons c cs =>
    have hc : c.isDigit = true := h c (by simp)
    have hsp : isSpace c = false := by
      cases hs : isSpace c with
      | false => rfl
      | true =>
        exfalso
        simp only [isSpace, Bool.or_eq_true, decide_eq_true_eq] at hs
        rcases hs with ((((hs | hs) | hs) | hs) | hs) | hs <;>
          · rw [hs] at hc; exact absurd hc (by decide)
    have hminus : c ≠ '-' := ne_of_isDigit hc (by decide)
    have hplus : c ≠ '+' := ne_of_isDigit hc (by decide)
    have htw : (c :: cs).takeWhile Char.isDigit = c :: cs := by
      have := takeWhile_isDigit_append (c :: cs) [] h
      simpa using this
    have hdrop : (c :: cs).dropWhile isSpace = c :: cs := by
      simp [List.dropWhile, hsp]
    unfold stoull
    rw [hdrop]
    have hsigned : (match (c :: cs : Str) with
        | '-' :: r => (true, r)
        | '+' :: r => (false, r)
        | _ => (false, c :: cs)) = (false, c :: cs) := by
      split
      · rename_i heq; simp only [List.cons.injEq] at heq; exact absurd heq.1 hminus
      · rename_i heq; simp only [List.cons.injEq] at heq; exact absurd heq.1 hplus
      · rfl
    simp only [hsigned, htw]
    have hv' : ¬ 2 ^ 64 ≤ digitsValue (c :: cs) := by omega
    simp only [hv', ↓reduceIte, Bool.false_eq_true]
    simp


/-! ## Reading one well-formed line -/

theorem isPrefixOf_append_self (m x : Str) : m.isPrefixOf (m ++ x) = true := by
  rw [ List.isPrefixOf_iff_prefix]
  exact List.prefix_append m x

theorem historyLine_eq_formatLine (d a b c : Str) :
    formatLine d a b c = historyLine d a b (", Total: ".toList ++ (c ++ "MB".toList)) := by
  simp only [formatLine, historyLine, transmittedMarker, receivedMarker, List.append_assoc]
  rfl

theorem find_colon (d y : Str) (hd : ':' ∉ d) : find (d ++ ':' :: y) [':'] 0 = d.length := by
  rw [find_zero, findAux_skip_head ':' [] d _ 0 hd, findAux_hit _ _ _ (by simp [List.isPrefixOf])]
  simp

theorem find_transmittedMarker (d x : Str) (hd : ':' ∉ d)
    (hend : endsWith d "Transmitted".toList = false) :
    find (d ++ (": ".toList ++ (transmittedMarker ++ x))) transmittedMarker 0 = d.length + 2 := by
  have hm : transmittedMarker = "Transmitted".toList ++ ':' :: [' '] := by rfl
  have hline : d ++ (": ".toList ++ (transmittedMarker ++ x))
      = d ++ ':' :: ([' '] ++ (transmittedMarker ++ x)) := by rfl
  rw [find_zero, hline]
  conv_lhs => rw [hm]
  rw [findAux_skip_key "Transmitted".toList [' '] d _ 0 (by decide) hd hend]
  rw [← hm]
  have h2 : (':' :: ([' '] ++ (transmittedMarker ++ x)) : Str)
      = [':', ' '] ++ (transmittedMarker ++ x) := by rfl
  have h3 : transmittedMarker = 'T' :: "ransmitted: ".toList := by rfl
  rw [h2]
  conv_lhs => rw [h3]
  rw [findAux_skip_head 'T' _ [':', ' '] _ _ (by decide)]
  rw [← h3, findAux_hit _ _ _ (isPrefixOf_append_self _ _)]
  simp

theorem find_receivedMarker (d a x : Str) (hd : ':' ∉ d)
    (hend : endsWith d "Received".toList = false) (ha : ∀ c ∈ a, c.isDigit = true) :
    find (d ++ (": ".toList ++ (transmittedMarker ++ (a ++ ("MB , ".toList ++
        (receivedMarker ++ x)))))) receivedMarker 0 = d.length + 15 + a.length + 5 := by
  have hm : receivedMarker = "Received".toList ++ ':' :: [' '] := by rfl
  have h3 : receivedMarker = 'R' :: "eceived: ".toList := by rfl
  have hline : d ++ (": ".toList ++ (transmittedMarker ++ (a ++ ("MB , ".toList ++
        (receivedMarker ++ x)))))
      = d ++ ':' :: ((" Transmitted: ".toList ++ (a ++ "MB , ".toList)) ++ (receivedMarker ++ x)) := by
    simp only [transmittedMarker, List.append_assoc]
    rfl
  rw [find_zero, hline]
  conv_lhs => rw [hm]
  rw [findAux_skip_key "Received".toList [' '] d _ 0 (by decide) hd hend]
  rw [← hm]
  have h2 : (':' :: ((" Transmitted: ".toList ++ (a ++ "MB , ".toList)) ++ (receivedMarker ++ x)) : Str)
      = (": Transmitted: ".toList ++ (a ++ "MB , ".toList)) ++ (receivedMarker ++ x) := by rfl
  rw [h2]
  conv_lhs => rw [h3]
  have hR : 'R' ∉ ": Transmitted: ".toList ++ (a ++ "MB , ".toList) := by
    intro hmem
    rcases List.mem_append.1 hmem with h | h
    · exact absurd h (by decide)
    · rcases List.mem_append.1 h with h | h
      · exact not_mem_of_all_isDigit ha (by decide) h
      · exact absurd h (by decide)
  rw [findAux_skip_head 'R' _ _ _ _ hR]
  rw [← h3, findAux_hit _ _ _ (isPrefixOf_append_self _ _)]
  simp only [List.length_append]
  have e1 : ": Transmitted: ".toList.length = 15 := by decide
  have e2 : "MB , ".toList.length = 5 := by decide
  rw [e1, e2]
  omega

theorem find_MB (pre ds y : Str) (hds : ∀ c ∈ ds, c.isDigit = true) :
    find (pre ++ (ds ++ ("MB".toList ++ y))) "MB".toList pre.length = pre.length + ds.length := by
  have h3 : "MB".toList = 'M' :: ['B'] := by rfl
  rw [find_at]
  conv_lhs => rw [h3]
  rw [findAux_skip_head 'M' _ ds _ _ (not_mem_of_all_isDigit hds (by decide))]
  rw [findAux_hit _ _ _ (isPrefixOf_append_self _ _)]


theorem historyLine_length (d a b tail : Str) :
    (historyLine d a b tail).length = d.length + a.length + b.length + tail.length + 32 := by
  simp only [historyLine, List.length_append]
  have e1 : ": ".toList.length = 2 := by decide
  have e2 : transmittedMarker.length = 13 := by decide
  have e3 : "MB , ".toList.length = 5 := by decide
  have e4 : receivedMarker.length = 10 := by decide
  have e5 : "MB".toList.length = 2 := by decide
  rw [e1, e2, e3, e4, e5]
  omega

/-- A line of the file format whose date holds no colon and does not end in the
word of a marker is read back as its date and its two numbers. -/
theorem parseHistoryLine_historyLine (d a b tail : Str) (hd : ':' ∉ d)
    (hT : endsWith d "Transmitted".toList = false) (hR : endsWith d "Received".toList = false)
    (ha : IsDigits a) (hb : IsDigits b) (hav : digitsValue a < 2 ^ 64)
    (hbv : digitsValue b < 2 ^ 64) (hlen : (historyLine d a b tail).length < npos) :
    parseHistoryLine (historyLine d a b tail) = some (d, digitsValue a, digitsValue b) := by
  rw [historyLine_length] at hlen
  have hnpos : npos = 2 ^ 64 - 1 := rfl
  have e2 : transmittedMarker.length = 13 := by decide
  have e4 : receivedMarker.length = 10 := by decide
  have c1 : find (historyLine d a b tail) [':'] 0 = d.length := find_colon d _ hd
  have c2 : substr (historyLine d a b tail) 0 d.length = some d := by
    simp [substr, historyLine]
  have c3 : find (historyLine d a b tail) transmittedMarker 0 = d.length + 2 :=
    find_transmittedMarker d _ hd hT
  have c4 : find (historyLine d a b tail) receivedMarker 0 = d.length + 15 + a.length + 5 :=
    find_receivedMarker d a _ hd hR ha.2
  have p1 : historyLine d a b tail
      = (d ++ (": ".toList ++ transmittedMarker)) ++ (a ++ ("MB".toList ++
          (" , ".toList ++ (receivedMarker ++ (b ++ ("MB".toList ++ tail)))))) := by
    simp only [historyLine, List.append_assoc]
    rfl
  have l1 : (d ++ (": ".toList ++ transmittedMarker)).length = d.length + 15 := by
    simp only [List.length_append, e2]
    have : ": ".toList.length = 2 := by decide
    omega
  have p2 : historyLine d a b tail
      = (d ++ (": ".toList ++ (transmittedMarker ++ (a ++ ("MB , ".toList ++ receivedMarker)))))
          ++ (b ++ ("MB".toList ++ tail)) := by
    simp only [historyLine, List.append_assoc]
  have l2 : (d ++ (": ".toList ++ (transmittedMarker ++ (a ++ ("MB , ".toList
      ++ receivedMarker))))).length = d.length + 15 + a.length + 5 + 10 := by
    simp only [List.length_append, e2, e4]
    have : ": ".toList.length = 2 := by decide
    have : "MB , ".toList.length = 5 := by decide
    omega
  have c5 : find (historyLine d a b tail) "MB".toList (d.length + 15)
      = d.length + 15 + a.length := by
    have := find_MB (d ++ (": ".toList ++ transmittedMarker)) a
      (" , ".toList ++ (receivedMarker ++ (b ++ ("MB".toList ++ tail)))) ha.2
    rw [← p1, l1] at this
    exact this
  have c6 : find (historyLine d a b tail) "MB".toList (d.length + 15 + a.length + 5 + 10)
      = d.length + 15 + a.length + 5 + 10 + b.length := by
    have := find_MB (d ++ (": ".toList ++ (transmittedMarker ++ (a ++ ("MB , ".toList
      ++ receivedMarker))))) b tail hb.2
    rw [← p2, l2] at this
    exact this
  have c7 : substr (historyLine d a b tail) (d.length + 15) a.length = some a := by
    have := substr_at (d ++ (": ".toList ++ transmittedMarker)) (a ++ ("MB".toList ++
          (" , ".toList ++ (receivedMarker ++ (b ++ ("MB".toList ++ tail)))))) a.length
    rw [← p1, l1] at this
    rw [this]
    simp
  have c8 : substr (historyLine d a b tail) (d.length + 15 + a.length + 5 + 10) b.length
      = some b := by
    have := substr_at (d ++ (": ".toList ++ (transmittedMarker ++ (a ++ ("MB , ".toList
      ++ receivedMarker))))) (b ++ ("MB".toList ++ tail)) b.length
    rw [← p2, l2] at this
    rw [this]
    simp
  have m1 : (d.length + 2 + 13) % 2 ^ 64 = d.length + 15 := by omega
  have m2 : (d.length + 15 + a.length + 5 + 10) % 2 ^ 64 = d.length + 15 + a.length + 5 + 10 := by
    omega
  have m3 : (d.length + 15 + a.length + 2 ^ 64 - (d.length + 15)) % 2 ^ 64 = a.length := by omega
  have m4 : (d.length + 15 + a.length + 5 + 10 + b.length + 2 ^ 64
      - (d.length + 15 + a.length + 5 + 10)) % 2 ^ 64 = b.length := by omega
  have n1 : ¬ d.length = npos := by omega
  have n2 : d.length + 15 ≠ npos ∧ d.length + 15 + a.length + 5 + 10 ≠ npos := by
    constructor <;> omega
  unfold parseHistoryLine
  simp only [c1, n1, ↓reduceIte, c2, c3, c4, e2, e4, m1, m2, c5, c6, m3, m4, c7, c8,
    stoull_digits a ha.2 ha.1 hav, stoull_digits b hb.2 hb.1 hbv]
  exact if_pos n2

/-! ## Lines of a file -/

theorem getLinesAux_line :
    ∀ (l rest cur : Str), '\n' ∉ l →
      getLinesAux (l ++ '\n' :: rest) cur = (cur.reverse ++ l) :: getLinesAux rest [] := by
  intro l
  induction l with
  | nil => intro rest cur _; simp [getLinesAux]
  | cons c cs ih =>
    intro rest cur h
    have hc : c ≠ '\n' := fun e => h (by simp [e])
    have hcs : '\n' ∉ cs := fun e => h (by simp [e])
    rw [List.cons_append, getLinesAux]
    simp only [hc, ↓reduceIte]
    rw [ih rest (c :: cur) hcs]
    simp

theorem getLines_line (l rest : Str) (h : '\n' ∉ l) :
    getLines (l ++ '\n' :: rest) = l :: getLines rest := by
  simp [getLines, getLinesAux_line l rest [] h]

/-! ## Loading one line -/

theorem loadLine_of_parse {line k : Str} {t r : Nat} (m : History)
    (h : parseHistoryLine line = some (k, t, r)) :
    loadLine m line = StrMap.set m k
      { ReceivedBytes := (r * 1048576) % 2 ^ 64, TransmittedBytes := (t * 1048576) % 2 ^ 64 } := by
  simp [loadLine, h, History.get, StrMap.getD_set_self, StrMap.set_set]

theorem loadLine_of_parse_none {line : Str} (m : History) (h : parseHistoryLine line = none) :
    loadLine m line = m := by
  simp [loadLine, h]

theorem findAux_char (c : Char) :
    ∀ (s : Str) (i : Nat),
      findAux [c] s i = if c ∈ s then i + (s.takeWhile (fun x => x != c)).length else npos := by
  intro s
  induction s with
  | nil => intro i; simp [findAux]
  | cons x xs ih =>
    intro i
    rw [findAux]
    by_cases hx : x = c
    · subst hx
      simp [List.isPrefixOf]
    · have hx' : ¬ c = x := fun e => hx e.symm
      simp only [List.isPrefixOf, beq_iff_eq, hx', Bool.and_true, Bool.false_eq_true,
        ↓reduceIte, ih, List.mem_cons, false_or, List.takeWhile_cons, bne_iff_ne, ne_eq, hx,
        not_false_eq_true, decide_True, List.length_cons]
      by_cases hm : c ∈ xs
      · simp only [hm, ↓reduceIte]; omega
      · simp only [hm, ↓reduceIte]

theorem parseHistoryLine_substr {line k : Str} {t r : Nat}
    (h : parseHistoryLine line = some (k, t, r)) :
    find line [':'] 0 ≠ npos ∧ substr line 0 (find line [':'] 0) = some k := by
  unfold parseHistoryLine at h
  by_cases hc : find line [':'] 0 = npos
  · simp [hc] at h
  · refine ⟨hc, ?_⟩
    simp only [hc, ↓reduceIte] at h
    cases hs : substr line 0 (find line [':'] 0) with
    | none => simp [hs] at h
    | some key =>
      simp only [hs] at h
      split at h
      · split at h
        · exact absurd h (by simp)
        · split at h
          · exact absurd h (by simp)
          · split at h
            · exact absurd h (by simp)
            · split at h
              · exact absurd h (by simp)
              · simp only [Option.some.injEq, Prod.mk.injEq] at h
                rw [h.1]
      · exact absurd h (by simp)

theorem take_length_takeWhile (p : Char → Bool) (l : Str) :
    l.take (l.takeWhile p).length = l.takeWhile p := by
  induction l with
  | nil => simp
  | cons x xs ih =>
    by_cases hx : p x = true
    · simp [List.takeWhile_cons, hx, ih]
    · simp [List.takeWhile_cons, hx]

/-- The date key of a line that is stored is its text before the first colon. -/
theorem parseHistoryLine_key {line k : Str} {t r : Nat}
    (h : parseHistoryLine line = some (k, t, r)) : textBeforeFirstColon line = some k := by
  obtain ⟨h1, h2⟩ := parseHistoryLine_substr h
  rw [find_zero, findAux_char] at h1 h2
  by_cases hm : ':' ∈ line
  · simp only [hm, ↓reduceIte, Nat.zero_add] at h2
    simp only [substr, Nat.not_lt_zero, ↓reduceIte, List.drop_zero, Option.some.injEq] at h2
    rw [textBeforeFirstColon, if_pos hm, ← h2]
    rw [take_length_takeWhile]
  · simp [hm] at h1

/-! ## Saving, and loading what was saved -/

theorem saveLine_eq_entryLine (date : Str) (stats : NetworkStatsSnapshot) (h : stats.InRange) :
    saveLine date stats = entryLine date stats ++ ['\n'] := by
  obtain ⟨h1, h2⟩ := h
  have hsum : (stats.ReceivedBytes / 1048576 + stats.TransmittedBytes / 1048576) % 2 ^ 64
      = stats.TransmittedBytes / 1048576 + stats.ReceivedBytes / 1048576 := by
    omega
  simp only [saveLine, entryLine, formatLine, ConvertBytesToMegabytes, List.append_assoc, hsum]
  rfl

theorem SaveDailyStatsToDisk_cons (date : Str) (stats : NetworkStatsSnapshot) (rest : History) :
    SaveDailyStatsToDisk ((date, stats) :: rest)
      = saveLine date stats ++ SaveDailyStatsToDisk rest := rfl

theorem newline_not_mem_entryLine (date : Str) (stats : NetworkStatsSnapshot)
    (hd : '\n' ∉ date) : '\n' ∉ entryLine date stats := by
  have hdig : ∀ n, '\n' ∉ toDecimal n := fun n =>
    not_mem_of_all_isDigit (toDecimal_isDigit n) (by decide)
  simp only [entryLine, formatLine, List.mem_append, not_or]
  refine ⟨⟨⟨⟨⟨⟨⟨hd, by decide⟩, hdig _⟩, by decide⟩, hdig _⟩, by decide⟩, hdig _⟩, by decide⟩

theorem getLines_SaveDailyStatsToDisk :
    ∀ (h : History), History.InRange h → (∀ e ∈ h, '\n' ∉ e.1) →
      getLines (SaveDailyStatsToDisk h) = h.map (fun e => entryLine e.1 e.2) := by
  intro h
  induction h with
  | nil => intro _ _; rfl
  | cons e rest ih =>
    intro hr hn
    obtain ⟨date, stats⟩ := e
    rw [SaveDailyStatsToDisk_cons, saveLine_eq_entryLine date stats (hr (date, stats) (by simp))]
    rw [List.append_assoc, List.singleton_append,
      getLines_line _ _ (newline_not_mem_entryLine date stats (hn (date, stats) (by simp)))]
    rw [ih (fun e he => hr e (by simp [he])) (fun e he => hn e (by simp [he]))]
    simp

/-- The line written for an entry with a reloadable key is read back as that key
and the two megabyte numbers. -/
theorem parseHistoryLine_entryLine (date : Str) (stats : NetworkStatsSnapshot)
    (hk : ReloadableKey date) (hr : stats.InRange) :
    parseHistoryLine (entryLine date stats)
      = some (date, stats.TransmittedBytes / 1048576, stats.ReceivedBytes / 1048576) := by
  obtain ⟨k1, _, k3, k4, k5⟩ := hk
  obtain ⟨r1, r2⟩ := hr
  have ht : stats.TransmittedBytes / 1048576 < 2 ^ 64 := by omega
  have hrr : stats.ReceivedBytes / 1048576 < 2 ^ 64 := by omega
  have hs : stats.TransmittedBytes / 1048576 + stats.ReceivedBytes / 1048576 < 2 ^ 64 := by omega
  have l1 := toDecimal_length _ ht
  have l2 := toDecimal_length _ hrr
  have l3 := toDecimal_length _ hs
  rw [entryLine, historyLine_eq_formatLine]
  have := parseHistoryLine_historyLine date (toDecimal (stats.TransmittedBytes / 1048576))
    (toDecimal (stats.ReceivedBytes / 1048576))
    (", Total: ".toList ++ (toDecimal (stats.TransmittedBytes / 1048576
      + stats.ReceivedBytes / 1048576) ++ "MB".toList))
    k1 k3 k4 ⟨toDecimal_ne_nil _, toDecimal_isDigit _⟩ ⟨toDecimal_ne_nil _, toDecimal_isDigit _⟩
    (by rw [digitsValue_toDecimal]; exact ht) (by rw [digitsValue_toDecimal]; exact hrr)
    (by
      rw [historyLine_length]
      simp only [List.length_append]
      have e1 : ", Total: ".toList.length = 9 := by decide
      have e2 : "MB".toList.length = 2 := by decide
      have e3 : npos = 2 ^ 64 - 1 := rfl
      rw [e1, e2, e3]
      omega)
  rw [this, digitsValue_toDecimal, digitsValue_toDecimal]

theorem loadLine_entryLine (m : History) (date : Str) (stats : NetworkStatsSnapshot)
    (hk : ReloadableKey date) (hr : stats.InRange) :
    loadLine m (entryLine date stats) = StrMap.set m date (wholeMegabytes stats) := by
  rw [loadLine_of_parse m (parseHistoryLine_entryLine date stats hk hr)]
  obtain ⟨r1, r2⟩ := hr
  unfold wholeMegabytes
  congr 2 <;> omega

theorem StrMap.set_append_of_lt {V : Type} (acc : StrMap V) (k : Str) (v : V)
    (h : ∀ e ∈ acc, strLt e.1 k = true) : StrMap.set acc k v = acc ++ [(k, v)] := by
  induction acc with
  | nil => rfl
  | cons e rest ih =>
    obtain ⟨k', v'⟩ := e
    have h1 : strLt k' k = true := h (k', v') (by simp)
    simp only [StrMap.set, h1, ↓reduceIte, List.cons_append]
    rw [ih (fun e he => h e (by simp [he]))]

theorem foldl_loadLine_entryLines :
    ∀ (h acc : History), StrMap.Sorted h → History.InRange h → (∀ e ∈ h, ReloadableKey e.1) →
      (∀ a ∈ acc, ∀ e ∈ h, strLt a.1 e.1 = true) →
      (h.map (fun e => entryLine e.1 e.2)).foldl loadLine acc
        = acc ++ h.map (fun e => (e.1, wholeMegabytes e.2)) := by
  intro h
  induction h with
  | nil => intro acc _ _ _ _; simp
  | cons e rest ih =>
    intro acc hs hr hk hlt
    obtain ⟨date, stats⟩ := e
    have hs' := List.pairwise_cons.1 hs
    simp only [List.map_cons, List.foldl_cons]
    rw [loadLine_entryLine acc date stats (hk (date, stats) (by simp)) (hr (date, stats) (by simp))]
    rw [StrMap.set_append_of_lt acc date _ (fun a ha => hlt a ha (date, stats) (by simp))]
    rw [ih (acc ++ [(date, wholeMegabytes stats)]) hs'.2 (fun e he => hr e (by simp [he]))
      (fun e he => hk e (by simp [he]))
      (by
        intro a ha e he
        rcases List.mem_append.1 ha with ha | ha
        · exact hlt a ha e (by simp [he])
        · simp only [List.mem_singleton] at ha
          rw [ha]
          exact hs'.1 e he)]
    simp

/-- Loading into an empty history what was saved gives back every entry, cut down
to whole megabytes. -/
theorem load_save (h : History) (hs : StrMap.Sorted h) (hr : History.InRange h)
    (hk : ∀ e ∈ h, ReloadableKey e.1) :
    LoadHistoryFromDisk (some (SaveDailyStatsToDisk h)) []
      = h.map (fun e => (e.1, wholeMegabytes e.2)) := by
  simp only [LoadHistoryFromDisk]
  rw [getLines_SaveDailyStatsToDisk h hr (fun e he => (hk e he).2.1)]
  rw [foldl_loadLine_entryLines h [] hs hr hk (fun a ha => absurd ha (List.not_mem_nil a))]
  exact List.nil_append _

theorem wholeMegabytes_of_aligned (s : NetworkStatsSnapshot)
    (h : s.ReceivedBytes % 1048576 = 0 ∧ s.TransmittedBytes % 1048576 = 0) :
    wholeMegabytes s = s := by
  obtain ⟨h1, h2⟩ := h
  unfold wholeMegabytes
  have e1 : s.ReceivedBytes / 1048576 * 1048576 = s.ReceivedBytes := by omega
  have e2 : s.TransmittedBytes / 1048576 * 1048576 = s.TransmittedBytes := by omega
  rw [e1, e2]

theorem map_wholeMegabytes_of_aligned (h : History)
    (ha : ∀ e ∈ h, e.2.ReceivedBytes % 1048576 = 0 ∧ e.2.TransmittedBytes % 1048576 = 0) :
    h.map (fun e => (e.1, wholeMegabytes e.2)) = h := by
  induction h with
  | nil => rfl
  | cons e rest ih =>
    obtain ⟨k, s⟩ := e
    simp only [List.map_cons]
    rw [wholeMegabytes_of_aligned s (ha (k, s) (by simp)), ih (fun e he => ha e (by simp [he]))]

/-! ## Claims about saving and loading -/

/-- C4 (counterexample): the key `Transmitted` holds no colon and no newline, yet
the line saved for it is skipped on reload, so the reloaded history is empty. -/
theorem C4_counterexample_marker_key :
    StrMap.Sorted exampleMarkerKeyHistory ∧ History.InRange exampleMarkerKeyHistory ∧
      (∀ e ∈ exampleMarkerKeyHistory, ':' ∉ e.1 ∧ '\n' ∉ e.1) ∧
      SaveDailyStatsToDisk exampleMarkerKeyHistory
        = "Transmitted: Transmitted: 1MB , Received: 2MB, Total: 3MB\n".toList ∧
      LoadHistoryFromDisk (some (SaveDailyStatsToDisk exampleMarkerKeyHistory)) [] = [] ∧
      LoadHistoryFromDisk (some (SaveDailyStatsToDisk exampleMarkerKeyHistory)) []
        ≠ exampleMarkerKeyHistory.map (fun e => (e.1, wholeMegabytes e.2)) := by
  decide

/-- C4 (amended): for every history whose keys hold no colon and no newline, do not
end in `Transmitted` or `Received` and are shorter than `2 ^ 62` characters,
loading into an empty history the text written by save yields exactly the keys of
the history, each with its received and transmitted bytes cut down to whole
megabytes; it yields the history itself when every byte count is a multiple of
1,048,576. -/
theorem C4_load_save_cuts_to_whole_megabytes (h : History) (hs : StrMap.Sorted h)
    (hr : History.InRange h) (hk : ∀ e ∈ h, ReloadableKey e.1) :
    LoadHistoryFromDisk (some (SaveDailyStatsToDisk h)) []
        = h.map (fun e => (e.1,
            ({ ReceivedBytes := e.2.ReceivedBytes / 1048576 * 1048576
               TransmittedBytes := e.2.TransmittedBytes / 1048576 * 1048576 } :
              NetworkStatsSnapshot))) ∧
      (∀ e ∈ h, e.2.ReceivedBytes / 1048576 * 1048576 < 2 ^ 64 ∧
        e.2.TransmittedBytes / 1048576 * 1048576 < 2 ^ 64) ∧
      (History.Aligned h → LoadHistoryFromDisk (some (SaveDailyStatsToDisk h)) [] = h) := by
  refine ⟨load_save h hs hr hk, ?_, ?_⟩
  · intro e he
    obtain ⟨h1, h2⟩ := hr e he
    constructor <;> omega
  · intro ha
    rw [load_save h hs hr hk]
    exact map_wholeMegabytes_of_aligned h ha

/-- C4 (amended), for a history with two dates, one entry not aligned. -/
theorem C4_load_save_cuts_to_whole_megabytes_witness :
    StrMap.Sorted exampleHistory ∧ History.InRange exampleHistory ∧
      (∀ e ∈ exampleHistory, ReloadableKey e.1) ∧
      LoadHistoryFromDisk (some (SaveDailyStatsToDisk exampleHistory)) []
        = [("2024-01-01".toList, { ReceivedBytes := 2097152, TransmittedBytes := 1048576 }),
            ("2024-01-02".toList, { ReceivedBytes := 4194304, TransmittedBytes := 0 })] :=
  ⟨by decide, by decide, by decide,
    (C4_load_save_cuts_to_whole_megabytes exampleHistory (by decide) (by decide)
      (by decide)).1⟩

/-- C5: for every history with 64-bit values, the text written by save is the
concatenation, in the order of the strictly ascending keys, of one line
`<date>: Transmitted: <t>MB , Received: <r>MB, Total: <t+r>MB` and a newline per
date, where `t` and `r` are the byte counts divided by 1,048,576, printed in
decimal, and the total is the sum of these two numbers, which fits 64 bits. -/
theorem C5_save_format (h : History) (hs : StrMap.Sorted h) (hr : History.InRange h) :
    SaveDailyStatsToDisk h
        = (h.map (fun e =>
            e.1 ++ ": Transmitted: ".toList ++ toDecimal (e.2.TransmittedBytes / 1048576)
              ++ "MB , Received: ".toList ++ toDecimal (e.2.ReceivedBytes / 1048576)
              ++ "MB, Total: ".toList
              ++ toDecimal (e.2.TransmittedBytes / 1048576 + e.2.ReceivedBytes / 1048576)
              ++ "MB".toList ++ "\n".toList)).flatten ∧
      List.Pairwise (fun a b => strLt a b = true) (h.map (fun e => e.1)) ∧
      (∀ e ∈ h, e.2.TransmittedBytes / 1048576 + e.2.ReceivedBytes / 1048576 < 2 ^ 64) ∧
      (∀ n, IsDigits (toDecimal n) ∧ digitsValue (toDecimal n) = n) := by
  refine ⟨?_, ?_, ?_, ?_⟩
  · clear hs
    induction h with
    | nil => rfl
    | cons e rest ih =>
      obtain ⟨date, stats⟩ := e
      rw [SaveDailyStatsToDisk_cons, saveLine_eq_entryLine date stats (hr (date, stats) (by simp)),
        ih (fun e he => hr e (by simp [he]))]
      simp only [List.map_cons, List.flatten_cons, entryLine, formatLine]
      rfl
  · exact List.pairwise_map.2 hs
  · intro e he
    obtain ⟨h1, h2⟩ := hr e he
    omega
  · intro n
    exact ⟨⟨toDecimal_ne_nil n, toDecimal_isDigit n⟩, digitsValue_toDecimal n⟩

/-- C5, at the example of the specification and a second date. -/
theorem C5_save_format_witness :
    StrMap.Sorted exampleAlignedHistory ∧ History.InRange exampleAlignedHistory ∧
      SaveDailyStatsToDisk exampleAlignedHistory
        = ("2024-01-01: Transmitted: 1MB , Received: 2MB, Total: 3MB\n"
            ++ "2024-01-02: Transmitted: 0MB , Received: 5MB, Total: 5MB\n").toList := by
  refine ⟨by decide, by decide, ?_⟩
  rw [(C5_save_format exampleAlignedHistory (by decide) (by decide)).1]
  decide

/-- C7 (the code at the failing inputs): a line with a colon that lacks the marker
`Received: `, and one that lacks `Transmitted: `, are not skipped; the wrapped
start offsets 9 and 12 are used and an entry is stored. -/
theorem C7_line_without_marker_is_stored :
    LoadHistoryFromDisk (some "2024-01-07: Transmitted: 1MB\n".toList) []
        = [("2024-01-07".toList, { ReceivedBytes := 7340032, TransmittedBytes := 1048576 })] ∧
      LoadHistoryFromDisk (some "2024-01-01: 7MB , Received: 2MB\n".toList) []
        = [("2024-01-01".toList, { ReceivedBytes := 2097152, TransmittedBytes := 7340032 })] ∧
      LoadHistoryFromDisk (some "".toList) [] = [] ∧
      (find "2024-01-07: Transmitted: 1MB".toList receivedMarker 0 + receivedMarker.length)
          % 2 ^ 64 = 9 ∧
      (find "2024-01-01: 7MB , Received: 2MB".toList transmittedMarker 0
          + transmittedMarker.length) % 2 ^ 64 = 12 := by
  decide

/-- C9 (counterexample): for the key `Received` the saved line is skipped on
reload, so saving the reloaded history writes an empty file. -/
theorem C9_counterexample_received_key :
    StrMap.Sorted exampleReceivedKeyHistory ∧ History.Aligned exampleReceivedKeyHistory ∧
      History.InRange exampleReceivedKeyHistory ∧
      (∀ e ∈ exampleReceivedKeyHistory, ':' ∉ e.1 ∧ '\n' ∉ e.1) ∧
      SaveDailyStatsToDisk exampleReceivedKeyHistory
        = "Received: Transmitted: 0MB , Received: 1MB, Total: 1MB\n".toList ∧
      SaveDailyStatsToDisk
        (LoadHistoryFromDisk (some (SaveDailyStatsToDisk exampleReceivedKeyHistory)) []) = [] := by
  decide

/-- C9 (amended): for every history whose keys hold no colon and no newline, do not
end in `Transmitted` or `Received` and are shorter than `2 ^ 62` characters, and
whose byte counts are all multiples of 1,048,576, saving what was loaded from the
saved text writes the same text again. -/
theorem C9_save_load_save_fixed_point (h : History) (hs : StrMap.Sorted h)
    (hr : History.InRange h) (hk : ∀ e ∈ h, ReloadableKey e.1) (ha : History.Aligned h) :
    SaveDailyStatsToDisk (LoadHistoryFromDisk (some (SaveDailyStatsToDisk h)) [])
      = SaveDailyStatsToDisk h := by
  rw [load_save h hs hr hk, map_wholeMegabytes_of_aligned h ha]

/-- C9 (amended), for a history with two aligned dates. -/
theorem C9_save_load_save_fixed_point_witness :
    StrMap.Sorted exampleAlignedHistory ∧ History.InRange exampleAlignedHistory ∧
      (∀ e ∈ exampleAlignedHistory, ReloadableKey e.1) ∧
      History.Aligned exampleAlignedHistory ∧
      SaveDailyStatsToDisk
          (LoadHistoryFromDisk (some (SaveDailyStatsToDisk exampleAlignedHistory)) [])
        = SaveDailyStatsToDisk exampleAlignedHistory :=
  ⟨by decide, by decide, by decide, by decide,
    C9_save_load_save_fixed_point exampleAlignedHistory (by decide) (by decide) (by decide)
      (by decide)⟩

/-! ## Lines among other lines -/

theorem loadLine_eq_or_set (m : History) (line : Str) :
    loadLine m line = m ∨
      ∃ k v, textBeforeFirstColon line = some k ∧ loadLine m line = StrMap.set m k v := by
  cases hp : parseHistoryLine line with
  | none => exact Or.inl (loadLine_of_parse_none m hp)
  | some res =>
    obtain ⟨k, t, r⟩ := res
    exact Or.inr ⟨k, _, parseHistoryLine_key hp, loadLine_of_parse m hp⟩

/-- Lines whose text before the first colon is not `d` leave the entry of `d` as
it is. -/
theorem find?_foldl_loadLine (d : Str) :
    ∀ (lines : List Str) (m : History),
      (∀ l ∈ lines, textBeforeFirstColon l ≠ some d) →
      StrMap.find? (lines.foldl loadLine m) d = StrMap.find? m d := by
  intro lines
  induction lines with
  | nil => intro m _; rfl
  | cons l rest ih =>
    intro m h
    rw [List.foldl_cons, ih (loadLine m l) (fun x hx => h x (by simp [hx]))]
    rcases loadLine_eq_or_set m l with he | ⟨k, v, hk, he⟩
    · rw [he]
    · rw [he]
      apply StrMap.find?_set_other
      intro hdk
      exact h l (by simp) (by rw [hk, hdk])

/-- A line that is skipped can be taken out of the file. -/
theorem foldl_loadLine_skip (l1 l2 : List Str) (line : Str) (m : History)
    (h : parseHistoryLine line = none) :
    (l1 ++ line :: l2).foldl loadLine m = (l1 ++ l2).foldl loadLine m := by
  rw [List.foldl_append, List.foldl_cons, loadLine_of_parse_none _ h, List.foldl_append]

/-! ## Texts that are not converted -/

theorem findAux_of_first (needle : Str) :
    ∀ (p : Nat) (s : Str) (i : Nat), p ≤ s.length → occursAt needle s p = true →
      (∀ j, j < p → occursAt needle s j = false) → findAux needle s i = i + p := by
  intro p
  induction p with
  | zero =>
    intro s i _ h0 _
    simp only [occursAt, List.drop_zero] at h0
    rw [findAux_hit needle s i h0]; rfl
  | succ p ih =>
    intro s i hlen hp hbefore
    cases s with
    | nil => simp at hlen
    | cons c cs =>
      have h0 := hbefore 0 (by omega)
      simp only [occursAt, List.drop_zero] at h0
      rw [findAux]
      simp only [h0, Bool.false_eq_true, ↓reduceIte]
      rw [ih cs (i + 1) (by simpa using hlen) (by simpa [occursAt] using hp)
        (fun j hj => by
          have := hbefore (j + 1) (by omega)
          simpa [occursAt] using this)]
      omega

theorem parseHistoryLine_none_of_transmitted (line x : Str)
    (hs : substr line
        ((find line transmittedMarker 0 + transmittedMarker.length) % 2 ^ 64)
        ((find line "MB".toList ((find line transmittedMarker 0 + transmittedMarker.length) % 2 ^ 64)
          + 2 ^ 64 - (find line transmittedMarker 0 + transmittedMarker.length) % 2 ^ 64) % 2 ^ 64)
      = some x)
    (hx : stoull x = none) : parseHistoryLine line = none := by
  unfold parseHistoryLine
  simp only [hs, hx]
  split
  · rfl
  · split
    · rfl
    · split
      · split
        · rfl
        · rfl
      · rfl

theorem parseHistoryLine_none_of_received (line x : Str)
    (hs : substr line
        ((find line receivedMarker 0 + receivedMarker.length) % 2 ^ 64)
        ((find line "MB".toList ((find line receivedMarker 0 + receivedMarker.length) % 2 ^ 64)
          + 2 ^ 64 - (find line receivedMarker 0 + receivedMarker.length) % 2 ^ 64) % 2 ^ 64)
      = some x)
    (hx : stoull x = none) : parseHistoryLine line = none := by
  unfold parseHistoryLine
  simp only [hs, hx]
  split
  · rfl
  · split
    · rfl
    · split
      · split
        · rfl
        · split
          · rfl
          · rfl
      · rfl

/-- The text the loader converts for a marker: what stands between the first
occurrence of the marker and the next `MB`. -/
theorem substr_after_marker (marker pre x q : Str)
    (hfirst : ∀ j, j < pre.length →
      occursAt marker (pre ++ (marker ++ (x ++ ("MB".toList ++ q)))) j = false)
    (hnext : ∀ j, j < x.length → occursAt "MB".toList (x ++ ("MB".toList ++ q)) j = false)
    (hlen : (pre ++ (marker ++ (x ++ ("MB".toList ++ q)))).length < 2 ^ 62) :
    substr (pre ++ (marker ++ (x ++ ("MB".toList ++ q))))
        ((find (pre ++ (marker ++ (x ++ ("MB".toList ++ q)))) marker 0 + marker.length) % 2 ^ 64)
        ((find (pre ++ (marker ++ (x ++ ("MB".toList ++ q)))) "MB".toList
            ((find (pre ++ (marker ++ (x ++ ("MB".toList ++ q)))) marker 0 + marker.length)
              % 2 ^ 64)
          + 2 ^ 64
          - (find (pre ++ (marker ++ (x ++ ("MB".toList ++ q)))) marker 0 + marker.length)
              % 2 ^ 64) % 2 ^ 64)
      = some x := by
  have hl : pre.length + marker.length + x.length < 2 ^ 62 := by
    simp only [List.length_append] at hlen
    omega
  have c1 : find (pre ++ (marker ++ (x ++ ("MB".toList ++ q)))) marker 0 = pre.length := by
    rw [find_zero, findAux_of_first marker pre.length _ 0 (by simp)
      (by simp [occursAt, isPrefixOf_append_self]) hfirst]
    omega
  have m1 : (pre.length + marker.length) % 2 ^ 64 = (pre ++ marker).length := by
    rw [List.length_append]
    omega
  have p1 : pre ++ (marker ++ (x ++ ("MB".toList ++ q)))
      = (pre ++ marker) ++ (x ++ ("MB".toList ++ q)) := by
    simp only [List.append_assoc]
  have c2 : find (pre ++ (marker ++ (x ++ ("MB".toList ++ q)))) "MB".toList (pre ++ marker).length
      = (pre ++ marker).length + x.length := by
    rw [p1, find_at, findAux_of_first "MB".toList x.length _ _ (by simp)
      (by simp [occursAt, isPrefixOf_append_self]) hnext]
  have m2 : ((pre ++ marker).length + x.length + 2 ^ 64 - (pre ++ marker).length) % 2 ^ 64
      = x.length := by
    rw [List.length_append]
    omega
  rw [c1, m1, c2, m2]
  conv_lhs => rw [p1]
  rw [substr_at]
  simp

/-! ## Claims about single lines of a file -/

/-- C6 (counterexample): the line `Transmitted: Transmitted: 1MB , Received: 2MB,
Total: 3MB` has the form of the claim with the colon-free date `Transmitted`, yet
it is skipped: the date has no entry after loading. -/
theorem C6_counterexample_marker_date :
    getLines exampleMarkerDateFile
        = [] ++ formatLine "Transmitted".toList "1".toList "2".toList "3".toList :: [] ∧
      ':' ∉ "Transmitted".toList ∧
      IsDigits "1".toList ∧ IsDigits "2".toList ∧ IsDigits "3".toList ∧
      digitsValue "1".toList < 2 ^ 44 ∧ digitsValue "2".toList < 2 ^ 44 ∧
      StrMap.find? (LoadHistoryFromDisk (some exampleMarkerDateFile) []) "Transmitted".toList
        = none := by
  decide

/-- C6 (amended): a line `D: Transmitted: aMB , Received: bMB, Total: cMB` of a
file, where `D` holds no colon and does not end in `Transmitted` or `Received`,
`a` and `b` are digit strings below `2 ^ 44`, and no later line has `D` before its
first colon, gives after loading into an empty history the entry
`{received = b * 1048576, transmitted = a * 1048576}` for `D`, whatever `c` is and
whatever the other lines hold. -/
theorem C6_wellformed_line_is_loaded (content : Str) (l1 l2 : List Str) (d a b c : Str)
    (hlines : getLines content = l1 ++ formatLine d a b c :: l2)
    (hd : ':' ∉ d) (hT : endsWith d "Transmitted".toList = false)
    (hR : endsWith d "Received".toList = false)
    (ha : IsDigits a) (hb : IsDigits b)
    (hav : digitsValue a < 2 ^ 44) (hbv : digitsValue b < 2 ^ 44)
    (hlen : (formatLine d a b c).length < 2 ^ 62)
    (hlater : ∀ l ∈ l2, textBeforeFirstColon l ≠ some d) :
    StrMap.find? (LoadHistoryFromDisk (some content) []) d
      = some { ReceivedBytes := digitsValue b * 1048576
               TransmittedBytes := digitsValue a * 1048576 } := by
  have hp : parseHistoryLine (formatLine d a b c) = some (d, digitsValue a, digitsValue b) := by
    rw [historyLine_eq_formatLine] at hlen ⊢
    exact parseHistoryLine_historyLine d a b _ hd hT hR ha hb (by omega) (by omega)
      (by
        have : npos = 2 ^ 64 - 1 := rfl
        omega)
  simp only [LoadHistoryFromDisk, hlines, List.foldl_append, List.foldl_cons]
  rw [find?_foldl_loadLine d l2 _ hlater, loadLine_of_parse _ hp, StrMap.find?_set_self]
  have e1 : digitsValue b * 1048576 % 2 ^ 64 = digitsValue b * 1048576 := by omega
  have e2 : digitsValue a * 1048576 % 2 ^ 64 = digitsValue a * 1048576 := by omega
  rw [e1, e2]

/-- C6 (amended), for the first line of a file that continues with a corrupted
line and a line of another date. -/
theorem C6_wellformed_line_is_loaded_witness :
    getLines exampleMixedFile
        = [] ++ formatLine "2024-01-01".toList "1".toList "2".toList "3".toList ::
            ["this line is corrupted".toList,
              "2024-01-02: Transmitted: 007MB , Received: 5MB, Total: 99MB".toList] ∧
      StrMap.find? (LoadHistoryFromDisk (some exampleMixedFile) []) "2024-01-01".toList
        = some { ReceivedBytes := digitsValue "2".toList * 1048576
                 TransmittedBytes := digitsValue "1".toList * 1048576 } :=
  ⟨by decide,
    C6_wellformed_line_is_loaded exampleMixedFile []
      ["this line is corrupted".toList,
        "2024-01-02: Transmitted: 007MB , Received: 5MB, Total: 99MB".toList]
      "2024-01-01".toList "1".toList "2".toList "3".toList
      (by decide) (by decide) (by decide) (by decide) (by decide) (by decide) (by decide)
      (by decide) (by decide) (by decide)⟩

/-- C8 (counterexample): the texts `12abc`, ` 7` and `-1` are not digit strings,
yet their lines are not skipped: they are stored as 12, 7 and `2 ^ 64 - 1`
megabytes (the last one wrapped to bytes), while the file without the line loads
as the empty history. -/
theorem C8_counterexample_partial_numbers :
    LoadHistoryFromDisk (some exampleTrailingLettersFile) []
        = [("2024-01-01".toList, { ReceivedBytes := 2097152, TransmittedBytes := 12582912 })] ∧
      LoadHistoryFromDisk
          (some "2024-01-01: Transmitted: 1MB , Received:  7MB, Total: 8MB\n".toList) []
        = [("2024-01-01".toList, { ReceivedBytes := 7340032, TransmittedBytes := 1048576 })] ∧
      LoadHistoryFromDisk
          (some "2024-01-01: Transmitted: -1MB , Received: 2MB, Total: 1MB\n".toList) []
        = [("2024-01-01".toList,
            { ReceivedBytes := 2097152, TransmittedBytes := 2 ^ 64 - 1048576 })] ∧
      LoadHistoryFromDisk (some []) [] = [] := by
  decide

/-- C8 (amended): a line of a file in which the text between the first
`Transmitted: ` and the next `MB`, or between the first `Received: ` and the next
`MB`, is one that `std::stoull` rejects (no digit after optional white space and
one optional sign, or a number above `2 ^ 64 - 1`) is skipped: loading the file
gives the same history as loading the file without that line. -/
theorem C8_unconvertible_line_is_skipped (content content' : Str) (l1 l2 : List Str)
    (marker pre x q : Str) (hmarker : marker = transmittedMarker ∨ marker = receivedMarker)
    (hlines : getLines content = l1 ++ (pre ++ (marker ++ (x ++ ("MB".toList ++ q)))) :: l2)
    (hremoved : getLines content' = l1 ++ l2)
    (hfirst : ∀ j, j < pre.length →
      occursAt marker (pre ++ (marker ++ (x ++ ("MB".toList ++ q)))) j = false)
    (hnext : ∀ j, j < x.length → occursAt "MB".toList (x ++ ("MB".toList ++ q)) j = false)
    (hx : stoull x = none)
    (hlen : (pre ++ (marker ++ (x ++ ("MB".toList ++ q)))).length < 2 ^ 62) :
    LoadHistoryFromDisk (some content) [] = LoadHistoryFromDisk (some content') [] := by
  have hs := substr_after_marker marker pre x q hfirst hnext hlen
  have hp : parseHistoryLine (pre ++ (marker ++ (x ++ ("MB".toList ++ q)))) = none := by
    rcases hmarker with hm | hm
    · rw [hm] at hs ⊢
      exact parseHistoryLine_none_of_transmitted _ x hs hx
    · rw [hm] at hs ⊢
      exact parseHistoryLine_none_of_received _ x hs hx
  simp only [LoadHistoryFromDisk, hlines, hremoved]
  exact foldl_loadLine_skip l1 l2 _ [] hp

/-- C8 (amended), for a second line whose received field is `abc`. -/
theorem C8_unconvertible_line_is_skipped_witness :
    stoull "abc".toList = none ∧
      getLines exampleNoDigitFile
        = ["2024-01-01: Transmitted: 1MB , Received: 2MB, Total: 3MB".toList]
          ++ ("2024-01-02: Transmitted: 4MB , ".toList ++ (receivedMarker ++ ("abc".toList
            ++ ("MB".toList ++ ", Total: 4MB".toList)))) :: [] ∧
      LoadHistoryFromDisk (some exampleNoDigitFile) []
        = LoadHistoryFromDisk (some exampleNoDigitFileShort) [] :=
  ⟨by decide, by decide,
    C8_unconvertible_line_is_skipped exampleNoDigitFile exampleNoDigitFileShort
      ["2024-01-01: Transmitted: 1MB , Received: 2MB, Total: 3MB".toList] []
      receivedMarker "2024-01-02: Transmitted: 4MB , ".toList "abc".toList ", Total: 4MB".toList
      (Or.inr rfl) (by decide) (by decide) (by decide) (by decide) (by decide) (by decide)⟩

/-! ## The key order is kept -/

theorem StrMap.mem_set {V : Type} (m : StrMap V) (k : Str) (v : V) (e : Str × V)
    (he : e ∈ StrMap.set m k v) : e = (k, v) ∨ e ∈ m := by
  induction m with
  | nil => simpa [StrMap.set] using he
  | cons e' rest ih =>
    obtain ⟨k', v'⟩ := e'
    simp only [StrMap.set] at he
    by_cases h1 : strLt k' k = true
    · simp only [h1, ↓reduceIte] at he
      rcases List.mem_cons.1 he with h | h
      · exact Or.inr (h ▸ List.mem_cons_self _ _)
      · rcases ih h with h' | h'
        · exact Or.inl h'
        · exact Or.inr (List.mem_cons_of_mem _ h')
    · by_cases h2 : strLt k k' = true
      · simp only [h1, h2, ↓reduceIte] at he
        rcases List.mem_cons.1 he with h | h
        · exact Or.inl h
        · exact Or.inr h
      · simp only [h1, h2, ↓reduceIte] at he
        rcases List.mem_cons.1 he with h | h
        · exact Or.inl h
        · exact Or.inr (List.mem_cons_of_mem _ h)

/-- An assignment `m[k] = v` keeps the keys strictly ascending. -/
theorem StrMap.set_sorted {V : Type} (m : StrMap V) (k : Str) (v : V) (hs : StrMap.Sorted m) :
    StrMap.Sorted (StrMap.set m k v) := by
  induction m with
  | nil => simp [StrMap.set, StrMap.Sorted]
  | cons e' rest ih =>
    obtain ⟨k', v'⟩ := e'
    have hs' := List.pairwise_cons.1 hs
    simp only [StrMap.set]
    by_cases h1 : strLt k' k = true
    · simp only [h1, ↓reduceIte]
      refine List.pairwise_cons.2 ⟨?_, ih hs'.2⟩
      intro e he
      rcases StrMap.mem_set rest k v e he with h | h
      · rw [h]; exact h1
      · exact hs'.1 e h
    · by_cases h2 : strLt k k' = true
      · simp only [h1, h2, ↓reduceIte]
        refine List.pairwise_cons.2 ⟨?_, hs⟩
        intro e he
        rcases List.mem_cons.1 he with h | h
        · rw [h]; exact h2
        · exact strLt_trans h2 (hs'.1 e h)
      · simp only [h1, h2, ↓reduceIte]
        have hk : k = k' := strLt_total (by simpa using h2) (by simpa using h1)
        refine List.pairwise_cons.2 ⟨?_, hs'.2⟩
        intro e he
        rw [hk]
        exact hs'.1 e he

/-- Loading a file into a history keeps its keys strictly ascending. -/
theorem LoadHistoryFromDisk_sorted (file : Option Str) (m : History) (hs : StrMap.Sorted m) :
    StrMap.Sorted (LoadHistoryFromDisk file m) := by
  cases file with
  | none => exact hs
  | some content =>
    simp only [LoadHistoryFromDisk]
    generalize getLines content = lines
    induction lines generalizing m with
    | nil => exact hs
    | cons l rest ih =>
      rw [List.foldl_cons]
      apply ih
      rcases loadLine_eq_or_set m l with he | ⟨k, v, _, he⟩
      · rw [he]; exact hs
      · rw [he]; exact StrMap.set_sorted m k v hs

/-- The polling step keeps the keys of the history of its interface strictly
ascending. -/
theorem pollInterface_history_sorted (env : Startup) (today name : Str) (st : MonitorState)
    (liveStats : NetworkStatsSnapshot)
    (hs : StrMap.Sorted (st.tracker name).DailyUsageHistory) :
    StrMap.Sorted ((pollInterface env today st (name, liveStats)).tracker name).DailyUsageHistory := by
  rw [pollInterface_tracker]
  simp only [trackerAfter, historyAfter]
  split
  · exact hs
  · split
    · exact StrMap.set_sorted _ _ _ hs
    · exact hs

/-! ## Frame of the polling step -/

theorem pollInterface_first (env : Startup) (today : Str) (st : MonitorState)
    (entry : Str × NetworkStatsSnapshot)
    (hfirst : (st.tracker entry.1).IsFirstMeasurement = true) :
    pollInterface env today st entry =
      { st with
        internalStateCollection := StrMap.set st.internalStateCollection entry.1
          (trackerAfter (st.tracker entry.1) today entry.2) } := by
  have h := pollInterface_collection env today entry.1 st entry.2
  simp only [pollInterface, hfirst, ↓reduceIte] at h ⊢
  rw [h]

theorem pollInterface_zero (env : Startup) (today : Str) (st : MonitorState)
    (entry : Str × NetworkStatsSnapshot)
    (hfirst : (st.tracker entry.1).IsFirstMeasurement = false)
    (hzero : ¬ (0 < changeInReceived entry.2 (st.tracker entry.1) ∨
      0 < changeInTransmitted entry.2 (st.tracker entry.1))) :
    pollInterface env today st entry =
      { st with
        internalStateCollection := StrMap.set st.internalStateCollection entry.1
          (trackerAfter (st.tracker entry.1) today entry.2) } := by
  have h := pollInterface_collection env today entry.1 st entry.2
  simp only [pollInterface, hfirst, hzero, ↓reduceIte, Bool.false_eq_true] at h ⊢
  rw [h]

theorem pollInterface_changed (env : Startup) (today : Str) (st : MonitorState)
    (entry : Str × NetworkStatsSnapshot)
    (hfirst : (st.tracker entry.1).IsFirstMeasurement = false)
    (hpos : 0 < changeInReceived entry.2 (st.tracker entry.1) ∨
      0 < changeInTransmitted entry.2 (st.tracker entry.1)) :
    pollInterface env today st entry =
      if env.physicalNames.contains entry.1 = true then
        { st with
          internalStateCollection := StrMap.set st.internalStateCollection entry.1
            (trackerAfter (st.tracker entry.1) today entry.2)
          writes := st.writes ++
            [{ folder := env.physicalInterfacesFolder, name := entry.1,
               content := SaveDailyStatsToDisk
                (trackerAfter (st.tracker entry.1) today entry.2).DailyUsageHistory }]
          totalPhysicalChangeReceived :=
            (st.totalPhysicalChangeReceived + changeInReceived entry.2 (st.tracker entry.1))
              % 2 ^ 64
          totalPhysicalChangeTransmitted :=
            (st.totalPhysicalChangeTransmitted
              + changeInTransmitted entry.2 (st.tracker entry.1)) % 2 ^ 64 }
      else
        { st with
          internalStateCollection := StrMap.set st.internalStateCollection entry.1
            (trackerAfter (st.tracker entry.1) today entry.2)
          writes := st.writes ++
            [{ folder := env.virtualInterfacesFolder, name := entry.1,
               content := SaveDailyStatsToDisk
                (trackerAfter (st.tracker entry.1) today entry.2).DailyUsageHistory }]
          totalVirtualChangeReceived :=
            (st.totalVirtualChangeReceived + changeInReceived entry.2 (st.tracker entry.1))
              % 2 ^ 64
          totalVirtualChangeTransmitted :=
            (st.totalVirtualChangeTransmitted
              + changeInTransmitted entry.2 (st.tracker entry.1)) % 2 ^ 64 } := by
  have h := pollInterface_collection env today entry.1 st entry.2
  have ht : (trackerAfter (st.tracker entry.1) today entry.2).DailyUsageHistory
      = History.addTransmitted
          (History.addReceived (st.tracker entry.1).DailyUsageHistory today
            (changeInReceived entry.2 (st.tracker entry.1)))
          today (changeInTransmitted entry.2 (st.tracker entry.1)) := by
    simp only [trackerAfter, hfirst, Bool.false_eq_true, ↓reduceIte, historyAfter, hpos,
      History.addTransmitted_addReceived]
  by_cases hp : env.physicalNames.contains entry.1 = true
  · simp only [pollInterface, hfirst, hpos, hp, ↓reduceIte, Bool.false_eq_true] at h ⊢
    rw [h, ht]
  · simp only [pollInterface, hfirst, hpos, hp, ↓reduceIte, Bool.false_eq_true] at h ⊢
    rw [h, ht]

/-! ## Claims about what the polling step touches -/

/-- C15: an interface of the snapshot that is not in the physical-name list taken
at start-up, whatever the virtual-name list holds, has its history saved under the
folder `VirtualInterfaces` when a change is not zero; its two changes are added to
the virtual running totals, and the physical running totals and the physical
aggregate tracker stay as they were. -/
theorem C15_unlisted_interface_counts_as_virtual (env : Startup) (today name : Str)
    (st : MonitorState) (liveStats : NetworkStatsSnapshot)
    (hfirst : (st.tracker name).IsFirstMeasurement = false)
    (hvirtual : name ∉ env.physicalNames)
    (hpos : 0 < changeInReceived liveStats (st.tracker name) ∨
      0 < changeInTransmitted liveStats (st.tracker name)) :
    (pollInterface env today st (name, liveStats)).writes = st.writes ++
        [{ folder := env.virtualInterfacesFolder, name := name
           content := SaveDailyStatsToDisk
            ((pollInterface env today st (name, liveStats)).tracker name).DailyUsageHistory }] ∧
      (pollInterface env today st (name, liveStats)).totalVirtualChangeReceived
        = (st.totalVirtualChangeReceived + changeInReceived liveStats (st.tracker name)) % 2 ^ 64 ∧
      (pollInterface env today st (name, liveStats)).totalVirtualChangeTransmitted
        = (st.totalVirtualChangeTransmitted + changeInTransmitted liveStats (st.tracker name))
            % 2 ^ 64 ∧
      (pollInterface env today st (name, liveStats)).totalPhysicalChangeReceived
        = st.totalPhysicalChangeReceived ∧
      (pollInterface env today st (name, liveStats)).totalPhysicalChangeTransmitted
        = st.totalPhysicalChangeTransmitted ∧
      (pollInterface env today st (name, liveStats)).physicalAggregateTracker
        = st.physicalAggregateTracker := by
  have hp : ¬ env.physicalNames.contains name = true := by simpa using hvirtual
  rw [pollInterface_tracker, pollInterface_changed env today st (name, liveStats) hfirst hpos]
  simp only [hp, ↓reduceIte, Bool.false_eq_true, and_self]

/-- C15, for `tun0`, listed neither as physical nor as virtual at start-up. -/
theorem C15_unlisted_interface_counts_as_virtual_witness :
    (exampleVirtualState.tracker "tun0".toList).IsFirstMeasurement = false ∧
      "tun0".toList ∉ exampleStartup.physicalNames ∧
      "tun0".toList ∉ exampleStartup.virtualNames ∧
      (pollInterface exampleStartup "2024-01-01".toList exampleVirtualState
          ("tun0".toList, { ReceivedBytes := 1000, TransmittedBytes := 40 })).writes
        = [{ folder := "/home/u/NetworkUsage/VirtualInterfaces".toList, name := "tun0".toList
             content := "2024-01-01: Transmitted: 0MB , Received: 0MB, Total: 0MB\n".toList }] ∧
      (pollInterface exampleStartup "2024-01-01".toList exampleVirtualState
          ("tun0".toList, { ReceivedBytes := 1000, TransmittedBytes := 40 })).totalVirtualChangeReceived
        = 300 ∧
      (pollInterface exampleStartup "2024-01-01".toList exampleVirtualState
          ("tun0".toList, { ReceivedBytes := 1000, TransmittedBytes := 40 })).totalPhysicalChangeReceived
        = 55 := by
  have h := C15_unlisted_interface_counts_as_virtual exampleStartup "2024-01-01".toList
    "tun0".toList exampleVirtualState { ReceivedBytes := 1000, TransmittedBytes := 40 }
    (by decide) (by decide) (by decide)
  refine ⟨by decide, by decide, by decide, ?_, ?_, ?_⟩
  · rw [h.1]; decide
  · rw [h.2.1]; decide
  · rw [h.2.2.2.1]; decide

/-- C16: after the polling step of an interface, in each of its branches, the two
last-measured values of its tracker are the current reading, and the tracker of
every other interface is what it was. -/
theorem C16_baseline_follows_reading (env : Startup) (today name : Str) (st : MonitorState)
    (liveStats : NetworkStatsSnapshot) :
    ((pollInterface env today st (name, liveStats)).tracker name).LastMeasuredReceivedBytes
        = liveStats.ReceivedBytes ∧
      ((pollInterface env today st (name, liveStats)).tracker name).LastMeasuredTransmittedBytes
        = liveStats.TransmittedBytes ∧
      (∀ other, other ≠ name →
        StrMap.find? (pollInterface env today st (name, liveStats)).internalStateCollection other
            = StrMap.find? st.internalStateCollection other ∧
          (pollInterface env today st (name, liveStats)).tracker other = st.tracker other) := by
  refine ⟨?_, ?_, ?_⟩
  · rw [pollInterface_tracker]; rfl
  · rw [pollInterface_tracker]; rfl
  · intro other hne
    have h : StrMap.find? (pollInterface env today st (name, liveStats)).internalStateCollection
        other = StrMap.find? st.internalStateCollection other := by
      rw [pollInterface_collection, StrMap.find?_set_other _ _ hne]
    refine ⟨h, ?_⟩
    simp only [MonitorState.tracker, StrMap.getD, h]

/-- C16, for a step of `eth0` in a state that also tracks `tun0`. -/
theorem C16_baseline_follows_reading_witness :
    ((pollInterface exampleStartup "2024-01-01".toList exampleVirtualState
        ("eth0".toList, { ReceivedBytes := 4000, TransmittedBytes := 250 })).tracker
          "eth0".toList).LastMeasuredReceivedBytes = 4000 ∧
      "tun0".toList ≠ "eth0".toList ∧
      (pollInterface exampleStartup "2024-01-01".toList exampleVirtualState
          ("eth0".toList, { ReceivedBytes := 4000, TransmittedBytes := 250 })).tracker
            "tun0".toList
        = exampleVirtualState.tracker "tun0".toList :=
  have h := C16_baseline_follows_reading exampleStartup "2024-01-01".toList "eth0".toList
    exampleVirtualState { ReceivedBytes := 4000, TransmittedBytes := 250 }
  ⟨h.1, by decide, (h.2.2 "tun0".toList (by decide)).2⟩

/-! ## A skipped line leaves the history alone -/

theorem parseHistoryLine_none_of_skip (line : Str)
    (hskip : find line [':'] 0 = npos ∨
      (transmittedStartOf line = npos ∨ receivedStartOf line = npos) ∨
      transmittedTextOf line = none ∨ receivedTextOf line = none ∨
      (∃ x, transmittedTextOf line = some x ∧ stoull x = none) ∨
      (∃ y, receivedTextOf line = some y ∧ stoull y = none)) :
    parseHistoryLine line = none := by
  unfold transmittedTextOf receivedTextOf transmittedStartOf receivedStartOf at hskip
  rcases hskip with h | h | h | h | ⟨x, h, hx⟩ | ⟨y, h, hy⟩
  · unfold parseHistoryLine
    simp only [h, ↓reduceIte]
  · have hn : ¬ ((find line transmittedMarker 0 + transmittedMarker.length) % 2 ^ 64 ≠ npos ∧
        (find line receivedMarker 0 + receivedMarker.length) % 2 ^ 64 ≠ npos) := by
      intro hc
      rcases h with h | h
      · exact hc.1 h
      · exact hc.2 h
    unfold parseHistoryLine
    simp only [hn, ↓reduceIte]
    split
    · rfl
    · split <;> rfl
  · unfold parseHistoryLine
    simp only [h]
    split
    · rfl
    · split
      · rfl
      · split <;> rfl
  · unfold parseHistoryLine
    simp only [h]
    split
    · rfl
    · split
      · rfl
      · split
        · split <;> rfl
        · rfl
  · exact parseHistoryLine_none_of_transmitted line x h hx
  · exact parseHistoryLine_none_of_received line y h hy

/-- C17: processing a line that load skips - no colon, a start offset equal to
`npos`, a `substr` position out of range, or a failed conversion of either field, also when the transmitted number
converts and the received one does not - leaves every existing history exactly as
it was: no entry is created for the date key of the line and an existing entry
keeps both of its values. -/
theorem C17_skipped_line_changes_nothing (m : History) (line : Str)
    (hskip : find line [':'] 0 = npos ∨
      (transmittedStartOf line = npos ∨ receivedStartOf line = npos) ∨
      transmittedTextOf line = none ∨ receivedTextOf line = none ∨
      (∃ x, transmittedTextOf line = some x ∧ stoull x = none) ∨
      (∃ y, receivedTextOf line = some y ∧ stoull y = none)) :
    loadLine m line = m ∧ ∀ key, StrMap.find? (loadLine m line) key = StrMap.find? m key := by
  have h := loadLine_of_parse_none m (parseHistoryLine_none_of_skip line hskip)
  exact ⟨h, fun key => by rw [h]⟩

/-- C17, for a line whose transmitted number converts while its received field
holds no digit, read into a history that has an entry for the date of the line. -/
theorem C17_skipped_line_changes_nothing_witness :
    stoull "5".toList = some 5 ∧
      transmittedTextOf "2024-01-03: Transmitted: 5MB , Received: xMB, Total: 5MB".toList
        = some "5".toList ∧
      receivedTextOf "2024-01-03: Transmitted: 5MB , Received: xMB, Total: 5MB".toList
        = some "x".toList ∧
      stoull "x".toList = none ∧
      loadLine exampleThirdOfJanuary
          "2024-01-03: Transmitted: 5MB , Received: xMB, Total: 5MB".toList
        = exampleThirdOfJanuary :=
  ⟨by decide, by decide, by decide, by decide,
    (C17_skipped_line_changes_nothing exampleThirdOfJanuary
      "2024-01-03: Transmitted: 5MB , Received: xMB, Total: 5MB".toList
      (Or.inr (Or.inr (Or.inr (Or.inr (Or.inr ⟨"x".toList, by decide, by decide⟩)))))).1⟩

/-! ## What a loaded history looks like -/

theorem getLinesAux_mem :
    ∀ (content cur : Str) (l : Str), l ∈ getLinesAux content cur → '\n' ∉ cur →
      '\n' ∉ l ∧ l.length ≤ cur.length + content.length := by
  intro content
  induction content with
  | nil =>
    intro cur l hl hcur
    simp only [getLinesAux] at hl
    by_cases hc : cur = []
    · simp [hc] at hl
    · simp only [hc, ↓reduceIte, List.mem_singleton] at hl
      subst hl
      exact ⟨by simpa using hcur, by simp⟩
  | cons c cs ih =>
    intro cur l hl hcur
    rw [getLinesAux] at hl
    by_cases hc : c = '\n'
    · simp only [hc, ↓reduceIte, List.mem_cons] at hl
      rcases hl with hl | hl
      · subst hl
        exact ⟨by simpa using hcur, by simp⟩
      · have := ih [] l hl (by simp)
        simp only [List.length_nil, Nat.zero_add] at this
        exact ⟨this.1, by simp only [List.length_cons]; omega⟩
    · simp only [hc, ↓reduceIte] at hl
      have hcur' : '\n' ∉ c :: cur := by
        intro hm
        rcases List.mem_cons.1 hm with h | h
        · exact hc h.symm
        · exact hcur h
      have := ih (c :: cur) l hl hcur'
      simp only [List.length_cons] at this ⊢
      exact ⟨this.1, by omega⟩

theorem getLines_mem (content l : Str) (hl : l ∈ getLines content) :
    '\n' ∉ l ∧ l.length ≤ content.length := by
  have := getLinesAux_mem content [] l hl (by simp)
  simpa using this

theorem mem_foldl_loadLine :
    ∀ (lines : List Str) (m : History) (e : Str × NetworkStatsSnapshot),
      e ∈ lines.foldl loadLine m →
      e ∈ m ∨ ∃ line ∈ lines, ∃ t r, parseHistoryLine line = some (e.1, t, r) ∧
        e.2 = { ReceivedBytes := (r * 1048576) % 2 ^ 64
                TransmittedBytes := (t * 1048576) % 2 ^ 64 } := by
  intro lines
  induction lines with
  | nil => intro m e he; exact Or.inl he
  | cons l rest ih =>
    intro m e he
    rw [List.foldl_cons] at he
    rcases ih (loadLine m l) e he with h | ⟨line, hline, t, r, hp, hv⟩
    · cases hp : parseHistoryLine l with
      | none =>
        rw [loadLine_of_parse_none m hp] at h
        exact Or.inl h
      | some res =>
        obtain ⟨k, t, r⟩ := res
        rw [loadLine_of_parse m hp] at h
        rcases StrMap.mem_set m k _ e h with h' | h'
        · refine Or.inr ⟨l, by simp, t, r, ?_, ?_⟩
          · rw [h']; exact hp
          · rw [h']
        · exact Or.inl h'
    · exact Or.inr ⟨line, by simp [hline], t, r, hp, hv⟩

theorem key_of_parse {line k : Str} {t r : Nat} (h : parseHistoryLine line = some (k, t, r)) :
    ':' ∉ k ∧ k.length ≤ line.length ∧ ∀ c, c ∈ k → c ∈ line := by
  have hk := parseHistoryLine_key h
  unfold textBeforeFirstColon at hk
  split at hk
  · simp only [Option.some.injEq] at hk
    subst hk
    refine ⟨?_, ?_, ?_⟩
    · intro hm
      have := List.mem_takeWhile_imp hm
      simp at this
    · exact (List.takeWhile_sublist _).length_le
    · intro c hc
      exact (List.takeWhile_sublist _).subset hc
  · exact absurd hk (by simp)

theorem loaded_entry (content : Str) (e : Str × NetworkStatsSnapshot)
    (he : e ∈ LoadHistoryFromDisk (some content) []) :
    (e.2.ReceivedBytes % 1048576 = 0 ∧ e.2.TransmittedBytes % 1048576 = 0) ∧
      e.2.InRange ∧ ':' ∉ e.1 ∧ '\n' ∉ e.1 ∧ e.1.length ≤ content.length := by
  simp only [LoadHistoryFromDisk] at he
  rcases mem_foldl_loadLine (getLines content) [] e he with h | ⟨line, hline, t, r, hp, hv⟩
  · exact absurd h (List.not_mem_nil e)
  · obtain ⟨hn, hlen⟩ := getLines_mem content line hline
    obtain ⟨k1, k2, k3⟩ := key_of_parse hp
    refine ⟨?_, ?_, k1, fun hm => hn (k3 _ hm), by omega⟩
    · rw [hv]
      constructor <;> simp only <;> omega
    · rw [hv]
      constructor <;> simp only <;> omega

/-! ## Claim about reloading a loaded history -/

/-- C18 (counterexample): the file `Transmitted:5MB Received: 3MB` loads as an entry
under the key `Transmitted`; the line saved for it is skipped on reload, so the
reloaded history is empty. -/
theorem C18_counterexample_loaded_marker_key :
    LoadHistoryFromDisk (some exampleMarkerLikeDateFile) []
        = [("Transmitted".toList, { ReceivedBytes := 3145728, TransmittedBytes := 5242880 })] ∧
      SaveDailyStatsToDisk (LoadHistoryFromDisk (some exampleMarkerLikeDateFile) [])
        = "Transmitted: Transmitted: 5MB , Received: 3MB, Total: 8MB\n".toList ∧
      LoadHistoryFromDisk
          (some (SaveDailyStatsToDisk (LoadHistoryFromDisk (some exampleMarkerLikeDateFile) [])))
          []
        = [] := by
  decide

/-- C18 (amended): for every file content, well-formed or not, the history loaded
from it into an empty history holds only byte counts that are multiples of
1,048,576 and only keys without colon and newline; and when the file is shorter
than `2 ^ 62` characters and no loaded key ends in `Transmitted` or `Received`,
loading what save writes for that history gives the history back. -/
theorem C18_loaded_history_reloads (content : Str) :
    History.Aligned (LoadHistoryFromDisk (some content) []) ∧
      (∀ e ∈ LoadHistoryFromDisk (some content) [], ':' ∉ e.1 ∧ '\n' ∉ e.1) ∧
      (content.length < 2 ^ 62 →
        (∀ e ∈ LoadHistoryFromDisk (some content) [],
          endsWith e.1 "Transmitted".toList = false ∧ endsWith e.1 "Received".toList = false) →
        LoadHistoryFromDisk
            (some (SaveDailyStatsToDisk (LoadHistoryFromDisk (some content) []))) []
          = LoadHistoryFromDisk (some content) []) := by
  refine ⟨fun e he => (loaded_entry content e he).1,
    fun e he => ⟨(loaded_entry content e he).2.2.1, (loaded_entry content e he).2.2.2.1⟩, ?_⟩
  intro hlen hkeys
  have hs : StrMap.Sorted (LoadHistoryFromDisk (some content) []) :=
    LoadHistoryFromDisk_sorted (some content) [] List.Pairwise.nil
  rw [load_save _ hs (fun e he => (loaded_entry content e he).2.1)
    (fun e he =>
      ⟨(loaded_entry content e he).2.2.1, (loaded_entry content e he).2.2.2.1,
        (hkeys e he).1, (hkeys e he).2,
        Nat.lt_of_le_of_lt (loaded_entry content e he).2.2.2.2 hlen⟩)]
  exact map_wholeMegabytes_of_aligned _ (fun e he => (loaded_entry content e he).1)

/-- C18 (amended), for a file with leading zeros, a total that is not the sum and a
corrupted line. -/
theorem C18_loaded_history_reloads_witness :
    exampleOddFile.length < 2 ^ 62 ∧
      (∀ e ∈ LoadHistoryFromDisk (some exampleOddFile) [],
        endsWith e.1 "Transmitted".toList = false ∧ endsWith e.1 "Received".toList = false) ∧
      LoadHistoryFromDisk
          (some (SaveDailyStatsToDisk (LoadHistoryFromDisk (some exampleOddFile) []))) []
        = LoadHistoryFromDisk (some exampleOddFile) [] :=
  ⟨by decide, by decide,
    (C18_loaded_history_reloads exampleOddFile).2.2 (by decide) (by decide)⟩

/-! ## The counter table -/

theorem StrMap.find?_set {V : Type} (m : StrMap V) (k k2 : Str) (v : V) :
    StrMap.find? (StrMap.set m k2 v) k = if k = k2 then some v else StrMap.find? m k := by
  by_cases h : k = k2
  · subst h
    simp [StrMap.find?_set_self]
  · simp [h, StrMap.find?_set_other m v h]

/-- Two maps that agree on a key still agree on it after the same assignments. -/
theorem find?_foldl_set_congr {V L : Type} (f : L → Str × V) (k : Str) :
    ∀ (lines : List L) (m1 m2 : StrMap V), StrMap.find? m1 k = StrMap.find? m2 k →
      StrMap.find? (lines.foldl (fun m l => StrMap.set m (f l).1 (f l).2) m1) k
        = StrMap.find? (lines.foldl (fun m l => StrMap.set m (f l).1 (f l).2) m2) k := by
  intro lines
  induction lines with
  | nil => intro m1 m2 h; exact h
  | cons l rest ih =>
    intro m1 m2 h
    simp only [List.foldl_cons]
    apply ih
    rw [StrMap.find?_set, StrMap.find?_set, h]

/-- An assignment under a key is still there at the end when no later assignment
uses that key. -/
theorem find?_foldl_set_keep {V L : Type} (f : L → Str × V) (k : Str) :
    ∀ (lines : List L) (m : StrMap V), (∀ l ∈ lines, (f l).1 ≠ k) →
      StrMap.find? (lines.foldl (fun m l => StrMap.set m (f l).1 (f l).2) m) k
        = StrMap.find? m k := by
  intro lines
  induction lines with
  | nil => intro m _; rfl
  | cons l rest ih =>
    intro m h
    simp only [List.foldl_cons]
    rw [ih _ (fun x hx => h x (by simp [hx])), StrMap.find?_set]
    have : ¬ k = (f l).1 := fun e => h l (by simp) e.symm
    simp [this]

/-- Every assignment made leaves an entry under its key. -/
theorem find?_foldl_set_isSome {V L : Type} (f : L → Str × V) (k : Str) :
    ∀ (lines : List L) (m : StrMap V), (StrMap.find? m k).isSome = true →
      (StrMap.find? (lines.foldl (fun m l => StrMap.set m (f l).1 (f l).2) m) k).isSome = true := by
  intro lines
  induction lines with
  | nil => intro m h; exact h
  | cons l rest ih =>
    intro m h
    simp only [List.foldl_cons]
    apply ih
    rw [StrMap.find?_set]
    split
    · rfl
    · exact h

theorem extractWord_failed (s : LineScanner) (old : Str) (h : s.failed = true) :
    extractWord s old = (s, old) := by
  simp [extractWord, h]

theorem skipWords_failed : ∀ (n : Nat) (s : LineScanner), s.failed = true → skipWords n s = s := by
  intro n
  induction n with
  | zero => intro s _; rfl
  | succ n ih =>
    intro s h
    rw [skipWords, extractWord_failed s [] h]
    exact ih s h

theorem extractUnsigned_failed (s : LineScanner) (old : Nat) (h : s.failed = true) :
    extractUnsigned s old = (s, old) := by
  simp [extractUnsigned, h]

/-! ## Claim about the counter table -/

/-- C14 (counterexample): the record `eth0: garbage` and an empty record line do
produce entries, `eth0` and the empty name with both counters zero; and a record
`eth0: garbage` replaces the entry of an earlier, well-formed record of `eth0`. -/
theorem C14_counterexample_unparseable_record_is_kept :
    FetchCurrentKernelNetworkStats (some exampleBrokenTable)
        = [([], { ReceivedBytes := 0, TransmittedBytes := 0 }),
            ("eth0".toList, { ReceivedBytes := 0, TransmittedBytes := 0 }),
            ("lo".toList, { ReceivedBytes := 1234, TransmittedBytes := 5678 })] ∧
      FetchCurrentKernelNetworkStats (some (exampleHeaders ++ "eth0: 5 1 2 3 4 5 6 7 888\n").toList)
        = [("eth0".toList, { ReceivedBytes := 5, TransmittedBytes := 888 })] ∧
      FetchCurrentKernelNetworkStats (some exampleOverwritingTable)
        = [("eth0".toList, { ReceivedBytes := 0, TransmittedBytes := 0 })] := by
  decide

/-- C14 (amended): a record line of the counter table, parseable or not, is never
dropped: the snapshot holds an entry under the first word of the line (colons
read as blanks; the empty name when the line has no word), which is the value read
from the line when no later record has the same name; the transmitted counter is
zero when reading the received counter failed; and the entries under every other
name are those of the table without the line. -/
theorem C14_record_line_always_leaves_an_entry (content content' : Str) (l1 l2 : List Str)
    (line : Str)
    (hlines : (getLines content).drop 2 = l1 ++ line :: l2)
    (hremoved : (getLines content').drop 2 = l1 ++ l2) :
    (StrMap.find? (FetchCurrentKernelNetworkStats (some content))
        (parseNetDevLine line).1).isSome = true ∧
      ((∀ l ∈ l2, (parseNetDevLine l).1 ≠ (parseNetDevLine line).1) →
        StrMap.find? (FetchCurrentKernelNetworkStats (some content)) (parseNetDevLine line).1
          = some (parseNetDevLine line).2) ∧
      ((extractUnsigned
            (extractWord { rest := line.map (fun c => if c = ':' then ' ' else c) } []).1
            0).1.failed = true →
        (parseNetDevLine line).2.TransmittedBytes = 0) ∧
      (∀ name, name ≠ (parseNetDevLine line).1 →
        StrMap.find? (FetchCurrentKernelNetworkStats (some content)) name
          = StrMap.find? (FetchCurrentKernelNetworkStats (some content')) name) := by
  simp only [FetchCurrentKernelNetworkStats, hlines, hremoved, List.foldl_append,
    List.foldl_cons]
  refine ⟨?_, ?_, ?_, ?_⟩
  · apply find?_foldl_set_isSome parseNetDevLine
    rw [StrMap.find?_set_self]; rfl
  · intro hlater
    rw [find?_foldl_set_keep parseNetDevLine _ l2 _ hlater, StrMap.find?_set_self]
  · intro hfail
    simp only [parseNetDevLine]
    rw [skipWords_failed 7 _ hfail, extractUnsigned_failed _ 0 hfail]
  · intro name hne
    apply find?_foldl_set_congr parseNetDevLine
    rw [StrMap.find?_set_other _ _ hne]

/-- C14 (amended), for the record `eth0: garbage` between a good record of `lo` and
an empty line. -/
theorem C14_record_line_always_leaves_an_entry_witness :
    (getLines exampleBrokenTable).drop 2
        = ["    lo: 1234 10 0 0 0 0 0 0 5678 10 0 0 0 0 0 0".toList]
          ++ "eth0: garbage".toList :: [[]] ∧
      (getLines exampleBrokenTableShort).drop 2
        = ["    lo: 1234 10 0 0 0 0 0 0 5678 10 0 0 0 0 0 0".toList] ++ [[]] ∧
      parseNetDevLine "eth0: garbage".toList
        = ("eth0".toList, { ReceivedBytes := 0, TransmittedBytes := 0 }) ∧
      "lo".toList ≠ (parseNetDevLine "eth0: garbage".toList).1 ∧
      StrMap.find? (FetchCurrentKernelNetworkStats (some exampleBrokenTable)) "lo".toList
        = StrMap.find? (FetchCurrentKernelNetworkStats (some exampleBrokenTableShort))
            "lo".toList :=
  ⟨by decide, by decide, by decide, by decide,
    (C14_record_line_always_leaves_an_entry exampleBrokenTable exampleBrokenTableShort
      ["    lo: 1234 10 0 0 0 0 0 0 5678 10 0 0 0 0 0 0".toList] [[]] "eth0: garbage".toList
      (by decide) (by decide)).2.2.2 "lo".toList (by decide)⟩

/-! ## Sums over the tracked interfaces -/

theorem categorySum_set (env : Startup) (physical received : Bool) (date name : Str)
    (t : InterfaceStateTracker) :
    ∀ (m : StrMap InterfaceStateTracker),
      categorySum env physical received date (StrMap.set m name t)
        + (if env.physicalNames.contains name = physical then
            counterOf received (History.get (StrMap.getD m name {}).DailyUsageHistory date)
          else 0)
      = categorySum env physical received date m
        + (if env.physicalNames.contains name = physical then
            counterOf received (History.get t.DailyUsageHistory date)
          else 0) := by
  have hdflt : counterOf received (History.get ({} : InterfaceStateTracker).DailyUsageHistory date)
      = 0 := by
    cases received <;> rfl
  intro m
  induction m with
  | nil =>
    simp only [StrMap.set, categorySum, StrMap.getD, StrMap.find?, Option.getD_none, hdflt]
    split <;> omega
  | cons e rest ih =>
    obtain ⟨k', v'⟩ := e
    simp only [StrMap.set, StrMap.getD, StrMap.find?] at ih ⊢
    by_cases h1 : strLt k' name = true
    · simp only [h1, ↓reduceIte, categorySum]
      omega
    · by_cases h2 : strLt name k' = true
      · simp only [h1, h2, ↓reduceIte, categorySum, Option.getD_none, hdflt, Bool.false_eq_true]
        split <;> omega
      · have hk : name = k' := strLt_total (by simpa using h2) (by simpa using h1)
        subst hk
        simp only [h1, ↓reduceIte, categorySum, Option.getD_some, Bool.false_eq_true]
        omega

theorem counterOf_mk (received : Bool) (a b : Nat) :
    counterOf received { ReceivedBytes := a, TransmittedBytes := b }
      = if received = true then a else b := rfl

theorem counterOf_trackerAfter (t : InterfaceStateTracker) (today date : Str)
    (liveStats : NetworkStatsSnapshot) (received : Bool) :
    counterOf received (History.get (trackerAfter t today liveStats).DailyUsageHistory date)
        % 2 ^ 64
      = (counterOf received (History.get t.DailyUsageHistory date)
          + (if date = today then appliedChange received liveStats t else 0)) % 2 ^ 64 := by
  simp only [trackerAfter, appliedChange]
  by_cases hf : t.IsFirstMeasurement = true
  · simp only [hf, ↓reduceIte, ite_self, Nat.add_zero]
  · simp only [hf, ↓reduceIte, Bool.false_eq_true, historyAfter]
    by_cases hc : 0 < changeInReceived liveStats t ∨ 0 < changeInTransmitted liveStats t
    · simp only [hc, ↓reduceIte]
      by_cases hd : date = today
      · subst hd
        rw [History.get_set_self]
        cases received
        · simp only [counterOf_mk, changeOf, Bool.false_eq_true, ↓reduceIte, counterOf]
          omega
        · simp only [counterOf_mk, changeOf, ↓reduceIte, counterOf]
          omega
      · rw [History.get_set_other _ _ hd]
        simp only [hd, ↓reduceIte, Nat.add_zero]
    · have h0 : changeInReceived liveStats t = 0 ∧ changeInTransmitted liveStats t = 0 := by
        omega
      have hz : changeOf received liveStats t = 0 := by
        cases received
        · simp [changeOf, h0.2]
        · simp [changeOf, h0.1]
      simp only [hc, ↓reduceIte, hz, ite_self, Nat.add_zero]

theorem runningTotal_pollInterface (env : Startup) (today name : Str) (st : MonitorState)
    (liveStats : NetworkStatsSnapshot) (physical received : Bool) :
    runningTotal (pollInterface env today st (name, liveStats)) physical received % 2 ^ 64
      = (runningTotal st physical received
          + (if env.physicalNames.contains name = physical then
              appliedChange received liveStats (st.tracker name)
            else 0)) % 2 ^ 64 := by
  by_cases hf : (st.tracker name).IsFirstMeasurement = true
  · rw [pollInterface_first env today st (name, liveStats) hf]
    simp only [appliedChange, hf, ↓reduceIte, ite_self, Nat.add_zero, runningTotal]
  · have hf' : (st.tracker name).IsFirstMeasurement = false := by simpa using hf
    by_cases hc : 0 < changeInReceived liveStats (st.tracker name) ∨
        0 < changeInTransmitted liveStats (st.tracker name)
    · rw [pollInterface_changed env today st (name, liveStats) hf' hc]
      simp only [appliedChange, hf', Bool.false_eq_true, ↓reduceIte, changeOf]
      by_cases hp : env.physicalNames.contains name = true
      · simp only [hp, ↓reduceIte]
        cases physical <;> cases received <;>
          simp only [runningTotal, ↓reduceIte, Bool.false_eq_true, Bool.true_eq_false,
            Nat.add_zero, Nat.mod_mod]
      · have hp' : env.physicalNames.contains name = false := by simpa using hp
        simp only [hp', ↓reduceIte, Bool.false_eq_true]
        cases physical <;> cases received <;>
          simp only [runningTotal, ↓reduceIte, Bool.false_eq_true, Bool.true_eq_false,
            Nat.add_zero, Nat.mod_mod]
    · rw [pollInterface_zero env today st (name, liveStats) hf' hc]
      have h0 : changeInReceived liveStats (st.tracker name) = 0 ∧
          changeInTransmitted liveStats (st.tracker name) = 0 := by omega
      have hz : changeOf received liveStats (st.tracker name) = 0 := by
        cases received
        · simp [changeOf, h0.2]
        · simp [changeOf, h0.1]
      simp only [appliedChange, hz, ite_self, Nat.add_zero, runningTotal]

theorem aggregateOf_pollInterface (env : Startup) (today : Str) (st : MonitorState)
    (entry : Str × NetworkStatsSnapshot) (physical : Bool) :
    aggregateOf (pollInterface env today st entry) physical = aggregateOf st physical := by
  by_cases hf : (st.tracker entry.1).IsFirstMeasurement = true
  · rw [pollInterface_first env today st entry hf]; rfl
  · have hf' : (st.tracker entry.1).IsFirstMeasurement = false := by simpa using hf
    by_cases hc : 0 < changeInReceived entry.2 (st.tracker entry.1) ∨
        0 < changeInTransmitted entry.2 (st.tracker entry.1)
    · rw [pollInterface_changed env today st entry hf' hc]
      split <;> rfl
    · rw [pollInterface_zero env today st entry hf' hc]; rfl

/-- The relation the loop over the snapshot keeps, for one date, category and
counter: aggregate value plus running total is the category sum, in 64 bits. -/
theorem loop_step (env : Startup) (today date : Str) (physical received : Bool) (a : Nat)
    (st : MonitorState) (entry : Str × NetworkStatsSnapshot)
    (h : (a + (if date = today then runningTotal st physical received else 0)) % 2 ^ 64
      = categorySum env physical received date st.internalStateCollection % 2 ^ 64) :
    (a + (if date = today then
          runningTotal (pollInterface env today st entry) physical received else 0)) % 2 ^ 64
      = categorySum env physical received date
          (pollInterface env today st entry).internalStateCollection % 2 ^ 64 := by
  obtain ⟨name, liveStats⟩ := entry
  have hs := categorySum_set env physical received date name
    (trackerAfter (st.tracker name) today liveStats) st.internalStateCollection
  have hA := counterOf_trackerAfter (st.tracker name) today date liveStats received
  have hB := runningTotal_pollInterface env today name st liveStats physical received
  rw [pollInterface_collection]
  simp only [MonitorState.tracker] at hs hA hB ⊢
  by_cases hp : env.physicalNames.contains name = physical
  · simp only [hp, ↓reduceIte] at hs hB
    by_cases hd : date = today
    · subst hd
      simp only [↓reduceIte] at h hA ⊢
      omega
    · simp only [hd, ↓reduceIte, Nat.add_zero] at h hA ⊢
      omega
  · simp only [hp, ↓reduceIte, Nat.add_zero] at hs hB
    by_cases hd : date = today
    · subst hd
      simp only [↓reduceIte] at h ⊢
      omega
    · simp only [hd, ↓reduceIte, Nat.add_zero] at h ⊢
      omega

theorem loop_fold (env : Startup) (today date : Str) (physical received : Bool) (a : Nat) :
    ∀ (entries : StrMap NetworkStatsSnapshot) (st : MonitorState),
      (a + (if date = today then runningTotal st physical received else 0)) % 2 ^ 64
        = categorySum env physical received date st.internalStateCollection % 2 ^ 64 →
      (a + (if date = today then
            runningTotal (entries.foldl (pollInterface env today) st) physical received
          else 0)) % 2 ^ 64
        = categorySum env physical received date
            (entries.foldl (pollInterface env today) st).internalStateCollection % 2 ^ 64 := by
  intro entries
  induction entries with
  | nil => intro st h; exact h
  | cons e rest ih =>
    intro st h
    rw [List.foldl_cons]
    exact ih _ (loop_step env today date physical received a st e h)

theorem aggregateOf_fold (env : Startup) (today : Str) (physical : Bool) :
    ∀ (entries : StrMap NetworkStatsSnapshot) (st : MonitorState),
      aggregateOf (entries.foldl (pollInterface env today) st) physical
        = aggregateOf st physical := by
  intro entries
  induction entries with
  | nil => intro st; rfl
  | cons e rest ih =>
    intro st
    rw [List.foldl_cons, ih, aggregateOf_pollInterface]

theorem counterOf_updateAggregate (folder fileName today date : Str) (tR tT : Nat)
    (aggregate : InterfaceStateTracker) (writes : List FileWrite) (received : Bool) :
    counterOf received
        (History.get (updateAggregate folder fileName today tR tT aggregate writes).1.DailyUsageHistory
          date)
      = if date = today ∧ (0 < tR ∨ 0 < tT) then
          (counterOf received (History.get aggregate.DailyUsageHistory today)
            + (if received = true then tR else tT)) % 2 ^ 64
        else counterOf received (History.get aggregate.DailyUsageHistory date) := by
  unfold updateAggregate
  by_cases hc : 0 < tR ∨ 0 < tT
  · simp only [hc, ↓reduceIte, History.addTransmitted_addReceived, and_true]
    by_cases hd : date = today
    · subst hd
      rw [History.get_set_self]
      cases received <;> simp [counterOf]
    · rw [History.get_set_other _ _ hd]
      simp only [hd, ↓reduceIte]
  · simp only [hc, ↓reduceIte, and_false]

theorem pollingCycle_collection (env : Startup) (today : Str)
    (snapshot : StrMap NetworkStatsSnapshot) (st : MonitorState) :
    (pollingCycle env today snapshot st).internalStateCollection
      = (cycleLoop env today snapshot st).internalStateCollection := rfl

theorem pollingCycle_physical (env : Startup) (today : Str)
    (snapshot : StrMap NetworkStatsSnapshot) (st : MonitorState) :
    (pollingCycle env today snapshot st).physicalAggregateTracker
      = (updateAggregate env.physicalInterfacesFolder "TotalPhysicalUsage".toList today
          (cycleLoop env today snapshot st).totalPhysicalChangeReceived
          (cycleLoop env today snapshot st).totalPhysicalChangeTransmitted
          (cycleLoop env today snapshot st).physicalAggregateTracker
          (cycleLoop env today snapshot st).writes).1 := rfl

theorem pollingCycle_virtual (env : Startup) (today : Str)
    (snapshot : StrMap NetworkStatsSnapshot) (st : MonitorState) :
    (pollingCycle env today snapshot st).virtualAggregateTracker
      = (updateAggregate env.virtualInterfacesFolder "TotalVirtualUsage".toList today
          (cycleLoop env today snapshot st).totalVirtualChangeReceived
          (cycleLoop env today snapshot st).totalVirtualChangeTransmitted
          (cycleLoop env today snapshot st).virtualAggregateTracker
          (updateAggregate env.physicalInterfacesFolder "TotalPhysicalUsage".toList today
            (cycleLoop env today snapshot st).totalPhysicalChangeReceived
            (cycleLoop env today snapshot st).totalPhysicalChangeTransmitted
            (cycleLoop env today snapshot st).physicalAggregateTracker
            (cycleLoop env today snapshot st).writes).2).1 := rfl

theorem cycleLoop_aggregate (env : Startup) (today : Str)
    (snapshot : StrMap NetworkStatsSnapshot) (st : MonitorState) (physical : Bool) :
    aggregateOf (cycleLoop env today snapshot st) physical = aggregateOf st physical := by
  unfold cycleLoop
  rw [aggregateOf_fold]
  rfl

/-- At the end of the loop of a cycle that started with matching aggregates, the
aggregate value plus the running total is the category sum, in 64 bits. -/
theorem cycleLoop_sum (env : Startup) (today date : Str)
    (snapshot : StrMap NetworkStatsSnapshot) (st : MonitorState) (physical received : Bool)
    (h : counterOf received (History.get (aggregateOf st physical).DailyUsageHistory date)
      = categorySum env physical received date st.internalStateCollection % 2 ^ 64) :
    (counterOf received (History.get (aggregateOf st physical).DailyUsageHistory date)
        + (if date = today then
            runningTotal (cycleLoop env today snapshot st) physical received else 0)) % 2 ^ 64
      = categorySum env physical received date
          (cycleLoop env today snapshot st).internalStateCollection % 2 ^ 64 := by
  unfold cycleLoop
  apply loop_fold
  have h0 : runningTotal
      { st with
        totalPhysicalChangeReceived := 0
        totalPhysicalChangeTransmitted := 0
        totalVirtualChangeReceived := 0
        totalVirtualChangeTransmitted := 0 } physical received = 0 := by
    cases physical <;> cases received <;> rfl
  rw [h0]
  simp only [ite_self, Nat.add_zero]
  omega

/-- One polling cycle keeps one aggregate counter equal to its category sum. -/
theorem pollingCycle_counter (env : Startup) (today date : Str)
    (snapshot : StrMap NetworkStatsSnapshot) (st : MonitorState) (physical received : Bool)
    (h : counterOf received (History.get (aggregateOf st physical).DailyUsageHistory date)
      = categorySum env physical received date st.internalStateCollection % 2 ^ 64) :
    counterOf received
        (History.get (aggregateOf (pollingCycle env today snapshot st) physical).DailyUsageHistory
          date)
      = categorySum env physical received date
          (pollingCycle env today snapshot st).internalStateCollection % 2 ^ 64 := by
  have hJ := cycleLoop_sum env today date snapshot st physical received h
  have hagg := cycleLoop_aggregate env today snapshot st physical
  rw [pollingCycle_collection]
  have hval : counterOf received
      (History.get (aggregateOf (pollingCycle env today snapshot st) physical).DailyUsageHistory
        date)
      = if date = today ∧
          (0 < runningTotal (cycleLoop env today snapshot st) physical true ∨
            0 < runningTotal (cycleLoop env today snapshot st) physical false) then
          (counterOf received (History.get (aggregateOf st physical).DailyUsageHistory today)
            + runningTotal (cycleLoop env today snapshot st) physical received) % 2 ^ 64
        else counterOf received (History.get (aggregateOf st physical).DailyUsageHistory date) := by
    cases physical
    · simp only [aggregateOf, Bool.false_eq_true, ↓reduceIte] at hagg ⊢
      rw [pollingCycle_virtual, counterOf_updateAggregate, hagg]
      cases received <;> rfl
    · simp only [aggregateOf, ↓reduceIte] at hagg ⊢
      rw [pollingCycle_physical, counterOf_updateAggregate, hagg]
      cases received <;> rfl
  rw [hval]
  by_cases hd : date = today
  · subst hd
    simp only [↓reduceIte, true_and] at hJ ⊢
    by_cases hc : 0 < runningTotal (cycleLoop env date snapshot st) physical true ∨
        0 < runningTotal (cycleLoop env date snapshot st) physical false
    · simp only [hc, ↓reduceIte]
      exact hJ
    · simp only [hc, ↓reduceIte]
      have hz : runningTotal (cycleLoop env date snapshot st) physical received = 0 := by
        cases received <;> omega
      rw [hz] at hJ
      omega
  · simp only [hd, ↓reduceIte, false_and, Nat.add_zero] at hJ ⊢
    omega

theorem aggregatesMatch_iff (env : Startup) (st : MonitorState) :
    AggregatesMatch env st ↔
      ∀ date physical received,
        counterOf received (History.get (aggregateOf st physical).DailyUsageHistory date)
          = categorySum env physical received date st.internalStateCollection % 2 ^ 64 := by
  constructor
  · intro h date physical received
    obtain ⟨h1, h2, h3, h4⟩ := h date
    cases physical <;> cases received
    · exact h4
    · exact h3
    · exact h2
    · exact h1
  · intro h date
    exact ⟨h date true true, h date true false, h date false true, h date false false⟩

theorem pollingCycle_aggregatesMatch (env : Startup) (today : Str)
    (snapshot : StrMap NetworkStatsSnapshot) (st : MonitorState) (h : AggregatesMatch env st) :
    AggregatesMatch env (pollingCycle env today snapshot st) := by
  rw [aggregatesMatch_iff] at h ⊢
  intro date physical received
  exact pollingCycle_counter env today date snapshot st physical received
    (h date physical received)

theorem runCycles_aggregatesMatch (env : Startup) :
    ∀ (cycles : List (Str × StrMap NetworkStatsSnapshot)) (st : MonitorState),
      AggregatesMatch env st → AggregatesMatch env (runCycles env st cycles) := by
  intro cycles
  induction cycles with
  | nil => intro st h; exact h
  | cons c rest ih =>
    intro st h
    simp only [runCycles, List.foldl_cons]
    exact ih _ (pollingCycle_aggregatesMatch env c.1 c.2 st h)

theorem categorySum_of_empty (env : Startup) (physical received : Bool) (date : Str) :
    ∀ (m : StrMap InterfaceStateTracker), (∀ e ∈ m, e.2.DailyUsageHistory = []) →
      categorySum env physical received date m = 0 := by
  intro m
  induction m with
  | nil => intro _; rfl
  | cons e rest ih =>
    intro h
    obtain ⟨name, tracker⟩ := e
    have he : tracker.DailyUsageHistory = [] := h (name, tracker) (by simp)
    have hz : counterOf received (History.get ([] : History) date) = 0 := by
      cases received <;> rfl
    simp only [categorySum, he, hz, ite_self, Nat.zero_add]
    exact ih (fun e he => h e (by simp [he]))

theorem aggregatesMatch_of_empty (env : Startup) (st : MonitorState)
    (h : AllHistoriesEmpty st) : AggregatesMatch env st := by
  obtain ⟨h1, h2, h3⟩ := h
  intro date
  rw [h2, h3, categorySum_of_empty env _ _ date _ h1, categorySum_of_empty env _ _ date _ h1,
    categorySum_of_empty env _ _ date _ h1, categorySum_of_empty env _ _ date _ h1]
  exact ⟨rfl, rfl, rfl, rfl⟩

/-! ## Claim about the aggregate trackers -/

/-- C12: if before a polling cycle, for every date, each aggregate tracker holds for
received and for transmitted the 64-bit sum of the entries of the tracked
interfaces of its category (in, resp. not in, the physical-name list taken at
start-up), then it does so after the cycle, for every snapshot and every date
string; and it does so after any number of cycles started from a state whose
histories are all empty. -/
theorem C12_aggregates_match_category_sums (env : Startup) (today : Str)
    (snapshot : StrMap NetworkStatsSnapshot) (st : MonitorState) :
    (AggregatesMatch env st → AggregatesMatch env (pollingCycle env today snapshot st)) ∧
      (AllHistoriesEmpty st →
        ∀ cycles : List (Str × StrMap NetworkStatsSnapshot),
          AggregatesMatch env (runCycles env st cycles)) :=
  ⟨pollingCycle_aggregatesMatch env today snapshot st,
    fun h cycles => runCycles_aggregatesMatch env cycles st (aggregatesMatch_of_empty env st h)⟩

/-- C12, for two cycles from the fresh state in which two physical interfaces
receive 600,000 bytes each: the physical aggregate holds 1,200,000 bytes. -/
theorem C12_aggregates_match_category_sums_witness :
    AllHistoriesEmpty {} ∧
      AggregatesMatch exampleTwoPhysical (runCycles exampleTwoPhysical {} exampleTwoCycles) ∧
      (History.get
          (runCycles exampleTwoPhysical {} exampleTwoCycles).physicalAggregateTracker.DailyUsageHistory
          "2024-01-01".toList).ReceivedBytes = 1200000 :=
  ⟨by decide,
    (C12_aggregates_match_category_sums exampleTwoPhysical [] [] {}).2 (by decide)
      exampleTwoCycles,
    by decide⟩

/-! ## Paths and the files they name -/

theorem pathComponentsAux_plain :
    ∀ (n cur : Str), '/' ∉ n → pathComponentsAux n cur = [cur.reverse ++ n] := by
  intro n
  induction n with
  | nil => intro cur _; simp [pathComponentsAux]
  | cons c cs ih =>
    intro cur h
    have hc : c ≠ '/' := fun e => h (by simp [e])
    have hcs : '/' ∉ cs := fun e => h (List.mem_cons_of_mem _ e)
    simp only [pathComponentsAux, hc, ↓reduceIte]
    rw [ih (c :: cur) hcs]
    simp

theorem pathComponentsAux_last (n : Str) (hn : '/' ∉ n) :
    ∀ (s cur : Str), ∃ init, pathComponentsAux (s ++ '/' :: n) cur = init ++ [n] := by
  intro s
  induction s with
  | nil =>
    intro cur
    refine ⟨[cur.reverse], ?_⟩
    simp only [List.nil_append, pathComponentsAux, ↓reduceIte]
    rw [pathComponentsAux_plain n [] hn]
    simp
  | cons c cs ih =>
    intro cur
    by_cases hc : c = '/'
    · obtain ⟨init, hi⟩ := ih []
      refine ⟨cur.reverse :: init, ?_⟩
      rw [List.cons_append, pathComponentsAux, if_pos hc, hi]
      rfl
    · obtain ⟨init, hi⟩ := ih (c :: cur)
      refine ⟨init, ?_⟩
      rw [List.cons_append, pathComponentsAux, if_neg hc, hi]

theorem pathComponents_last (pre n : Str) (hn : '/' ∉ n)
    (hpre : pre = [] ∨ pre.getLast? = some '/') :
    ∃ init, pathComponents (pre ++ n) = init ++ [n] := by
  rcases hpre with h | h
  · refine ⟨[], ?_⟩
    rw [h]
    simp only [List.nil_append, pathComponents]
    rw [pathComponentsAux_plain n [] hn]
    simp
  · obtain ⟨q, hq⟩ : ∃ q, pre = q ++ ['/'] := by
      rcases List.eq_nil_or_concat pre with h0 | ⟨q, c, h0⟩
      · rw [h0] at h; simp at h
      · rw [h0] at h
        simp only [List.concat_eq_append, List.getLast?_append, List.getLast?_singleton,
          Option.or, Option.some.injEq] at h
        exact ⟨q, by rw [h0, h]; simp⟩
    obtain ⟨init, hi⟩ := pathComponentsAux_last n hn q []
    refine ⟨init, ?_⟩
    rw [hq]
    simp only [pathComponents, List.append_assoc, List.singleton_append]
    exact hi

theorem cString_of_not_mem (path : Str) (h : Char.ofNat 0 ∉ path) : cString path = path := by
  unfold cString
  rw [List.takeWhile_eq_self_iff]
  intro c hc
  simp only [bne_iff_ne, ne_eq]
  intro e
  exact h (e ▸ hc)

theorem joinPath_plain (folder n : Str) (hn : PlainName n) (hf : Char.ofNat 0 ∉ folder) :
    ∃ pre, joinPath folder n = pre ++ n ∧ (pre = [] ∨ pre.getLast? = some '/') ∧
      Char.ofNat 0 ∉ pre := by
  obtain ⟨h1, h2, _, _, _⟩ := hn
  have hhead : n.head? ≠ some '/' := by
    cases n with
    | nil => simp
    | cons c cs =>
      simp only [List.head?_cons, ne_eq, Option.some.injEq]
      intro e
      exact h2 (by simp [e])
  unfold joinPath
  rw [if_neg hhead]
  by_cases hc : folder = [] ∨ folder.getLast? = some '/'
  · rw [if_pos hc]
    exact ⟨folder, rfl, hc, hf⟩
  · rw [if_neg hc]
    refine ⟨folder ++ ['/'], by simp, Or.inr (by simp), ?_⟩
    intro hm
    rcases List.mem_append.1 hm with h | h
    · exact hf h
    · simp only [List.mem_singleton] at h
      exact absurd h (by decide)

/-- The file that a plain name opens in a folder has the name as its last
component. -/
theorem fileOf_plain (folder n : Str) (hn : PlainName n) (hf : Char.ofNat 0 ∉ folder) :
    ∃ above, (fileOf folder n).2 = n :: above := by
  obtain ⟨pre, hj, hpre, h0⟩ := joinPath_plain folder n hn hf
  obtain ⟨h1, h2, h3, h4, h5⟩ := hn
  have hc : cString (joinPath folder n) = pre ++ n := by
    rw [hj]
    apply cString_of_not_mem
    intro hm
    rcases List.mem_append.1 hm with h | h
    · exact h0 h
    · exact h3 h
  obtain ⟨init, hi⟩ := pathComponents_last pre n h2 hpre
  refine ⟨init.foldl (resolveStep ((pre ++ n).head? = some '/')) [], ?_⟩
  simp only [fileOf, hc, hi, List.foldl_append, List.foldl_cons, List.foldl_nil]
  simp only [resolveStep, h1, h4, h5, false_or, ↓reduceIte]

/-- Two different plain names open two different files, in whatever folders. -/
theorem fileOf_ne (f g n m : Str) (hn : PlainName n) (hm : PlainName m)
    (hf : Char.ofNat 0 ∉ f) (hg : Char.ofNat 0 ∉ g) (hne : n ≠ m) :
    fileOf f n ≠ fileOf g m := by
  obtain ⟨a, ha⟩ := fileOf_plain f n hn hf
  obtain ⟨b, hb⟩ := fileOf_plain g m hm hg
  intro e
  rw [e, hb] at ha
  simp only [List.cons.injEq] at ha
  exact hne ha.1.symm

theorem interfaceFolder_plain (env : Startup) (hfold : PlainFolders env) (name : Str) :
    Char.ofNat 0 ∉ interfaceFolder env name := by
  unfold interfaceFolder
  split
  · exact hfold.1
  · exact hfold.2

theorem aggregateFolder_plain (env : Startup) (hfold : PlainFolders env) (physical : Bool) :
    Char.ofNat 0 ∉ aggregateFolder env physical := by
  unfold aggregateFolder
  split
  · exact hfold.1
  · exact hfold.2

theorem aggregateFileName_plain (physical : Bool) : PlainName (aggregateFileName physical) := by
  cases physical <;> decide

/-! ## Files and the histories they hold -/

theorem fileContentAux_append (opened : Nat → Bool) (file : Bool × List Str) (w : FileWrite) :
    ∀ (ws : List FileWrite) (i : Nat) (current : Option Str),
      fileContentAux opened file i (ws ++ [w]) current
        = if opened (i + ws.length) = true ∧ fileOf w.folder w.name = file then some w.content
          else fileContentAux opened file i ws current := by
  intro ws
  induction ws with
  | nil =>
    intro i current
    simp only [List.nil_append, fileContentAux, List.length_nil, Nat.add_zero]
  | cons v rest ih =>
    intro i current
    have hi : i + 1 + rest.length = i + (v :: rest).length := by
      simp only [List.length_cons]; omega
    rw [List.cons_append, fileContentAux, ih, hi, fileContentAux]

theorem fileContent_append_single (opened : Nat → Bool) (hopen : ∀ i, opened i = true)
    (ws : List FileWrite) (w : FileWrite) (folder name : Str) :
    fileContent opened (ws ++ [w]) folder name
      = if fileOf w.folder w.name = fileOf folder name then some w.content
        else fileContent opened ws folder name := by
  unfold fileContent
  rw [fileContentAux_append]
  simp only [hopen, true_and]

theorem fileContent_append_other (opened : Nat → Bool) (hopen : ∀ i, opened i = true)
    (ws : List FileWrite) (w : FileWrite) (folder name : Str)
    (h : fileOf w.folder w.name ≠ fileOf folder name) :
    fileContent opened (ws ++ [w]) folder name = fileContent opened ws folder name := by
  rw [fileContent_append_single opened hopen]
  simp [h]

theorem fileContent_append_self (opened : Nat → Bool) (hopen : ∀ i, opened i = true)
    (ws : List FileWrite) (folder name content : Str) :
    fileContent opened (ws ++ [{ folder := folder, name := name, content := content }])
        folder name
      = some content := by
  rw [fileContent_append_single opened hopen]
  simp

theorem find?_map_wholeMegabytes (date : Str) :
    ∀ (h : History),
      StrMap.find? (h.map (fun e => (e.1, wholeMegabytes e.2))) date
        = (StrMap.find? h date).map wholeMegabytes := by
  intro h
  induction h with
  | nil => rfl
  | cons e rest ih =>
    obtain ⟨k, v⟩ := e
    simp only [List.map_cons, StrMap.find?, ih]
    split
    · rfl
    · split <;> rfl

theorem get_map_wholeMegabytes (date : Str) (h : History) :
    History.get (h.map (fun e => (e.1, wholeMegabytes e.2))) date
      = wholeMegabytes (History.get h date) := by
  simp only [History.get, StrMap.getD, find?_map_wholeMegabytes]
  cases StrMap.find? h date with
  | none => rfl
  | some v => rfl

/-- A file in sync with a good history shows, for every date, the whole megabytes
of the entry of the history. -/
theorem megabytesInFile_of_inSync (file : Option Str) (h : History) (date : Str)
    (hsync : InSync file h) (hgood : GoodHistory h) (received : Bool) :
    counterOf received (megabytesInFile file date)
      = counterOf received (History.get h date) / 1048576 := by
  obtain ⟨hs, hr, hk⟩ := hgood
  rcases hsync with hf | ⟨hf, he⟩
  · rw [hf]
    have hl : History.get (LoadHistoryFromDisk (some (SaveDailyStatsToDisk h)) []) date
        = wholeMegabytes (History.get h date) := by
      rw [load_save h hs hr hk, get_map_wholeMegabytes]
    simp only [megabytesInFile, hl, wholeMegabytes, ConvertBytesToMegabytes]
    cases received
    · simp only [counterOf, Bool.false_eq_true, ↓reduceIte]
      omega
    · simp only [counterOf, ↓reduceIte]
      omega
  · rw [hf, he]
    cases received <;> rfl

theorem goodHistory_set (h : History) (k : Str) (v : NetworkStatsSnapshot)
    (hg : GoodHistory h) (hk : ReloadableKey k) (hv : v.InRange) :
    GoodHistory (StrMap.set h k v) := by
  obtain ⟨h1, h2, h3⟩ := hg
  refine ⟨StrMap.set_sorted h k v h1, ?_, ?_⟩
  · intro e he
    rcases StrMap.mem_set h k v e he with h' | h'
    · rw [h']; exact hv
    · exact h2 e h'
  · intro e he
    rcases StrMap.mem_set h k v e he with h' | h'
    · rw [h']; exact hk
    · exact h3 e h'

theorem goodHistory_nil : GoodHistory [] :=
  ⟨List.Pairwise.nil, fun e he => absurd he (List.not_mem_nil e),
    fun e he => absurd he (List.not_mem_nil e)⟩

theorem goodHistory_add (h : History) (today : Str) (dR dT : Nat)
    (hg : GoodHistory h) (hk : ReloadableKey today) :
    GoodHistory (History.addTransmitted (History.addReceived h today dR) today dT) := by
  rw [History.addTransmitted_addReceived]
  exact goodHistory_set h today _ hg hk
    ⟨Nat.mod_lt _ (by decide), Nat.mod_lt _ (by decide)⟩

theorem goodHistory_historyAfter (h : History) (today : Str) (dR dT : Nat)
    (hg : GoodHistory h) (hk : ReloadableKey today) :
    GoodHistory (historyAfter h today dR dT) := by
  unfold historyAfter
  split
  · exact goodHistory_set h today _ hg hk
      ⟨Nat.mod_lt _ (by decide), Nat.mod_lt _ (by decide)⟩
  · exact hg

theorem goodHistory_trackerAfter (t : InterfaceStateTracker) (today : Str)
    (liveStats : NetworkStatsSnapshot) (hg : GoodHistory t.DailyUsageHistory)
    (hk : ReloadableKey today) :
    GoodHistory (trackerAfter t today liveStats).DailyUsageHistory := by
  simp only [trackerAfter]
  split
  · exact hg
  · exact goodHistory_historyAfter _ _ _ _ hg hk

/-- What the polling step appends to the log of saved files. -/
theorem pollInterface_writes (env : Startup) (today name : Str) (st : MonitorState)
    (liveStats : NetworkStatsSnapshot) :
    ((pollInterface env today st (name, liveStats)).writes = st.writes ∧
        (trackerAfter (st.tracker name) today liveStats).DailyUsageHistory
          = (st.tracker name).DailyUsageHistory) ∨
      (pollInterface env today st (name, liveStats)).writes = st.writes ++
        [{ folder := interfaceFolder env name, name := name
           content := SaveDailyStatsToDisk
            (trackerAfter (st.tracker name) today liveStats).DailyUsageHistory }] := by
  by_cases hf : (st.tracker name).IsFirstMeasurement = true
  · left
    rw [pollInterface_first env today st (name, liveStats) hf]
    simp only [trackerAfter, hf, ↓reduceIte, and_self]
  · have hf' : (st.tracker name).IsFirstMeasurement = false := by simpa using hf
    by_cases hc : 0 < changeInReceived liveStats (st.tracker name) ∨
        0 < changeInTransmitted liveStats (st.tracker name)
    · right
      rw [pollInterface_changed env today st (name, liveStats) hf' hc]
      by_cases hp : env.physicalNames.contains name = true
      · simp only [hp, ↓reduceIte, interfaceFolder]
      · simp only [hp, ↓reduceIte, interfaceFolder, Bool.false_eq_true]
    · left
      rw [pollInterface_zero env today st (name, liveStats) hf' hc]
      simp only [trackerAfter, hf', Bool.false_eq_true, ↓reduceIte, historyAfter, hc, and_self]

theorem pollInterface_tracker_other (env : Startup) (today name other : Str) (st : MonitorState)
    (liveStats : NetworkStatsSnapshot) (hne : other ≠ name) :
    (pollInterface env today st (name, liveStats)).tracker other = st.tracker other := by
  simp only [MonitorState.tracker, StrMap.getD, pollInterface_collection,
    StrMap.find?_set_other _ _ hne]

/-- The polling step of an interface keeps the files in sync with the state. -/
theorem pollInterface_filesInSync (env : Startup) (opened : Nat → Bool)
    (hfold : PlainFolders env) (hopen : ∀ i, opened i = true) (today : Str)
    (st : MonitorState) (entry : Str × NetworkStatsSnapshot) (h : FilesInSync env opened st)
    (hname : InterfaceName entry.1) (hk : ReloadableKey today) :
    FilesInSync env opened (pollInterface env today st entry) := by
  obtain ⟨name, liveStats⟩ := entry
  obtain ⟨h1, h2, h3, h4⟩ := h
  have hw := pollInterface_writes env today name st liveStats
  refine ⟨?_, ?_, ?_, ?_⟩
  · rw [pollInterface_collection]
    exact StrMap.set_sorted _ _ _ h1
  · intro e he
    rw [pollInterface_collection] at he
    rcases StrMap.mem_set _ _ _ e he with h' | h'
    · rw [h']; exact hname
    · exact h2 e h'
  · intro n hn
    by_cases hnn : n = name
    · subst hnn
      rw [pollInterface_tracker]
      refine ⟨?_, goodHistory_trackerAfter _ _ _ (h3 n hn).2 hk⟩
      rcases hw with ⟨hw1, hw2⟩ | hw1
      · rw [hw1, hw2]; exact (h3 n hn).1
      · rw [hw1, fileContent_append_self opened hopen]
        exact Or.inl rfl
    · rw [pollInterface_tracker_other env today name n st liveStats hnn]
      refine ⟨?_, (h3 n hn).2⟩
      rcases hw with ⟨hw1, _⟩ | hw1
      · rw [hw1]; exact (h3 n hn).1
      · rw [hw1, fileContent_append_other opened hopen _ _ _ _
          (fileOf_ne _ _ _ _ hname.1 hn.1 (interfaceFolder_plain env hfold name)
            (interfaceFolder_plain env hfold n) (fun e => hnn e.symm))]
        exact (h3 n hn).1
  · intro physical
    rw [aggregateOf_pollInterface]
    refine ⟨?_, (h4 physical).2⟩
    rcases hw with ⟨hw1, _⟩ | hw1
    · rw [hw1]; exact (h4 physical).1
    · have hne : name ≠ aggregateFileName physical := by
        cases physical
        · exact hname.2.2
        · exact hname.2.1
      rw [hw1, fileContent_append_other opened hopen _ _ _ _
        (fileOf_ne _ _ _ _ hname.1 (aggregateFileName_plain physical)
          (interfaceFolder_plain env hfold name) (aggregateFolder_plain env hfold physical)
          hne)]
      exact (h4 physical).1

theorem fold_filesInSync (env : Startup) (opened : Nat → Bool) (hfold : PlainFolders env)
    (hopen : ∀ i, opened i = true) (today : Str) (hk : ReloadableKey today) :
    ∀ (entries : StrMap NetworkStatsSnapshot) (st : MonitorState),
      FilesInSync env opened st → (∀ e ∈ entries, InterfaceName e.1) →
      FilesInSync env opened (entries.foldl (pollInterface env today) st) := by
  intro entries
  induction entries with
  | nil => intro st h _; exact h
  | cons e rest ih =>
    intro st h hn
    rw [List.foldl_cons]
    exact ih _
      (pollInterface_filesInSync env opened hfold hopen today st e h (hn e (by simp)) hk)
      (fun x hx => hn x (by simp [hx]))

theorem updateAggregate_spec (opened : Nat → Bool) (hopen : ∀ i, opened i = true)
    (folder fileName today : Str) (tR tT : Nat)
    (aggregate : InterfaceStateTracker) (writes : List FileWrite)
    (hsync : InSync (fileContent opened writes folder fileName) aggregate.DailyUsageHistory)
    (hgood : GoodHistory aggregate.DailyUsageHistory) (hk : ReloadableKey today) :
    InSync
        (fileContent opened (updateAggregate folder fileName today tR tT aggregate writes).2
          folder fileName)
        (updateAggregate folder fileName today tR tT aggregate writes).1.DailyUsageHistory ∧
      GoodHistory
        (updateAggregate folder fileName today tR tT aggregate writes).1.DailyUsageHistory ∧
      (∀ f n, fileOf folder fileName ≠ fileOf f n →
        fileContent opened (updateAggregate folder fileName today tR tT aggregate writes).2 f n
          = fileContent opened writes f n) := by
  unfold updateAggregate
  by_cases hc : 0 < tR ∨ 0 < tT
  · simp only [hc, ↓reduceIte]
    refine ⟨?_, goodHistory_add _ _ _ _ hgood hk, ?_⟩
    · rw [fileContent_append_self opened hopen]
      exact Or.inl rfl
    · intro f n hn
      exact fileContent_append_other opened hopen _ _ _ _ hn
  · simp only [hc, ↓reduceIte]
    exact ⟨hsync, hgood, by simp⟩

theorem pollingCycle_writes (env : Startup) (today : Str)
    (snapshot : StrMap NetworkStatsSnapshot) (st : MonitorState) :
    (pollingCycle env today snapshot st).writes
      = (updateAggregate env.virtualInterfacesFolder "TotalVirtualUsage".toList today
          (cycleLoop env today snapshot st).totalVirtualChangeReceived
          (cycleLoop env today snapshot st).totalVirtualChangeTransmitted
          (cycleLoop env today snapshot st).virtualAggregateTracker
          (updateAggregate env.physicalInterfacesFolder "TotalPhysicalUsage".toList today
            (cycleLoop env today snapshot st).totalPhysicalChangeReceived
            (cycleLoop env today snapshot st).totalPhysicalChangeTransmitted
            (cycleLoop env today snapshot st).physicalAggregateTracker
            (cycleLoop env today snapshot st).writes).2).2 := rfl

theorem pollingCycle_tracker (env : Startup) (today : Str)
    (snapshot : StrMap NetworkStatsSnapshot) (st : MonitorState) (name : Str) :
    (pollingCycle env today snapshot st).tracker name
      = (cycleLoop env today snapshot st).tracker name := rfl

theorem cycleLoop_filesInSync (env : Startup) (opened : Nat → Bool)
    (hfold : PlainFolders env) (hopen : ∀ i, opened i = true) (today : Str)
    (snapshot : StrMap NetworkStatsSnapshot) (st : MonitorState)
    (h : FilesInSync env opened st)
    (hk : ReloadableKey today) (hn : ∀ e ∈ snapshot, InterfaceName e.1) :
    FilesInSync env opened (cycleLoop env today snapshot st) := by
  unfold cycleLoop
  exact fold_filesInSync env opened hfold hopen today hk snapshot _ h hn

/-- A polling cycle keeps the files in sync with the state. -/
theorem pollingCycle_filesInSync (env : Startup) (opened : Nat → Bool)
    (hfold : PlainFolders env) (hopen : ∀ i, opened i = true) (today : Str)
    (snapshot : StrMap NetworkStatsSnapshot) (st : MonitorState)
    (h : FilesInSync env opened st)
    (hk : ReloadableKey today) (hn : ∀ e ∈ snapshot, InterfaceName e.1) :
    FilesInSync env opened (pollingCycle env today snapshot st) := by
  obtain ⟨h1, h2, h3, h4⟩ :=
    cycleLoop_filesInSync env opened hfold hopen today snapshot st h hk hn
  have hpv : fileOf env.physicalInterfacesFolder "TotalPhysicalUsage".toList
      ≠ fileOf env.virtualInterfacesFolder "TotalVirtualUsage".toList :=
    fileOf_ne _ _ _ _ (by decide) (by decide) hfold.1 hfold.2 (by decide)
  have hpn : ∀ n, InterfaceName n →
      fileOf env.physicalInterfacesFolder "TotalPhysicalUsage".toList
        ≠ fileOf (interfaceFolder env n) n :=
    fun n hnm => fileOf_ne _ _ _ _ (by decide) hnm.1 hfold.1
      (interfaceFolder_plain env hfold n) (fun e => hnm.2.1 e.symm)
  have hvn : ∀ n, InterfaceName n →
      fileOf env.virtualInterfacesFolder "TotalVirtualUsage".toList
        ≠ fileOf (interfaceFolder env n) n :=
    fun n hnm => fileOf_ne _ _ _ _ (by decide) hnm.1 hfold.2
      (interfaceFolder_plain env hfold n) (fun e => hnm.2.2 e.symm)
  have hp := updateAggregate_spec opened hopen env.physicalInterfacesFolder
    "TotalPhysicalUsage".toList today
    (cycleLoop env today snapshot st).totalPhysicalChangeReceived
    (cycleLoop env today snapshot st).totalPhysicalChangeTransmitted
    (cycleLoop env today snapshot st).physicalAggregateTracker
    (cycleLoop env today snapshot st).writes (h4 true).1 (h4 true).2 hk
  have hv0 : InSync
      (fileContent opened
        (updateAggregate env.physicalInterfacesFolder "TotalPhysicalUsage".toList today
          (cycleLoop env today snapshot st).totalPhysicalChangeReceived
          (cycleLoop env today snapshot st).totalPhysicalChangeTransmitted
          (cycleLoop env today snapshot st).physicalAggregateTracker
          (cycleLoop env today snapshot st).writes).2
        env.virtualInterfacesFolder "TotalVirtualUsage".toList)
      (cycleLoop env today snapshot st).virtualAggregateTracker.DailyUsageHistory := by
    rw [hp.2.2 _ _ hpv]
    exact (h4 false).1
  have hv := updateAggregate_spec opened hopen env.virtualInterfacesFolder
    "TotalVirtualUsage".toList today
    (cycleLoop env today snapshot st).totalVirtualChangeReceived
    (cycleLoop env today snapshot st).totalVirtualChangeTransmitted
    (cycleLoop env today snapshot st).virtualAggregateTracker _ hv0 (h4 false).2 hk
  refine ⟨?_, ?_, ?_, ?_⟩
  · rw [pollingCycle_collection]; exact h1
  · rw [pollingCycle_collection]; exact h2
  · intro n hnm
    rw [pollingCycle_tracker, pollingCycle_writes, hv.2.2 _ _ (hvn n hnm),
      hp.2.2 _ _ (hpn n hnm)]
    exact h3 n hnm
  · intro physical
    cases physical
    · simp only [aggregateOf, aggregateFolder, aggregateFileName, Bool.false_eq_true,
        ↓reduceIte]
      rw [pollingCycle_virtual, pollingCycle_writes]
      exact ⟨hv.1, hv.2.1⟩
    · simp only [aggregateOf, aggregateFolder, aggregateFileName, ↓reduceIte]
      rw [pollingCycle_physical, pollingCycle_writes, hv.2.2 _ _ (fun e => hpv e.symm)]
      exact ⟨hp.1, hp.2.1⟩

theorem runCycles_filesInSync (env : Startup) (opened : Nat → Bool)
    (hfold : PlainFolders env) (hopen : ∀ i, opened i = true) :
    ∀ (cycles : List (Str × StrMap NetworkStatsSnapshot)) (st : MonitorState),
      FilesInSync env opened st →
      (∀ c ∈ cycles, ReloadableKey c.1 ∧ ∀ e ∈ c.2, InterfaceName e.1) →
      FilesInSync env opened (runCycles env st cycles) := by
  intro cycles
  induction cycles with
  | nil => intro st h _; exact h
  | cons c rest ih =>
    intro st h hc
    simp only [runCycles, List.foldl_cons]
    exact ih _
      (pollingCycle_filesInSync env opened hfold hopen c.1 c.2 st h (hc c (by simp)).1
        (hc c (by simp)).2)
      (fun x hx => hc x (by simp [hx]))

theorem StrMap.find?_of_mem_sorted {V : Type} :
    ∀ (m : StrMap V) (k : Str) (v : V), StrMap.Sorted m → (k, v) ∈ m →
      StrMap.find? m k = some v := by
  intro m
  induction m with
  | nil => intro k v _ h; exact absurd h (List.not_mem_nil _)
  | cons e rest ih =>
    intro k v hs hm
    obtain ⟨k', v'⟩ := e
    have hs' := List.pairwise_cons.1 hs
    rcases List.mem_cons.1 hm with h | h
    · simp only [Prod.mk.injEq] at h
      obtain ⟨rfl, rfl⟩ := h
      simp [StrMap.find?, strLt_irrefl]
    · have hlt : strLt k' k = true := hs'.1 (k, v) h
      simp only [StrMap.find?, hlt, ↓reduceIte]
      exact ih k v hs'.2 h

theorem StrMap.mem_of_find? {V : Type} :
    ∀ (m : StrMap V) (k : Str) (v : V), StrMap.find? m k = some v → ∃ k', (k', v) ∈ m := by
  intro m
  induction m with
  | nil => intro k v h; simp [StrMap.find?] at h
  | cons e rest ih =>
    intro k v h
    obtain ⟨k', v'⟩ := e
    simp only [StrMap.find?] at h
    split at h
    · obtain ⟨k2, hk2⟩ := ih k v h
      exact ⟨k2, List.mem_cons_of_mem _ hk2⟩
    · split at h
      · exact absurd h (by simp)
      · simp only [Option.some.injEq] at h
        exact ⟨k', by simp [h]⟩

theorem filesInSync_of_empty (env : Startup) (opened : Nat → Bool) (st : MonitorState)
    (hempty : AllHistoriesEmpty st)
    (hwrites : st.writes = []) (hsorted : StrMap.Sorted st.internalStateCollection)
    (hnames : ∀ e ∈ st.internalStateCollection, InterfaceName e.1) :
    FilesInSync env opened st := by
  obtain ⟨h1, h2, h3⟩ := hempty
  have htr : ∀ name, (st.tracker name).DailyUsageHistory = [] := by
    intro name
    simp only [MonitorState.tracker, StrMap.getD]
    cases hf : StrMap.find? st.internalStateCollection name with
    | none => rfl
    | some t =>
      obtain ⟨k', hk'⟩ := StrMap.mem_of_find? _ _ _ hf
      exact h1 (k', t) hk'
  refine ⟨hsorted, hnames, ?_, ?_⟩
  · intro name _
    rw [htr name, hwrites]
    exact ⟨Or.inr ⟨rfl, rfl⟩, goodHistory_nil⟩
  · intro physical
    have ha : (aggregateOf st physical).DailyUsageHistory = [] := by
      cases physical
      · exact h3
      · exact h2
    rw [ha, hwrites]
    exact ⟨Or.inr ⟨rfl, rfl⟩, goodHistory_nil⟩

theorem categoryFileSum_eq (env : Startup) (opened : Nat → Bool) (st : MonitorState)
    (h : FilesInSync env opened st) (physical received : Bool) (date : Str) :
    ∀ (m : StrMap InterfaceStateTracker),
      (∀ e ∈ m, InterfaceName e.1 ∧ st.tracker e.1 = e.2) →
      categoryFileSum env opened st.writes physical received date m
        = categoryWholeMegabytes env physical received date m := by
  intro m
  induction m with
  | nil => intro _; rfl
  | cons e rest ih =>
    intro hm
    obtain ⟨name, tracker⟩ := e
    obtain ⟨hn, ht⟩ := hm (name, tracker) (by simp)
    simp only at hn ht
    have hsync := h.2.2.1 name hn
    rw [ht] at hsync
    simp only [categoryFileSum, categoryWholeMegabytes]
    rw [ih (fun e he => hm e (by simp [he])),
      megabytesInFile_of_inSync _ _ date hsync.1 hsync.2 received]

/-- The byte sum of a category is its whole megabytes, interface by interface, plus
what the interfaces hold beyond them. -/
theorem categorySum_eq_megabytes_add_remainders (env : Startup) (physical received : Bool)
    (date : Str) :
    ∀ (m : StrMap InterfaceStateTracker),
      categorySum env physical received date m
        = 1048576 * categoryWholeMegabytes env physical received date m
          + categoryRemainders env physical received date m := by
  intro m
  induction m with
  | nil => simp [categoryWholeMegabytes, categorySum, categoryRemainders]
  | cons e rest ih =>
    obtain ⟨name, tracker⟩ := e
    simp only [categoryWholeMegabytes, categorySum, categoryRemainders]
    split <;> omega

/-- A call that cannot open its file leaves the disk as it was: when no call of the
log opens a file, no file exists. -/
theorem fileContentAux_of_none_opened (opened : Nat → Bool) (hclosed : ∀ i, opened i = false)
    (file : Bool × List Str) :
    ∀ (ws : List FileWrite) (i : Nat) (current : Option Str),
      fileContentAux opened file i ws current = current := by
  intro ws
  induction ws with
  | nil => intro i current; rfl
  | cons w rest ih =>
    intro i current
    rw [fileContentAux, ih]
    simp [hclosed]

/-! ## Claim about the aggregate file and the per-interface files -/

/-- C13 (counterexample): from the fresh state and empty storage, after two cycles
in which the physical interfaces `eth0` and `eth1` receive 600,000 bytes each and
every save opens its file, the file of each shows 0 MB received for the day while
the aggregate file `TotalPhysicalUsage` shows 1 MB: the aggregate value is not the
sum of the per-interface values. -/
theorem C13_counterexample_remainders_add_up :
    (runCycles exampleTwoPhysical {} exampleTwoCycles).writes
        = [{ folder := "/home/u/NetworkUsage/PhysicalInterfaces".toList, name := "eth0".toList
             content := "2024-01-01: Transmitted: 0MB , Received: 0MB, Total: 0MB\n".toList },
           { folder := "/home/u/NetworkUsage/PhysicalInterfaces".toList, name := "eth1".toList
             content := "2024-01-01: Transmitted: 0MB , Received: 0MB, Total: 0MB\n".toList },
           { folder := "/home/u/NetworkUsage/VirtualInterfaces".toList, name := "lo".toList
             content := "2024-01-01: Transmitted: 0MB , Received: 0MB, Total: 0MB\n".toList },
           { folder := "/home/u/NetworkUsage/PhysicalInterfaces".toList
             name := "TotalPhysicalUsage".toList
             content := "2024-01-01: Transmitted: 0MB , Received: 1MB, Total: 1MB\n".toList },
           { folder := "/home/u/NetworkUsage/VirtualInterfaces".toList
             name := "TotalVirtualUsage".toList
             content := "2024-01-01: Transmitted: 0MB , Received: 0MB, Total: 0MB\n".toList }] ∧
      (megabytesInFile
          (fileContent (fun _ => true)
            (runCycles exampleTwoPhysical {} exampleTwoCycles).writes
            exampleTwoPhysical.physicalInterfacesFolder "TotalPhysicalUsage".toList)
          "2024-01-01".toList).ReceivedBytes = 1 ∧
      (megabytesInFile
          (fileContent (fun _ => true)
            (runCycles exampleTwoPhysical {} exampleTwoCycles).writes
            exampleTwoPhysical.physicalInterfacesFolder "eth0".toList)
          "2024-01-01".toList).ReceivedBytes = 0 ∧
      (megabytesInFile
          (fileContent (fun _ => true)
            (runCycles exampleTwoPhysical {} exampleTwoCycles).writes
            exampleTwoPhysical.physicalInterfacesFolder "eth1".toList)
          "2024-01-01".toList).ReceivedBytes = 0 ∧
      categoryFileSum exampleTwoPhysical (fun _ => true)
          (runCycles exampleTwoPhysical {} exampleTwoCycles).writes
          true true "2024-01-01".toList
          (runCycles exampleTwoPhysical {} exampleTwoCycles).internalStateCollection = 0 := by
  decide

/-- C13 (amended): take storage folders whose paths are C strings, start from a
state whose histories are all empty and from empty storage, and run any number of
polling cycles whose dates are reloadable keys, whose interfaces have plain file
names other than the names of the aggregate files, and in which every save opens
its file. Then for every date, category and counter: the megabyte value the
aggregate file shows is the whole megabytes of the 64-bit sum of the byte counts
of the tracked interfaces of the category; the file of every tracked interface
shows the whole megabytes of its own byte count; and, when that sum is below
`2 ^ 64`, the value of the aggregate file is the sum of the values of the
per-interface files of the category plus the whole megabytes in the sum of what
the interfaces hold beyond their whole megabytes - so it is at least the sum of the
per-interface values, and exceeds it exactly when those remainders add up to a
megabyte or more. -/
theorem C13_aggregate_file_is_floor_of_byte_sum (env : Startup) (opened : Nat → Bool)
    (st0 : MonitorState) (cycles : List (Str × StrMap NetworkStatsSnapshot))
    (hfold : PlainFolders env) (hopen : ∀ i, opened i = true)
    (hempty : AllHistoriesEmpty st0) (hwrites : st0.writes = [])
    (hsorted : StrMap.Sorted st0.internalStateCollection)
    (hnames : ∀ e ∈ st0.internalStateCollection, InterfaceName e.1)
    (hcycles : ∀ c ∈ cycles, ReloadableKey c.1 ∧ ∀ e ∈ c.2, InterfaceName e.1)
    (date : Str) (physical received : Bool) :
    counterOf received
        (megabytesInFile
          (fileContent opened (runCycles env st0 cycles).writes (aggregateFolder env physical)
            (aggregateFileName physical)) date)
      = categorySum env physical received date
          (runCycles env st0 cycles).internalStateCollection % 2 ^ 64 / 1048576 ∧
      (∀ e ∈ (runCycles env st0 cycles).internalStateCollection,
        counterOf received
            (megabytesInFile
              (fileContent opened (runCycles env st0 cycles).writes (interfaceFolder env e.1)
                e.1) date)
          = counterOf received (History.get e.2.DailyUsageHistory date) / 1048576) ∧
      (categorySum env physical received date
            (runCycles env st0 cycles).internalStateCollection < 2 ^ 64 →
        counterOf received
            (megabytesInFile
              (fileContent opened (runCycles env st0 cycles).writes
                (aggregateFolder env physical) (aggregateFileName physical)) date)
          = categoryFileSum env opened (runCycles env st0 cycles).writes physical received
                date (runCycles env st0 cycles).internalStateCollection
              + categoryRemainders env physical received date
                  (runCycles env st0 cycles).internalStateCollection / 1048576 ∧
          (categoryFileSum env opened (runCycles env st0 cycles).writes physical received
                date (runCycles env st0 cycles).internalStateCollection
              < counterOf received
                  (megabytesInFile
                    (fileContent opened (runCycles env st0 cycles).writes
                      (aggregateFolder env physical) (aggregateFileName physical)) date)
            ↔ 1048576 ≤ categoryRemainders env physical received date
                (runCycles env st0 cycles).internalStateCollection)) := by
  have hsync := runCycles_filesInSync env opened hfold hopen cycles st0
    (filesInSync_of_empty env opened st0 hempty hwrites hsorted hnames) hcycles
  have hmatch := (aggregatesMatch_iff env _).1
    (runCycles_aggregatesMatch env cycles st0 (aggregatesMatch_of_empty env st0 hempty))
    date physical received
  have htracker : ∀ e ∈ (runCycles env st0 cycles).internalStateCollection,
      (runCycles env st0 cycles).tracker e.1 = e.2 := by
    intro e he
    simp only [MonitorState.tracker, StrMap.getD,
      StrMap.find?_of_mem_sorted _ e.1 e.2 hsync.1 he, Option.getD_some]
  have hagg : counterOf received
      (megabytesInFile
        (fileContent opened (runCycles env st0 cycles).writes (aggregateFolder env physical)
          (aggregateFileName physical)) date)
      = categorySum env physical received date
          (runCycles env st0 cycles).internalStateCollection % 2 ^ 64 / 1048576 := by
    rw [megabytesInFile_of_inSync _ _ date (hsync.2.2.2 physical).1 (hsync.2.2.2 physical).2
      received, hmatch]
  have hfiles : categoryFileSum env opened (runCycles env st0 cycles).writes physical received
      date (runCycles env st0 cycles).internalStateCollection
      = categoryWholeMegabytes env physical received date
          (runCycles env st0 cycles).internalStateCollection := by
    apply categoryFileSum_eq env opened _ hsync
    intro e he
    exact ⟨hsync.2.1 e he, htracker e he⟩
  have hsum := categorySum_eq_megabytes_add_remainders env physical received date
    (runCycles env st0 cycles).internalStateCollection
  refine ⟨hagg, ?_, ?_⟩
  · intro e he
    have hs := hsync.2.2.1 e.1 (hsync.2.1 e he)
    rw [htracker e he] at hs
    exact megabytesInFile_of_inSync _ _ date hs.1 hs.2 received
  · intro hlt
    rw [hagg, hfiles, Nat.mod_eq_of_lt hlt, hsum]
    constructor
    · omega
    · omega

/-- C13 (amended), for the two cycles of the counterexample: the two physical
interfaces hold 600,000 bytes each, their files show 0 MB each, and the aggregate
file shows `0 + 1200000 / 1048576 = 1` MB. -/
theorem C13_aggregate_file_is_floor_of_byte_sum_witness :
    PlainFolders exampleTwoPhysical ∧ AllHistoriesEmpty {} ∧
      (∀ c ∈ exampleTwoCycles, ReloadableKey c.1 ∧ ∀ e ∈ c.2, InterfaceName e.1) ∧
      categorySum exampleTwoPhysical true true "2024-01-01".toList
          (runCycles exampleTwoPhysical {} exampleTwoCycles).internalStateCollection
        = 1200000 ∧
      categoryRemainders exampleTwoPhysical true true "2024-01-01".toList
          (runCycles exampleTwoPhysical {} exampleTwoCycles).internalStateCollection
        = 1200000 ∧
      counterOf true
          (megabytesInFile
            (fileContent (fun _ => true)
              (runCycles exampleTwoPhysical {} exampleTwoCycles).writes
              (aggregateFolder exampleTwoPhysical true) (aggregateFileName true))
            "2024-01-01".toList)
        = categoryFileSum exampleTwoPhysical (fun _ => true)
              (runCycles exampleTwoPhysical {} exampleTwoCycles).writes true true
              "2024-01-01".toList
              (runCycles exampleTwoPhysical {} exampleTwoCycles).internalStateCollection
            + categoryRemainders exampleTwoPhysical true true "2024-01-01".toList
                (runCycles exampleTwoPhysical {} exampleTwoCycles).internalStateCollection
              / 1048576 :=
  ⟨by decide, by decide, by decide, by decide, by decide,
    ((C13_aggregate_file_is_floor_of_byte_sum exampleTwoPhysical (fun _ => true) {}
      exampleTwoCycles (by decide) (fun _ => rfl) (by decide) rfl List.Pairwise.nil
      (fun e he => absurd he (List.not_mem_nil e))
      (by decide) "2024-01-01".toList true true).2.2 (by decide)).1⟩

end NetMon
